import Mathlib

/-!
GRBL 0.9j serial driver (`serial.c`).

A shallow embedding of the receive and transmit ring buffers, the XON/XOFF flow-control
variable, the realtime-command pick-off and the interrupt handlers of `serial.c`, followed by
theorems about them.

Conventions of the embedding.

* `uint8_t` variables are natural numbers; every place where the C code computes a value that
  is stored back into a `uint8_t` is reduced modulo 256 explicitly.
* The two arrays are functions from an index to a byte; a store is a pointwise update.
* The constants of `grbl.h` (buffer sizes, watermarks, command bytes, flag masks, flow-control
  codes) are not part of `serial.c`; they are the fields of `Config`.
* A hardware register that is written is a field of `State`; the data register is the list of
  all bytes written to it, oldest first.  The byte read from the receive data register is an
  argument of the receive handler.
-/

namespace Serial

/-- The processor selected by the `CPU_MAP_*` macros. -/
inductive CpuMap where
  | ATMEGA
  | STM32F10X
  deriving DecidableEq, Repr

/-- The compile-time constants that `serial.c` takes from `grbl.h`, and the external
motion-control reset routine as a function of the realtime execution flags. -/
structure Config where
  cpu : CpuMap
  ENABLE_XONXOFF : Bool
  RX_BUFFER_SIZE : Nat
  TX_BUFFER_SIZE : Nat
  RX_BUFFER_FULL : Nat
  RX_BUFFER_LOW : Nat
  SERIAL_NO_DATA : Nat
  SEND_XOFF : Nat
  SEND_XON : Nat
  XOFF_SENT : Nat
  XON_SENT : Nat
  XOFF_CHAR : Nat
  XON_CHAR : Nat
  CMD_STATUS_REPORT : Nat
  CMD_CYCLE_START : Nat
  CMD_FEED_HOLD : Nat
  CMD_SAFETY_DOOR : Nat
  CMD_RESET : Nat
  EXEC_STATUS_REPORT : Nat
  EXEC_CYCLE_START : Nat
  EXEC_FEED_HOLD : Nat
  EXEC_SAFETY_DOOR : Nat
  EXEC_RESET : Nat
  mc_reset : Nat → Nat

/-- The global variables of `serial.c`, the realtime execution flags it shares with the rest
of the firmware, and the hardware registers it writes.
`UDRIE0` is the data-register-empty interrupt enable bit of `UCSR0B`; `UDR0` lists the bytes
assigned to the AVR data register.  `USART_IT_TXE` is the transmit-empty interrupt enable set
by `USART_ITConfig`; `USART1_DR` lists the bytes passed to `USART_SendData`.
`mc_reset_calls` counts the invocations of `mc_reset`. -/
structure State where
  serial_rx_buffer : Nat → Nat
  serial_rx_buffer_head : Nat
  serial_rx_buffer_tail : Nat
  serial_tx_buffer : Nat → Nat
  serial_tx_buffer_head : Nat
  serial_tx_buffer_tail : Nat
  flow_ctrl : Nat
  sys_rt_exec_state : Nat
  UDRIE0 : Bool
  UDR0 : List Nat
  USART_IT_TXE : Bool
  USART1_DR : List Nat
  mc_reset_calls : Nat

/-- Conversion of a C `int` value to `uint8_t`. -/
def u8 (i : Int) : Nat := (i % 256).toNat

/-- The array store `a[i] = v`. -/
def store (a : Nat → Nat) (i v : Nat) : Nat → Nat :=
  fun j => if j = i then v else a j

/-- Modelled from the spec: the macro `bit_true_atomic(x, mask)` of the firmware's utility
header is missing; the spec says the effect sets one bit in an atomically-updated bitset. -/
def bit_true_atomic (x mask : Nat) : Nat := x ||| mask

/-- Translation of `serial_get_rx_buffer_count`. -/
def serial_get_rx_buffer_count (cfg : Config) (s : State) : Nat :=
  let rtail := s.serial_rx_buffer_tail
  if s.serial_rx_buffer_head ≥ rtail then
    u8 ((s.serial_rx_buffer_head : Int) - rtail)
  else
    u8 ((cfg.RX_BUFFER_SIZE : Int) - ((rtail : Int) - s.serial_rx_buffer_head))

/-- Translation of `serial_get_tx_buffer_count`. -/
def serial_get_tx_buffer_count (cfg : Config) (s : State) : Nat :=
  let ttail := s.serial_tx_buffer_tail
  if s.serial_tx_buffer_head ≥ ttail then
    u8 ((s.serial_tx_buffer_head : Int) - ttail)
  else
    u8 ((cfg.TX_BUFFER_SIZE : Int) - ((ttail : Int) - s.serial_tx_buffer_head))

/-- The wait loop of `serial_write`: `some true` when the loop is left because a slot is free,
`some false` when the function returns on `EXEC_RESET`, `none` when the loop is still spinning
after `fuel` evaluations of its condition.  Nothing inside the loop changes the state. -/
def serial_write_wait (cfg : Config) (s : State) (next_head : Nat) : Nat → Option Bool
  | 0 => none
  | fuel + 1 =>
    if next_head = s.serial_tx_buffer_tail then
      if s.sys_rt_exec_state &&& cfg.EXEC_RESET ≠ 0 then some false
      else serial_write_wait cfg s next_head fuel
    else some true

/-- Translation of `serial_write`. -/
def serial_write (cfg : Config) (s : State) (data : Nat) (fuel : Nat) : Option State :=
  let next_head := u8 ((s.serial_tx_buffer_head : Int) + 1)
  let next_head := if next_head = cfg.TX_BUFFER_SIZE then 0 else next_head
  match serial_write_wait cfg s next_head fuel with
  | none => none
  | some false => some s
  | some true =>
    let s1 := { s with
      serial_tx_buffer := store s.serial_tx_buffer s.serial_tx_buffer_head data
      serial_tx_buffer_head := next_head }
    match cfg.cpu with
    | CpuMap.ATMEGA => some { s1 with UDRIE0 := true }
    | CpuMap.STM32F10X => some { s1 with USART_IT_TXE := true }

/-- Translation of `serial_read`: the returned byte and the new state. -/
def serial_read (cfg : Config) (s : State) : Nat × State :=
  let tail := s.serial_rx_buffer_tail
  if s.serial_rx_buffer_head = tail then
    (cfg.SERIAL_NO_DATA, s)
  else
    let data := s.serial_rx_buffer tail
    let tail := u8 ((tail : Int) + 1)
    let tail := if tail = cfg.RX_BUFFER_SIZE then 0 else tail
    let s1 := { s with serial_rx_buffer_tail := tail }
    let s2 :=
      if cfg.ENABLE_XONXOFF then
        if serial_get_rx_buffer_count cfg s1 < cfg.RX_BUFFER_LOW ∧ s1.flow_ctrl = cfg.XOFF_SENT then
          { s1 with flow_ctrl := cfg.SEND_XON, UDRIE0 := true }
        else s1
      else s1
    (data, s2)

/-- Translation of `ISR(SERIAL_UDRE)`. -/
def ISR_SERIAL_UDRE (cfg : Config) (s : State) : State :=
  let tail := s.serial_tx_buffer_tail
  let r : State × Nat :=
    if cfg.ENABLE_XONXOFF = true ∧ s.flow_ctrl = cfg.SEND_XOFF then
      ({ s with UDR0 := s.UDR0 ++ [cfg.XOFF_CHAR], flow_ctrl := cfg.XOFF_SENT }, tail)
    else if cfg.ENABLE_XONXOFF = true ∧ s.flow_ctrl = cfg.SEND_XON then
      ({ s with UDR0 := s.UDR0 ++ [cfg.XON_CHAR], flow_ctrl := cfg.XON_SENT }, tail)
    else
      let s1 := { s with UDR0 := s.UDR0 ++ [s.serial_tx_buffer tail] }
      let tail := u8 ((tail : Int) + 1)
      let tail := if tail = cfg.TX_BUFFER_SIZE then 0 else tail
      ({ s1 with serial_tx_buffer_tail := tail }, tail)
  if r.2 = r.1.serial_tx_buffer_head then { r.1 with UDRIE0 := false } else r.1

/-- Translation of `ISR(SERIAL_RX)`; `data` is the byte read from `UDR0`. -/
def ISR_SERIAL_RX (cfg : Config) (s : State) (data : Nat) : State :=
  if data = cfg.CMD_STATUS_REPORT then
    { s with sys_rt_exec_state := bit_true_atomic s.sys_rt_exec_state cfg.EXEC_STATUS_REPORT }
  else if data = cfg.CMD_CYCLE_START then
    { s with sys_rt_exec_state := bit_true_atomic s.sys_rt_exec_state cfg.EXEC_CYCLE_START }
  else if data = cfg.CMD_FEED_HOLD then
    { s with sys_rt_exec_state := bit_true_atomic s.sys_rt_exec_state cfg.EXEC_FEED_HOLD }
  else if data = cfg.CMD_SAFETY_DOOR then
    { s with sys_rt_exec_state := bit_true_atomic s.sys_rt_exec_state cfg.EXEC_SAFETY_DOOR }
  else if data = cfg.CMD_RESET then
    { s with
      sys_rt_exec_state := cfg.mc_reset s.sys_rt_exec_state
      mc_reset_calls := s.mc_reset_calls + 1 }
  else
    let next_head := u8 ((s.serial_rx_buffer_head : Int) + 1)
    let next_head := if next_head = cfg.RX_BUFFER_SIZE then 0 else next_head
    if next_head ≠ s.serial_rx_buffer_tail then
      let s1 := { s with
        serial_rx_buffer := store s.serial_rx_buffer s.serial_rx_buffer_head data
        serial_rx_buffer_head := next_head }
      if cfg.ENABLE_XONXOFF then
        if serial_get_rx_buffer_count cfg s1 ≥ cfg.RX_BUFFER_FULL ∧ s1.flow_ctrl = cfg.XON_SENT then
          { s1 with flow_ctrl := cfg.SEND_XOFF, UDRIE0 := true }
        else s1
      else s1
    else s

/-- The receive branch of `USART1_IRQHandler`; `data` is the value of `USART_ReceiveData`. -/
def USART1_IRQHandler_rx (cfg : Config) (s : State) (data : Nat) : State :=
  if data = cfg.CMD_STATUS_REPORT then
    { s with sys_rt_exec_state := bit_true_atomic s.sys_rt_exec_state cfg.EXEC_STATUS_REPORT }
  else if data = cfg.CMD_CYCLE_START then
    { s with sys_rt_exec_state := bit_true_atomic s.sys_rt_exec_state cfg.EXEC_CYCLE_START }
  else if data = cfg.CMD_FEED_HOLD then
    { s with sys_rt_exec_state := bit_true_atomic s.sys_rt_exec_state cfg.EXEC_FEED_HOLD }
  else if data = cfg.CMD_SAFETY_DOOR then
    { s with sys_rt_exec_state := bit_true_atomic s.sys_rt_exec_state cfg.EXEC_SAFETY_DOOR }
  else if data = cfg.CMD_RESET then
    { s with
      sys_rt_exec_state := cfg.mc_reset s.sys_rt_exec_state
      mc_reset_calls := s.mc_reset_calls + 1 }
  else
    let next_head := u8 ((s.serial_rx_buffer_head : Int) + 1)
    let next_head := if next_head = cfg.RX_BUFFER_SIZE then 0 else next_head
    if next_head ≠ s.serial_rx_buffer_tail then
      let s1 := { s with
        serial_rx_buffer := store s.serial_rx_buffer s.serial_rx_buffer_head data
        serial_rx_buffer_head := next_head }
      if cfg.ENABLE_XONXOFF then
        if serial_get_rx_buffer_count cfg s1 ≥ cfg.RX_BUFFER_FULL ∧ s1.flow_ctrl = cfg.XON_SENT then
          { s1 with flow_ctrl := cfg.SEND_XOFF, UDRIE0 := true }
        else s1
      else s1
    else s

/-- The transmit branch of `USART1_IRQHandler`.  Under `ENABLE_XONXOFF` the control bytes are
assigned to `UDR0`, as in the source; data bytes go through `USART_SendData`. -/
def USART1_IRQHandler_tx (cfg : Config) (s : State) : State :=
  let tail := s.serial_tx_buffer_tail
  let r : State × Nat :=
    if cfg.ENABLE_XONXOFF = true ∧ s.flow_ctrl = cfg.SEND_XOFF then
      ({ s with UDR0 := s.UDR0 ++ [cfg.XOFF_CHAR], flow_ctrl := cfg.XOFF_SENT }, tail)
    else if cfg.ENABLE_XONXOFF = true ∧ s.flow_ctrl = cfg.SEND_XON then
      ({ s with UDR0 := s.UDR0 ++ [cfg.XON_CHAR], flow_ctrl := cfg.XON_SENT }, tail)
    else
      let s1 := { s with USART1_DR := s.USART1_DR ++ [s.serial_tx_buffer tail] }
      let tail := u8 ((tail : Int) + 1)
      let tail := if tail = cfg.TX_BUFFER_SIZE then 0 else tail
      ({ s1 with serial_tx_buffer_tail := tail }, tail)
  if r.2 = r.1.serial_tx_buffer_head then { r.1 with USART_IT_TXE := false } else r.1

/-- Translation of `USART1_IRQHandler`.  `rxne` is `some data` when
`USART_GetFlagStatus(USART1, USART_IT_RXNE)` is set, with `data` the received byte; `txe`
tells whether `USART_GetITStatus(USART1, USART_IT_TXE)` is set. -/
def USART1_IRQHandler (cfg : Config) (s : State) (rxne : Option Nat) (txe : Bool) : State :=
  let s1 :=
    match rxne with
    | some data => USART1_IRQHandler_rx cfg s data
    | none => s
  if txe then USART1_IRQHandler_tx cfg s1 else s1

/-- Translation of `serial_reset_read_buffer`. -/
def serial_reset_read_buffer (cfg : Config) (s : State) : State :=
  let s1 := { s with serial_rx_buffer_tail := s.serial_rx_buffer_head }
  if cfg.ENABLE_XONXOFF then { s1 with flow_ctrl := cfg.XON_SENT } else s1

/-- The index that follows `i` in a ring of `N` slots, as the C code computes it:
increment in `uint8_t`, then wrap to 0 when the size is reached. -/
def next_index (N i : Nat) : Nat :=
  let n := u8 ((i : Int) + 1)
  if n = N then 0 else n

/-- The bytes stored at indices `tail`, `tail+1`, ... (modulo `N`) up to but excluding `head`. -/
def ring_contents (N : Nat) (buf : Nat → Nat) (head tail : Nat) : List Nat :=
  (List.range ((head + N - tail) % N)).map (fun k => buf ((tail + k) % N))

/-- The byte is one of the five realtime command bytes. -/
def is_realtime (cfg : Config) (b : Nat) : Prop :=
  b = cfg.CMD_STATUS_REPORT ∨ b = cfg.CMD_CYCLE_START ∨ b = cfg.CMD_FEED_HOLD ∨
    b = cfg.CMD_SAFETY_DOOR ∨ b = cfg.CMD_RESET

instance (cfg : Config) (b : Nat) : Decidable (is_realtime cfg b) := by
  unfold is_realtime
  infer_instance

/-- A data byte is a byte that is not a realtime command byte. -/
def is_data (cfg : Config) (b : Nat) : Prop := ¬ is_realtime cfg b

instance (cfg : Config) (b : Nat) : Decidable (is_data cfg b) := by
  unfold is_data
  infer_instance

/-- The contents of the RX ring buffer, oldest byte first. -/
def rx_contents (cfg : Config) (s : State) : List Nat :=
  ring_contents cfg.RX_BUFFER_SIZE s.serial_rx_buffer s.serial_rx_buffer_head
    s.serial_rx_buffer_tail

/-- The contents of the TX ring buffer, oldest byte first. -/
def tx_contents (cfg : Config) (s : State) : List Nat :=
  ring_contents cfg.TX_BUFFER_SIZE s.serial_tx_buffer s.serial_tx_buffer_head
    s.serial_tx_buffer_tail

/-- The RX buffer is full: advancing `head` would make it equal to `tail`. -/
def rx_full (cfg : Config) (s : State) : Prop :=
  (s.serial_rx_buffer_head + 1) % cfg.RX_BUFFER_SIZE = s.serial_rx_buffer_tail

instance (cfg : Config) (s : State) : Decidable (rx_full cfg s) := by
  unfold rx_full
  infer_instance

/-- The RX buffer is empty. -/
def rx_empty (s : State) : Prop := s.serial_rx_buffer_head = s.serial_rx_buffer_tail

instance (s : State) : Decidable (rx_empty s) := by
  unfold rx_empty
  infer_instance

/-- The TX buffer is full. -/
def tx_full (cfg : Config) (s : State) : Prop :=
  (s.serial_tx_buffer_head + 1) % cfg.TX_BUFFER_SIZE = s.serial_tx_buffer_tail

instance (cfg : Config) (s : State) : Decidable (tx_full cfg s) := by
  unfold tx_full
  infer_instance

/-- One event on the receive side: the RX interrupt with a received byte, or a `serial_read`
from the main loop. -/
inductive RxOp where
  | rx (b : Nat)
  | read
  deriving DecidableEq, Repr

/-- The state after one receive-side event. -/
def rx_step (cfg : Config) (s : State) : RxOp → State
  | RxOp.rx b => ISR_SERIAL_RX cfg s b
  | RxOp.read => (serial_read cfg s).2

/-- The state after a sequence of receive-side events. -/
def rx_run (cfg : Config) : State → List RxOp → State
  | s, [] => s
  | s, op :: ops => rx_run cfg (rx_step cfg s op) ops

/-- The bytes accepted during a run: those handed to the RX interrupt while the buffer was
not full, in order of arrival. -/
def accepted (cfg : Config) : State → List RxOp → List Nat
  | _, [] => []
  | s, RxOp.rx b :: ops =>
    if rx_full cfg s then accepted cfg (rx_step cfg s (RxOp.rx b)) ops
    else b :: accepted cfg (rx_step cfg s (RxOp.rx b)) ops
  | s, RxOp.read :: ops => accepted cfg (rx_step cfg s RxOp.read) ops

/-- The bytes returned during a run by the reads that found the buffer non-empty, in order. -/
def returned (cfg : Config) : State → List RxOp → List Nat
  | _, [] => []
  | s, RxOp.rx b :: ops => returned cfg (rx_step cfg s (RxOp.rx b)) ops
  | s, RxOp.read :: ops =>
    if rx_empty s then returned cfg (rx_step cfg s RxOp.read) ops
    else (serial_read cfg s).1 :: returned cfg (rx_step cfg s RxOp.read) ops

/-- A configuration at which the theorems are instantiated.  The buffer sizes (128 and 64) and
the watermarks (100 and 20) are the ones the spec names; the other constants are pairwise
distinct sample byte values, with XON/XOFF compiled in for the AVR target. -/
def sample_config : Config where
  cpu := CpuMap.ATMEGA
  ENABLE_XONXOFF := true
  RX_BUFFER_SIZE := 128
  TX_BUFFER_SIZE := 64
  RX_BUFFER_FULL := 100
  RX_BUFFER_LOW := 20
  SERIAL_NO_DATA := 255
  SEND_XOFF := 1
  SEND_XON := 2
  XOFF_SENT := 3
  XON_SENT := 4
  XOFF_CHAR := 19
  XON_CHAR := 17
  CMD_STATUS_REPORT := 63
  CMD_CYCLE_START := 126
  CMD_FEED_HOLD := 33
  CMD_SAFETY_DOOR := 64
  CMD_RESET := 24
  EXEC_STATUS_REPORT := 1
  EXEC_CYCLE_START := 2
  EXEC_FEED_HOLD := 8
  EXEC_SAFETY_DOOR := 32
  EXEC_RESET := 16
  mc_reset := fun x => x ||| 16

/-- The state at start-up: the initialisers of the globals of `serial.c` (indices 0,
`flow_ctrl = XON_SENT`), zeroed arrays, no flag set, interrupts for transmission disabled and
nothing transmitted yet. -/
def init_state (cfg : Config) : State where
  serial_rx_buffer := fun _ => 0
  serial_rx_buffer_head := 0
  serial_rx_buffer_tail := 0
  serial_tx_buffer := fun _ => 0
  serial_tx_buffer_head := 0
  serial_tx_buffer_tail := 0
  flow_ctrl := cfg.XON_SENT
  sys_rt_exec_state := 0
  UDRIE0 := false
  UDR0 := []
  USART_IT_TXE := false
  USART1_DR := []
  mc_reset_calls := 0

/-- Two states agree on the variables of the receive side: the RX storage, the RX indices and
the flow-control variable. -/
def rx_same (s t : State) : Prop :=
  s.serial_rx_buffer = t.serial_rx_buffer ∧
    s.serial_rx_buffer_head = t.serial_rx_buffer_head ∧
    s.serial_rx_buffer_tail = t.serial_rx_buffer_tail ∧
    s.flow_ctrl = t.flow_ctrl

/-- The `default:` branch of the switch in the receive handler, on its own: the attempt to
store a data byte in the RX buffer and the flow-control check that follows a store. -/
def rx_push (cfg : Config) (s : State) (data : Nat) : State :=
  if next_index cfg.RX_BUFFER_SIZE s.serial_rx_buffer_head ≠ s.serial_rx_buffer_tail then
    if cfg.ENABLE_XONXOFF = true ∧
        serial_get_rx_buffer_count cfg
          { s with serial_rx_buffer_head :=
              next_index cfg.RX_BUFFER_SIZE s.serial_rx_buffer_head } ≥ cfg.RX_BUFFER_FULL ∧
        s.flow_ctrl = cfg.XON_SENT then
      { s with
        serial_rx_buffer := store s.serial_rx_buffer s.serial_rx_buffer_head data
        serial_rx_buffer_head := next_index cfg.RX_BUFFER_SIZE s.serial_rx_buffer_head
        flow_ctrl := cfg.SEND_XOFF
        UDRIE0 := true }
    else
      { s with
        serial_rx_buffer := store s.serial_rx_buffer s.serial_rx_buffer_head data
        serial_rx_buffer_head := next_index cfg.RX_BUFFER_SIZE s.serial_rx_buffer_head }
  else s

/-- One event of the flow-control scenario: the RX interrupt with a received byte, a
`serial_read` from the main loop, or the data-register-empty interrupt. -/
inductive FlowOp where
  | rx (b : Nat)
  | read
  | tx
  deriving DecidableEq, Repr

/-- The state after one event of the flow-control scenario (AVR handlers). -/
def flow_step (cfg : Config) (s : State) : FlowOp → State
  | FlowOp.rx b => ISR_SERIAL_RX cfg s b
  | FlowOp.read => (serial_read cfg s).2
  | FlowOp.tx => ISR_SERIAL_UDRE cfg s

/-- The state after a sequence of events. -/
def flow_run (cfg : Config) : State → List FlowOp → State
  | s, [] => s
  | s, op :: ops => flow_run cfg (flow_step cfg s op) ops

/-- The number of events of a run at which `flow_ctrl` changes to the value `v`: with
`v = SEND_XOFF` the number of pause requests raised, with `v = SEND_XON` the number of resume
requests raised. -/
def flow_requests (cfg : Config) (v : Nat) : State → List FlowOp → Nat
  | _, [] => 0
  | s, op :: ops =>
    (if s.flow_ctrl ≠ v ∧ (flow_step cfg s op).flow_ctrl = v then 1 else 0)
      + flow_requests cfg v (flow_step cfg s op) ops

/-- The four codes of the flow-control variable are pairwise distinct. -/
def flow_distinct (cfg : Config) : Prop :=
  cfg.SEND_XOFF ≠ cfg.SEND_XON ∧ cfg.SEND_XOFF ≠ cfg.XOFF_SENT ∧
    cfg.SEND_XOFF ≠ cfg.XON_SENT ∧ cfg.SEND_XON ≠ cfg.XOFF_SENT ∧
    cfg.SEND_XON ≠ cfg.XON_SENT ∧ cfg.XOFF_SENT ≠ cfg.XON_SENT

instance (cfg : Config) : Decidable (flow_distinct cfg) := by
  unfold flow_distinct
  infer_instance

/-- The filling phase of the hysteresis scenario: the data bytes `pre` followed by the data
byte `x`, each handed to the RX interrupt. -/
def hysteresis_fill (pre : List Nat) (x : Nat) : List FlowOp :=
  pre.map FlowOp.rx ++ [FlowOp.rx x]

/-- The hysteresis scenario up to the last read: the filling phase, further data bytes `bs2`,
the transmit interrupt that sends the pause byte, further data bytes `bs3`, and then
`80 + bs2.length + bs3.length` reads. -/
def hysteresis_body (pre : List Nat) (x : Nat) (bs2 bs3 : List Nat) : List FlowOp :=
  hysteresis_fill pre x ++ bs2.map FlowOp.rx ++ [FlowOp.tx] ++ bs3.map FlowOp.rx
    ++ List.replicate (80 + bs2.length + bs3.length) FlowOp.read

/-- The whole hysteresis scenario: the body followed by one more read. -/
def hysteresis_scenario (pre : List Nat) (x : Nat) (bs2 bs3 : List Nat) : List FlowOp :=
  hysteresis_body pre x bs2 bs3 ++ [FlowOp.read]

/-- The state after `n` consecutive calls of `ISR(SERIAL_UDRE)`. -/
def udre_run (cfg : Config) : Nat → State → State
  | 0, s => s
  | n + 1, s => udre_run cfg n (ISR_SERIAL_UDRE cfg s)

/-- The state after `n` consecutive calls of `USART1_IRQHandler` with only the transmit
condition set. -/
def usart1_tx_run (cfg : Config) : Nat → State → State
  | 0, s => s
  | n + 1, s => usart1_tx_run cfg n (USART1_IRQHandler cfg s none true)

/-- A flow-control request is pending: XON/XOFF is compiled in and `flow_ctrl` is `SEND_XOFF`
or `SEND_XON`. -/
def flow_pending (cfg : Config) (s : State) : Prop :=
  cfg.ENABLE_XONXOFF = true ∧ (s.flow_ctrl = cfg.SEND_XOFF ∨ s.flow_ctrl = cfg.SEND_XON)

instance (cfg : Config) (s : State) : Decidable (flow_pending cfg s) := by
  unfold flow_pending
  infer_instance

/-- The TX buffer is empty. -/
def tx_empty (s : State) : Prop := s.serial_tx_buffer_head = s.serial_tx_buffer_tail

instance (s : State) : Decidable (tx_empty s) := by
  unfold tx_empty
  infer_instance

/-- The control byte that answers the pending request: `XOFF_CHAR` for `SEND_XOFF`,
`XON_CHAR` for `SEND_XON`. -/
def pending_char (cfg : Config) (s : State) : Nat :=
  if s.flow_ctrl = cfg.SEND_XOFF then cfg.XOFF_CHAR else cfg.XON_CHAR

/-- The flow state that records the pending request as sent: `XOFF_SENT` for `SEND_XOFF`,
`XON_SENT` for `SEND_XON`. -/
def pending_sent (cfg : Config) (s : State) : Nat :=
  if s.flow_ctrl = cfg.SEND_XOFF then cfg.XOFF_SENT else cfg.XON_SENT

/-- A state with a pending pause request and three queued TX bytes 10, 11, 12. -/
def pause_pending_state : State :=
  { init_state sample_config with
    serial_tx_buffer := fun i => 10 + i
    serial_tx_buffer_head := 3
    flow_ctrl := sample_config.SEND_XOFF
    UDRIE0 := true
    USART_IT_TXE := true }

/-- The bytes `bs` written one after the other with `serial_write`; `none` when one of the
writes does not return within `fuel` evaluations of its wait condition. -/
def write_all (cfg : Config) (fuel : Nat) : State → List Nat → Option State
  | s, [] => some s
  | s, b :: bs =>
    match serial_write cfg s b fuel with
    | none => none
    | some s1 => write_all cfg fuel s1 bs

/-- The five realtime command bytes are pairwise distinct, as the `case` labels of one
`switch` must be. -/
def cmd_distinct (cfg : Config) : Prop :=
  [cfg.CMD_STATUS_REPORT, cfg.CMD_CYCLE_START, cfg.CMD_FEED_HOLD, cfg.CMD_SAFETY_DOOR,
    cfg.CMD_RESET].Nodup

instance (cfg : Config) : Decidable (cmd_distinct cfg) := by
  unfold cmd_distinct
  infer_instance

/-- One operation of the driver: the three functions called by the main program
(`serial_write`, `serial_read`, `serial_reset_read_buffer`), the two AVR interrupt handlers
(`ISR(SERIAL_RX)` with the received byte, `ISR(SERIAL_UDRE)`), and the STM32 handler
`USART1_IRQHandler` with its two status flags. -/
inductive Op where
  | write (b : Nat)
  | read
  | reset_read
  | rx (b : Nat)
  | tx
  | usart1 (rxne : Option Nat) (txe : Bool)
  deriving DecidableEq, Repr

/-- The state after one operation; `none` when the operation is a `serial_write` that does
not return (TX buffer full and `EXEC_RESET` clear: its wait loop changes nothing, so one
evaluation of the loop condition decides). -/
def step (cfg : Config) (s : State) : Op → Option State
  | Op.write b => serial_write cfg s b 1
  | Op.read => some (serial_read cfg s).2
  | Op.reset_read => some (serial_reset_read_buffer cfg s)
  | Op.rx b => some (ISR_SERIAL_RX cfg s b)
  | Op.tx => some (ISR_SERIAL_UDRE cfg s)
  | Op.usart1 rxne txe => some (USART1_IRQHandler cfg s rxne txe)

/-- The state after a sequence of operations, each of which must be permitted by the
schedule `ok` in the state in which it starts; `none` when an operation is not permitted or
does not return. -/
def run_if (cfg : Config) (ok : State → Op → Bool) : State → List Op → Option State
  | s, [] => some s
  | s, op :: ops =>
    if ok s op then
      match step cfg s op with
      | none => none
      | some s1 => run_if cfg ok s1 ops
    else none

/-- The schedule that permits every operation at every time. -/
def any_time (_ : State) (_ : Op) : Bool := true

/-- All four indices are indices of their arrays. -/
def idx_ok (cfg : Config) (s : State) : Prop :=
  s.serial_rx_buffer_head < cfg.RX_BUFFER_SIZE ∧ s.serial_rx_buffer_tail < cfg.RX_BUFFER_SIZE ∧
    s.serial_tx_buffer_head < cfg.TX_BUFFER_SIZE ∧ s.serial_tx_buffer_tail < cfg.TX_BUFFER_SIZE

instance (cfg : Config) (s : State) : Decidable (idx_ok cfg s) := by
  unfold idx_ok
  infer_instance

/-- The invariant behind the pause protocol: the RX indices are valid and, whenever a pause
is requested or has been sent, the RX buffer holds at least `RX_BUFFER_LOW` bytes. -/
def pause_inv (cfg : Config) (s : State) : Prop :=
  s.serial_rx_buffer_head < cfg.RX_BUFFER_SIZE ∧ s.serial_rx_buffer_tail < cfg.RX_BUFFER_SIZE ∧
    (s.flow_ctrl = cfg.XOFF_SENT ∨ s.flow_ctrl = cfg.SEND_XOFF →
      cfg.RX_BUFFER_LOW ≤ (rx_contents cfg s).length)

/-- The schedule of the claim about the paused sender: receive interrupts with data bytes,
reads, writes, and the transmit interrupt only while `UDRIE0` is set. -/
def paused_schedule (cfg : Config) (s : State) : Op → Bool
  | Op.rx b => decide (is_data cfg b)
  | Op.read => true
  | Op.write _ => true
  | Op.tx => s.UDRIE0
  | Op.reset_read => false
  | Op.usart1 _ _ => false

/-- The schedule of the claim about the transmit handler on the AVR target: every main-loop
function and `ISR(SERIAL_RX)` at any time, `ISR(SERIAL_UDRE)` only while `UDRIE0` is set. -/
def irq_schedule (s : State) : Op → Bool
  | Op.tx => s.UDRIE0
  | Op.usart1 _ _ => false
  | _ => true

/-- The transmit interrupt has something to send: when `UDRIE0` is set, the TX buffer is not
empty or a flow-control request is pending. -/
def tx_inv (cfg : Config) (s : State) : Prop :=
  s.UDRIE0 = true → (s.serial_tx_buffer_head ≠ s.serial_tx_buffer_tail ∨ flow_pending cfg s)

/-- The state after the receive branch of `USART1_IRQHandler` has run once for each byte of
the list, in order, with the transmit condition clear. -/
def usart1_rx_run (cfg : Config) : State → List Nat → State
  | s, [] => s
  | s, b :: bs => usart1_rx_run cfg (USART1_IRQHandler cfg s (some b) false) bs

/-- The operations that remain once the remote sender is paused and sends no more data:
writes, reads, the transmit interrupt, and receive interrupts with realtime command bytes. -/
def silent_schedule (cfg : Config) (_ : State) : Op → Bool
  | Op.rx b => decide (is_realtime cfg b)
  | Op.read => true
  | Op.write _ => true
  | Op.tx => true
  | Op.reset_read => false
  | Op.usart1 _ _ => false

/-- The sender has been told to pause and the RX buffer is empty. -/
def paused_drained (cfg : Config) (s : State) : Prop :=
  s.flow_ctrl = cfg.XOFF_SENT ∧ s.serial_rx_buffer_head = s.serial_rx_buffer_tail

instance (cfg : Config) (s : State) : Decidable (paused_drained cfg s) := by
  unfold paused_drained
  infer_instance

/-- The run that drains the RX buffer while the pause request is pending: 100 data bytes
arrive, the main loop reads all 100, then the transmit interrupt fires. -/
def drained_run : List Op :=
  List.replicate 100 (Op.rx 65) ++ List.replicate 100 Op.read ++ [Op.tx]

/-- The state in which `drained_run` ends at the sample configuration. -/
def drained_state : State :=
  (run_if sample_config (paused_schedule sample_config) (init_state sample_config)
    drained_run).getD (init_state sample_config)

/-! ## Theorems -/

theorem u8_succ (i : Nat) : u8 ((i : Int) + 1) = (i + 1) % 256 := by
  unfold u8
  omega

theorem mod_lt_two (a N : Nat) (h : a < 2 * N) : a % N = if a < N then a else a - N := by
  split
  · exact Nat.mod_eq_of_lt (by assumption)
  · rw [Nat.mod_eq_sub_mod (by omega)]
    exact Nat.mod_eq_of_lt (by omega)

theorem next_index_eq (N i : Nat) (hN : N ≤ 256) (hi : i < N) :
    next_index N i = if i + 1 = N then 0 else i + 1 := by
  unfold next_index
  simp only [u8_succ]
  split <;> split <;> omega

theorem ring_count_eq (N head tail : Nat) (hh : head < N) (ht : tail < N) :
    (head + N - tail) % N = if tail ≤ head then head - tail else head + N - tail := by
  rw [mod_lt_two _ _ (by omega)]
  split <;> split <;> omega

theorem ring_contents_push (N : Nat) (buf : Nat → Nat) (head tail b : Nat)
    (hN : N ≤ 256) (hh : head < N) (ht : tail < N) (hfull : next_index N head ≠ tail) :
    ring_contents N (store buf head b) (next_index N head) tail
      = ring_contents N buf head tail ++ [b] := by
  have hnx := next_index_eq N head hN hh
  have hc : (next_index N head + N - tail) % N = (head + N - tail) % N + 1 := by
    have hlt : next_index N head < N := by rw [hnx]; split_ifs <;> omega
    rw [ring_count_eq _ _ _ hlt ht, ring_count_eq _ _ _ hh ht]
    rw [hnx] at hfull ⊢
    split_ifs at hfull ⊢ <;> omega
  have hlast : (tail + (head + N - tail) % N) % N = head := by
    rw [ring_count_eq _ _ _ hh ht, mod_lt_two _ _ (by split_ifs <;> omega)]
    split_ifs <;> omega
  unfold ring_contents
  rw [hc, List.range_succ, List.map_append]
  congr 1
  · apply List.map_congr_left
    intro k hk
    have hk' : k < (head + N - tail) % N := List.mem_range.mp hk
    have hne : (tail + k) % N ≠ head := by
      rw [ring_count_eq _ _ _ hh ht] at hk'
      rw [mod_lt_two _ _ (by split_ifs at hk' <;> omega)]
      split_ifs at hk' ⊢ <;> omega
    simp [store, hne]
  · simp [store, hlast]

theorem ring_contents_pop (N : Nat) (buf : Nat → Nat) (head tail : Nat)
    (hN : N ≤ 256) (hh : head < N) (ht : tail < N) (hne : head ≠ tail) :
    ring_contents N buf head tail
      = buf tail :: ring_contents N buf head (next_index N tail) := by
  have hnx := next_index_eq N tail hN ht
  have hlt : next_index N tail < N := by rw [hnx]; split_ifs <;> omega
  have hc : (head + N - tail) % N = (head + N - next_index N tail) % N + 1 := by
    rw [ring_count_eq _ _ _ hh hlt, ring_count_eq _ _ _ hh ht]
    rw [hnx]
    split_ifs <;> omega
  have hfirst : (tail + 0) % N = tail := by
    simpa using Nat.mod_eq_of_lt ht
  have hstep : ∀ k, k < (head + N - next_index N tail) % N →
      (tail + (k + 1)) % N = (next_index N tail + k) % N := by
    intro k hk
    rw [ring_count_eq _ _ _ hh hlt] at hk
    rw [hnx] at hk ⊢
    rw [mod_lt_two (tail + (k + 1)) N (by split_ifs at hk <;> omega)]
    rw [mod_lt_two _ N (by split_ifs at hk ⊢ <;> omega)]
    split_ifs at hk ⊢ <;> omega
  unfold ring_contents
  rw [hc, List.range_succ_eq_map, List.map_cons, List.map_map, hfirst]
  congr 1
  apply List.map_congr_left
  intro k hk
  have hk' := List.mem_range.mp hk
  simp only [Function.comp, Nat.succ_eq_add_one]
  rw [hstep k hk']

theorem ring_contents_empty (N : Nat) (buf : Nat → Nat) (i : Nat) (hi : i < N) :
    ring_contents N buf i i = [] := by
  unfold ring_contents
  rw [ring_count_eq _ _ _ hi hi]
  simp

theorem next_index_mod (N i : Nat) (hN : N ≤ 256) (hi : i < N) :
    next_index N i = (i + 1) % N := by
  rw [next_index_eq N i hN hi, mod_lt_two _ _ (by omega)]
  split_ifs <;> omega

theorem next_index_lt (N i : Nat) (hN : N ≤ 256) (hi : i < N) : next_index N i < N := by
  rw [next_index_eq N i hN hi]
  split_ifs <;> omega

theorem ISR_SERIAL_RX_stored (cfg : Config) (s : State) (b : Nat) (hb : is_data cfg b)
    (hnf : next_index cfg.RX_BUFFER_SIZE s.serial_rx_buffer_head ≠ s.serial_rx_buffer_tail) :
    (ISR_SERIAL_RX cfg s b).serial_rx_buffer
        = store s.serial_rx_buffer s.serial_rx_buffer_head b ∧
      (ISR_SERIAL_RX cfg s b).serial_rx_buffer_head
        = next_index cfg.RX_BUFFER_SIZE s.serial_rx_buffer_head ∧
      (ISR_SERIAL_RX cfg s b).serial_rx_buffer_tail = s.serial_rx_buffer_tail := by
  simp only [is_data, is_realtime, not_or] at hb
  obtain ⟨h1, h2, h3, h4, h5⟩ := hb
  unfold next_index at hnf
  simp only [ISR_SERIAL_RX, h1, h2, h3, h4, h5, if_false]
  simp only [ne_eq, hnf, not_false_eq_true, if_true]
  split_ifs <;> simp_all [next_index]

theorem ISR_SERIAL_RX_dropped (cfg : Config) (s : State) (b : Nat) (hb : is_data cfg b)
    (hf : next_index cfg.RX_BUFFER_SIZE s.serial_rx_buffer_head = s.serial_rx_buffer_tail) :
    ISR_SERIAL_RX cfg s b = s := by
  simp only [is_data, is_realtime, not_or] at hb
  obtain ⟨h1, h2, h3, h4, h5⟩ := hb
  unfold next_index at hf
  simp only [ISR_SERIAL_RX, h1, h2, h3, h4, h5, if_false]
  simp [hf]

theorem serial_read_popped (cfg : Config) (s : State)
    (hne : s.serial_rx_buffer_head ≠ s.serial_rx_buffer_tail) :
    (serial_read cfg s).1 = s.serial_rx_buffer s.serial_rx_buffer_tail ∧
      (serial_read cfg s).2.serial_rx_buffer = s.serial_rx_buffer ∧
      (serial_read cfg s).2.serial_rx_buffer_head = s.serial_rx_buffer_head ∧
      (serial_read cfg s).2.serial_rx_buffer_tail
        = next_index cfg.RX_BUFFER_SIZE s.serial_rx_buffer_tail := by
  simp only [serial_read, hne, if_false]
  split_ifs <;> simp_all [next_index]

theorem serial_read_empty (cfg : Config) (s : State)
    (he : s.serial_rx_buffer_head = s.serial_rx_buffer_tail) :
    serial_read cfg s = (cfg.SERIAL_NO_DATA, s) := by
  simp [serial_read, he]

theorem rx_contents_stored (cfg : Config) (s : State) (b : Nat)
    (hN : cfg.RX_BUFFER_SIZE ≤ 256)
    (hh : s.serial_rx_buffer_head < cfg.RX_BUFFER_SIZE)
    (ht : s.serial_rx_buffer_tail < cfg.RX_BUFFER_SIZE)
    (hb : is_data cfg b) (hnf : ¬ rx_full cfg s) :
    rx_contents cfg (ISR_SERIAL_RX cfg s b) = rx_contents cfg s ++ [b] := by
  have hnf' : next_index cfg.RX_BUFFER_SIZE s.serial_rx_buffer_head ≠ s.serial_rx_buffer_tail := by
    rw [next_index_mod _ _ hN hh]
    exact hnf
  obtain ⟨e1, e2, e3⟩ := ISR_SERIAL_RX_stored cfg s b hb hnf'
  unfold rx_contents
  rw [e1, e2, e3]
  exact ring_contents_push _ _ _ _ _ hN hh ht hnf'

theorem rx_contents_popped (cfg : Config) (s : State)
    (hN : cfg.RX_BUFFER_SIZE ≤ 256)
    (hh : s.serial_rx_buffer_head < cfg.RX_BUFFER_SIZE)
    (ht : s.serial_rx_buffer_tail < cfg.RX_BUFFER_SIZE)
    (hne : ¬ rx_empty s) :
    rx_contents cfg s = (serial_read cfg s).1 :: rx_contents cfg (serial_read cfg s).2 := by
  obtain ⟨e0, e1, e2, e3⟩ := serial_read_popped cfg s hne
  unfold rx_contents
  rw [e0, e1, e2, e3]
  exact ring_contents_pop _ _ _ _ hN hh ht hne

theorem rx_step_bounds (cfg : Config) (s : State) (op : RxOp)
    (hN : cfg.RX_BUFFER_SIZE ≤ 256)
    (hh : s.serial_rx_buffer_head < cfg.RX_BUFFER_SIZE)
    (ht : s.serial_rx_buffer_tail < cfg.RX_BUFFER_SIZE)
    (hop : ∀ b, op = RxOp.rx b → is_data cfg b) :
    (rx_step cfg s op).serial_rx_buffer_head < cfg.RX_BUFFER_SIZE ∧
      (rx_step cfg s op).serial_rx_buffer_tail < cfg.RX_BUFFER_SIZE := by
  cases op with
  | rx b =>
    have hb := hop b rfl
    simp only [rx_step]
    by_cases hf : next_index cfg.RX_BUFFER_SIZE s.serial_rx_buffer_head = s.serial_rx_buffer_tail
    · rw [ISR_SERIAL_RX_dropped cfg s b hb hf]
      exact ⟨hh, ht⟩
    · obtain ⟨_, e2, e3⟩ := ISR_SERIAL_RX_stored cfg s b hb hf
      rw [e2, e3]
      exact ⟨next_index_lt _ _ hN hh, ht⟩
  | read =>
    simp only [rx_step]
    by_cases he : s.serial_rx_buffer_head = s.serial_rx_buffer_tail
    · rw [serial_read_empty cfg s he]
      exact ⟨hh, ht⟩
    · obtain ⟨_, _, e2, e3⟩ := serial_read_popped cfg s he
      rw [e2, e3]
      exact ⟨hh, next_index_lt _ _ hN ht⟩

theorem rx_run_fifo (cfg : Config) (ops : List RxOp) (hN : cfg.RX_BUFFER_SIZE ≤ 256) :
    ∀ s : State, s.serial_rx_buffer_head < cfg.RX_BUFFER_SIZE →
      s.serial_rx_buffer_tail < cfg.RX_BUFFER_SIZE →
      (∀ b, RxOp.rx b ∈ ops → is_data cfg b) →
      returned cfg s ops ++ rx_contents cfg (rx_run cfg s ops)
        = rx_contents cfg s ++ accepted cfg s ops := by
  induction ops with
  | nil => intro s _ _ _; simp [returned, accepted, rx_run]
  | cons op ops ih =>
    intro s hh ht hd
    have hd' : ∀ b, RxOp.rx b ∈ ops → is_data cfg b :=
      fun b hb => hd b (List.mem_cons_of_mem _ hb)
    have hop : ∀ b, op = RxOp.rx b → is_data cfg b :=
      fun b hb => hd b (by rw [hb]; exact List.mem_cons_self _ _)
    obtain ⟨hh', ht'⟩ := rx_step_bounds cfg s op hN hh ht hop
    have ih' := ih (rx_step cfg s op) hh' ht' hd'
    cases op with
    | rx b =>
      have hb := hop b rfl
      simp only [returned, accepted, rx_run]
      rw [ih']
      by_cases hf : rx_full cfg s
      · have hf' : next_index cfg.RX_BUFFER_SIZE s.serial_rx_buffer_head
            = s.serial_rx_buffer_tail := by
          rw [next_index_mod _ _ hN hh]
          exact hf
        simp only [hf, if_true, rx_step]
        rw [ISR_SERIAL_RX_dropped cfg s b hb hf']
      · simp only [hf, if_false, rx_step]
        rw [rx_contents_stored cfg s b hN hh ht hb hf]
        simp
    | read =>
      simp only [returned, accepted, rx_run]
      by_cases he : rx_empty s
      · simp only [he, if_true]
        rw [ih']
        simp only [rx_step]
        rw [serial_read_empty cfg s he]
      · simp only [he, if_false]
        rw [rx_contents_popped cfg s hN hh ht he, List.cons_append, ih']
        simp [rx_step]

/-- C1 (FIFO of the RX ring buffer). For every state whose RX indices are below
`RX_BUFFER_SIZE`: the RX interrupt with a data byte on a non-full buffer appends the byte to
the end of the contents; `serial_read` on a non-empty buffer returns the first byte of the
contents and removes exactly that byte; and along every interleaving of RX interrupts (data
bytes) and reads, the bytes returned by successful reads followed by the final contents are
the initial contents followed by the accepted bytes, so that from an empty buffer the
returned bytes are an initial segment of the accepted bytes. -/
theorem rx_fifo (cfg : Config) (s : State) (ops : List RxOp)
    (hN : cfg.RX_BUFFER_SIZE ≤ 256)
    (hh : s.serial_rx_buffer_head < cfg.RX_BUFFER_SIZE)
    (ht : s.serial_rx_buffer_tail < cfg.RX_BUFFER_SIZE)
    (hd : ∀ b, RxOp.rx b ∈ ops → is_data cfg b) :
    (∀ b, is_data cfg b → ¬ rx_full cfg s →
        rx_contents cfg (ISR_SERIAL_RX cfg s b) = rx_contents cfg s ++ [b]) ∧
      (¬ rx_empty s →
        rx_contents cfg s = (serial_read cfg s).1 :: rx_contents cfg (serial_read cfg s).2) ∧
      returned cfg s ops ++ rx_contents cfg (rx_run cfg s ops)
        = rx_contents cfg s ++ accepted cfg s ops ∧
      (rx_empty s →
        accepted cfg s ops = returned cfg s ops ++ rx_contents cfg (rx_run cfg s ops)) := by
  refine ⟨fun b hb hnf => rx_contents_stored cfg s b hN hh ht hb hnf,
    fun hne => rx_contents_popped cfg s hN hh ht hne,
    rx_run_fifo cfg ops hN s hh ht hd, fun he => ?_⟩
  have h := rx_run_fifo cfg ops hN s hh ht hd
  have hc : rx_contents cfg s = [] := by
    unfold rx_contents
    rw [← he]
    exact ring_contents_empty _ _ _ hh
  rw [hc, List.nil_append] at h
  exact h.symm

/-- C1 at the sample configuration: the bytes 65 and 66 are accepted, one read returns 65
and 66 stays in the buffer. -/
theorem rx_fifo_witness :
    (accepted sample_config (init_state sample_config) [RxOp.rx 65, RxOp.rx 66, RxOp.read]
        = returned sample_config (init_state sample_config)
            [RxOp.rx 65, RxOp.rx 66, RxOp.read]
          ++ rx_contents sample_config
              (rx_run sample_config (init_state sample_config)
                [RxOp.rx 65, RxOp.rx 66, RxOp.read]) ∧
      rx_contents sample_config (ISR_SERIAL_RX sample_config (init_state sample_config) 65)
        = rx_contents sample_config (init_state sample_config) ++ [65] ∧
      rx_contents sample_config (ISR_SERIAL_RX sample_config (init_state sample_config) 65)
        = (serial_read sample_config
            (ISR_SERIAL_RX sample_config (init_state sample_config) 65)).1
          :: rx_contents sample_config (serial_read sample_config
              (ISR_SERIAL_RX sample_config (init_state sample_config) 65)).2) ∧
    accepted sample_config (init_state sample_config) [RxOp.rx 65, RxOp.rx 66, RxOp.read]
      = [65, 66] ∧
    returned sample_config (init_state sample_config) [RxOp.rx 65, RxOp.rx 66, RxOp.read]
      = [65] :=
  have h := rx_fifo sample_config (init_state sample_config)
    [RxOp.rx 65, RxOp.rx 66, RxOp.read] (by decide) (by decide) (by decide)
    (by
      intro b hb
      simp only [List.mem_cons, RxOp.rx.injEq, List.mem_singleton, reduceCtorEq, or_false,
        List.mem_nil_iff] at hb
      rcases hb with rfl | rfl <;> decide)
  have h' := rx_fifo sample_config (ISR_SERIAL_RX sample_config (init_state sample_config) 65)
    [] (by decide) (by decide) (by decide) (by simp)
  ⟨⟨h.2.2.2 (by decide), h.1 65 (by decide) (by decide), h'.2.1 (by decide)⟩,
    by decide, by decide⟩

theorem rx_contents_length (cfg : Config) (s : State) :
    (rx_contents cfg s).length
      = (s.serial_rx_buffer_head + cfg.RX_BUFFER_SIZE - s.serial_rx_buffer_tail)
          % cfg.RX_BUFFER_SIZE := by
  simp [rx_contents, ring_contents]

theorem rx_full_iff_length (cfg : Config) (s : State)
    (hh : s.serial_rx_buffer_head < cfg.RX_BUFFER_SIZE)
    (ht : s.serial_rx_buffer_tail < cfg.RX_BUFFER_SIZE) :
    rx_full cfg s ↔ (rx_contents cfg s).length = cfg.RX_BUFFER_SIZE - 1 := by
  rw [rx_contents_length, ring_count_eq _ _ _ hh ht]
  unfold rx_full
  rw [mod_lt_two _ _ (by omega)]
  split_ifs <;> omega

theorem rx_count_eq_length (cfg : Config) (s : State)
    (hN : cfg.RX_BUFFER_SIZE ≤ 256)
    (hh : s.serial_rx_buffer_head < cfg.RX_BUFFER_SIZE)
    (ht : s.serial_rx_buffer_tail < cfg.RX_BUFFER_SIZE) :
    serial_get_rx_buffer_count cfg s = (rx_contents cfg s).length := by
  rw [rx_contents_length, ring_count_eq _ _ _ hh ht]
  simp only [serial_get_rx_buffer_count, u8, ge_iff_le]
  split_ifs <;> omega

theorem rx_run_feed (cfg : Config) (bs : List Nat) (hN : cfg.RX_BUFFER_SIZE ≤ 256) :
    ∀ s : State, s.serial_rx_buffer_head < cfg.RX_BUFFER_SIZE →
      s.serial_rx_buffer_tail < cfg.RX_BUFFER_SIZE →
      (∀ x ∈ bs, is_data cfg x) →
      (rx_contents cfg s).length + bs.length ≤ cfg.RX_BUFFER_SIZE - 1 →
      rx_contents cfg (rx_run cfg s (bs.map RxOp.rx)) = rx_contents cfg s ++ bs ∧
        (rx_run cfg s (bs.map RxOp.rx)).serial_rx_buffer_head < cfg.RX_BUFFER_SIZE ∧
        (rx_run cfg s (bs.map RxOp.rx)).serial_rx_buffer_tail = s.serial_rx_buffer_tail := by
  induction bs with
  | nil => intro s hh _ _ _; simp [rx_run, hh]
  | cons b bs ih =>
    intro s hh ht hd hlen
    have hb : is_data cfg b := hd b (List.mem_cons_self _ _)
    have hd' : ∀ x ∈ bs, is_data cfg x := fun x hx => hd x (List.mem_cons_of_mem _ hx)
    simp only [List.length_cons] at hlen
    have hnf : ¬ rx_full cfg s := by
      rw [rx_full_iff_length cfg s hh ht]
      omega
    have hnf' : next_index cfg.RX_BUFFER_SIZE s.serial_rx_buffer_head
        ≠ s.serial_rx_buffer_tail := by
      rw [next_index_mod _ _ hN hh]
      exact hnf
    obtain ⟨_, e2, e3⟩ := ISR_SERIAL_RX_stored cfg s b hb hnf'
    have hc := rx_contents_stored cfg s b hN hh ht hb hnf
    have hh' : (ISR_SERIAL_RX cfg s b).serial_rx_buffer_head < cfg.RX_BUFFER_SIZE := by
      rw [e2]
      exact next_index_lt _ _ hN hh
    have ht' : (ISR_SERIAL_RX cfg s b).serial_rx_buffer_tail < cfg.RX_BUFFER_SIZE := by
      rw [e3]
      exact ht
    have h := ih (ISR_SERIAL_RX cfg s b) hh' ht' hd' (by rw [hc]; simp; omega)
    simp only [List.map_cons, rx_run, rx_step]
    rw [h.1, hc, h.2.2, e3]
    exact ⟨by simp, h.2.1, rfl⟩

theorem USART1_IRQHandler_rx_eq (cfg : Config) (s : State) (b : Nat) :
    USART1_IRQHandler cfg s (some b) false = ISR_SERIAL_RX cfg s b := by
  rfl

theorem usart1_rx_run_eq (cfg : Config) (bs : List Nat) :
    ∀ s : State, usart1_rx_run cfg s bs = rx_run cfg s (bs.map RxOp.rx) := by
  induction bs with
  | nil => intro s; rfl
  | cons b bs ih =>
    intro s
    simp only [usart1_rx_run, List.map_cons, rx_run, rx_step, USART1_IRQHandler_rx_eq]
    exact ih _

/-- C2 (capacity of the RX ring buffer). From an empty RX buffer of `N = RX_BUFFER_SIZE`
slots, `N - 1` data bytes handed to the RX interrupt with no read in between are all stored:
the contents are exactly these bytes and the occupancy reported by
`serial_get_rx_buffer_count` is `N - 1`; the next data byte leaves the state as it is.  More
generally, in every state with `(head + 1) mod N = tail` and `head` a valid index the
receive handler with a data byte leaves the whole state unchanged, on the AVR handler and on
the receive branch of the STM32 handler alike; and in every state whatsoever, the handler
leaves the whole state unchanged when its own test (`next_head == tail`) finds the buffer
full.  The same holds when the bytes are delivered to the receive branch of
`USART1_IRQHandler`: the `N - 1` bytes are all stored, the occupancy becomes `N - 1` and the
next byte is dropped; and on either handler a data byte that finds a buffer with valid
indices not full is appended to the contents. -/
theorem rx_capacity (cfg : Config) (s : State) (bs : List Nat) (b : Nat)
    (hN : cfg.RX_BUFFER_SIZE ≤ 256)
    (hh : s.serial_rx_buffer_head < cfg.RX_BUFFER_SIZE)
    (he : rx_empty s)
    (hlen : bs.length = cfg.RX_BUFFER_SIZE - 1)
    (hd : ∀ x ∈ bs, is_data cfg x)
    (hb : is_data cfg b) :
    rx_contents cfg (rx_run cfg s (bs.map RxOp.rx)) = bs ∧
      serial_get_rx_buffer_count cfg (rx_run cfg s (bs.map RxOp.rx))
        = cfg.RX_BUFFER_SIZE - 1 ∧
      ISR_SERIAL_RX cfg (rx_run cfg s (bs.map RxOp.rx)) b = rx_run cfg s (bs.map RxOp.rx) ∧
      (∀ t : State, t.serial_rx_buffer_head < cfg.RX_BUFFER_SIZE → rx_full cfg t →
        ISR_SERIAL_RX cfg t b = t ∧ USART1_IRQHandler cfg t (some b) false = t) ∧
      (∀ t : State,
        next_index cfg.RX_BUFFER_SIZE t.serial_rx_buffer_head = t.serial_rx_buffer_tail →
        ISR_SERIAL_RX cfg t b = t ∧ USART1_IRQHandler cfg t (some b) false = t) ∧
      rx_contents cfg (usart1_rx_run cfg s bs) = bs ∧
      serial_get_rx_buffer_count cfg (usart1_rx_run cfg s bs) = cfg.RX_BUFFER_SIZE - 1 ∧
      USART1_IRQHandler cfg (usart1_rx_run cfg s bs) (some b) false
        = usart1_rx_run cfg s bs ∧
      (∀ t : State, t.serial_rx_buffer_head < cfg.RX_BUFFER_SIZE →
        t.serial_rx_buffer_tail < cfg.RX_BUFFER_SIZE → ¬ rx_full cfg t →
        rx_contents cfg (ISR_SERIAL_RX cfg t b) = rx_contents cfg t ++ [b] ∧
          rx_contents cfg (USART1_IRQHandler cfg t (some b) false)
            = rx_contents cfg t ++ [b]) := by
  have ht : s.serial_rx_buffer_tail < cfg.RX_BUFFER_SIZE := by
    unfold rx_empty at he
    omega
  have hc : rx_contents cfg s = [] := by
    unfold rx_contents
    rw [← he]
    exact ring_contents_empty _ _ _ hh
  obtain ⟨h1, h2, h3⟩ := rx_run_feed cfg bs hN s hh ht hd (by rw [hc]; simp; omega)
  rw [hc, List.nil_append] at h1
  have ht' : (rx_run cfg s (bs.map RxOp.rx)).serial_rx_buffer_tail < cfg.RX_BUFFER_SIZE := by
    rw [h3]
    exact ht
  have hfull : rx_full cfg (rx_run cfg s (bs.map RxOp.rx)) := by
    rw [rx_full_iff_length cfg _ h2 ht', h1, hlen]
  have hdrop : ∀ u : State, u.serial_rx_buffer_head < cfg.RX_BUFFER_SIZE → rx_full cfg u →
      ISR_SERIAL_RX cfg u b = u := by
    intro u hu hf
    apply ISR_SERIAL_RX_dropped cfg u b hb
    rw [next_index_mod _ _ hN hu]
    exact hf
  have hcount : serial_get_rx_buffer_count cfg (rx_run cfg s (bs.map RxOp.rx))
      = cfg.RX_BUFFER_SIZE - 1 := by
    rw [rx_count_eq_length cfg _ hN h2 ht', h1, hlen]
  refine ⟨h1, hcount, hdrop _ h2 hfull, fun t hth htf => ⟨hdrop t hth htf, ?_⟩,
    fun t htf => ⟨ISR_SERIAL_RX_dropped cfg t b hb htf, ?_⟩, ?_, ?_, ?_,
    fun t hth htt hnf => ⟨rx_contents_stored cfg t b hN hth htt hb hnf, ?_⟩⟩
  · rw [USART1_IRQHandler_rx_eq]
    exact hdrop t hth htf
  · rw [USART1_IRQHandler_rx_eq]
    exact ISR_SERIAL_RX_dropped cfg t b hb htf
  · rw [usart1_rx_run_eq]
    exact h1
  · rw [usart1_rx_run_eq]
    exact hcount
  · rw [usart1_rx_run_eq, USART1_IRQHandler_rx_eq]
    exact hdrop _ h2 hfull
  · rw [USART1_IRQHandler_rx_eq]
    exact rx_contents_stored cfg t b hN hth htt hb hnf

/-- C2 at the sample configuration: 127 copies of the byte 65 fill the 128-slot buffer, on
the AVR handler and on the receive branch of the STM32 handler, and a further byte 66 is
dropped by a full buffer. -/
theorem rx_capacity_witness :
    rx_contents sample_config
        (rx_run sample_config (init_state sample_config)
          ((List.replicate 127 65).map RxOp.rx)) = List.replicate 127 65 ∧
      serial_get_rx_buffer_count sample_config
        (rx_run sample_config (init_state sample_config)
          ((List.replicate 127 65).map RxOp.rx)) = 127 ∧
      ISR_SERIAL_RX sample_config
          { init_state sample_config with serial_rx_buffer_head := 127 } 66
        = { init_state sample_config with serial_rx_buffer_head := 127 } ∧
      USART1_IRQHandler sample_config
          { init_state sample_config with
            serial_rx_buffer_head := 4
            serial_rx_buffer_tail := 5 } (some 66) false
        = { init_state sample_config with
            serial_rx_buffer_head := 4
            serial_rx_buffer_tail := 5 } ∧
      rx_contents sample_config
        (usart1_rx_run sample_config (init_state sample_config) (List.replicate 127 65))
        = List.replicate 127 65 ∧
      serial_get_rx_buffer_count sample_config
        (usart1_rx_run sample_config (init_state sample_config) (List.replicate 127 65))
        = 127 ∧
      rx_contents sample_config
        (USART1_IRQHandler sample_config (init_state sample_config) (some 66) false) = [66] :=
  have h := rx_capacity sample_config (init_state sample_config)
    (List.replicate 127 65) 66 (by decide) (by decide) (by decide)
    (by simp [sample_config])
    (by
      intro x hx
      rw [List.eq_of_mem_replicate hx]
      decide)
    (by decide)
  ⟨h.1, h.2.1,
    (h.2.2.2.1 { init_state sample_config with serial_rx_buffer_head := 127 }
      (by decide) (by decide)).1,
    (h.2.2.2.2.1 { init_state sample_config with
        serial_rx_buffer_head := 4
        serial_rx_buffer_tail := 5 } (by decide)).2,
    h.2.2.2.2.2.1, h.2.2.2.2.2.2.1,
    (h.2.2.2.2.2.2.2.2 (init_state sample_config) (by decide) (by decide) (by decide)).2⟩

theorem ISR_SERIAL_RX_realtime (cfg : Config) (s : State) (b : Nat) (hb : is_realtime cfg b) :
    (ISR_SERIAL_RX cfg s b).serial_rx_buffer = s.serial_rx_buffer ∧
      (ISR_SERIAL_RX cfg s b).serial_rx_buffer_head = s.serial_rx_buffer_head ∧
      (ISR_SERIAL_RX cfg s b).serial_rx_buffer_tail = s.serial_rx_buffer_tail ∧
      (ISR_SERIAL_RX cfg s b).flow_ctrl = s.flow_ctrl := by
  unfold is_realtime at hb
  unfold ISR_SERIAL_RX
  split_ifs
  all_goals first
    | exact ⟨rfl, rfl, rfl, rfl⟩
    | (exfalso; tauto)

theorem ISR_SERIAL_RX_data (cfg : Config) (s : State) (b : Nat) (hb : is_data cfg b) :
    ISR_SERIAL_RX cfg s b = rx_push cfg s b := by
  simp only [is_data, is_realtime, not_or] at hb
  obtain ⟨h1, h2, h3, h4, h5⟩ := hb
  simp only [ISR_SERIAL_RX, h1, h2, h3, h4, h5, if_false, rx_push, next_index,
    serial_get_rx_buffer_count]
  split_ifs <;> first | rfl | (exfalso; tauto)

theorem rx_contents_of_empty (cfg : Config) (s : State)
    (hh : s.serial_rx_buffer_head < cfg.RX_BUFFER_SIZE) (he : rx_empty s) :
    rx_contents cfg s = [] := by
  unfold rx_contents
  rw [← he]
  exact ring_contents_empty _ _ _ hh

theorem rx_contents_congr (cfg : Config) (s t : State)
    (h1 : s.serial_rx_buffer = t.serial_rx_buffer)
    (h2 : s.serial_rx_buffer_head = t.serial_rx_buffer_head)
    (h3 : s.serial_rx_buffer_tail = t.serial_rx_buffer_tail) :
    rx_contents cfg s = rx_contents cfg t := by
  unfold rx_contents
  rw [h1, h2, h3]

theorem rx_push_flow (cfg : Config) (s : State) (b : Nat)
    (hN : cfg.RX_BUFFER_SIZE ≤ 256)
    (hh : s.serial_rx_buffer_head < cfg.RX_BUFFER_SIZE)
    (ht : s.serial_rx_buffer_tail < cfg.RX_BUFFER_SIZE)
    (hnf : ¬ rx_full cfg s) :
    (rx_push cfg s b).flow_ctrl
      = if cfg.ENABLE_XONXOFF = true ∧ (rx_contents cfg s).length + 1 ≥ cfg.RX_BUFFER_FULL ∧
          s.flow_ctrl = cfg.XON_SENT then cfg.SEND_XOFF else s.flow_ctrl := by
  have hnf' : next_index cfg.RX_BUFFER_SIZE s.serial_rx_buffer_head
      ≠ s.serial_rx_buffer_tail := by
    rw [next_index_mod _ _ hN hh]
    exact hnf
  have hlt := next_index_lt _ _ hN hh
  have hcount : serial_get_rx_buffer_count cfg
      { s with serial_rx_buffer_head := next_index cfg.RX_BUFFER_SIZE s.serial_rx_buffer_head }
      = (rx_contents cfg s).length + 1 := by
    rw [rx_contents_length, ring_count_eq _ _ _ hh ht]
    simp only [serial_get_rx_buffer_count, u8, ge_iff_le]
    rw [next_index_eq _ _ hN hh] at hnf' hlt ⊢
    split_ifs at hnf' hlt ⊢ <;> omega
  simp only [rx_push, hnf', ne_eq, not_false_eq_true, if_true, hcount]
  split_ifs <;> rfl

theorem serial_read_flow (cfg : Config) (s : State)
    (hN : cfg.RX_BUFFER_SIZE ≤ 256)
    (hh : s.serial_rx_buffer_head < cfg.RX_BUFFER_SIZE)
    (ht : s.serial_rx_buffer_tail < cfg.RX_BUFFER_SIZE)
    (hne : ¬ rx_empty s) :
    (serial_read cfg s).2.flow_ctrl
      = if cfg.ENABLE_XONXOFF = true ∧ (rx_contents cfg s).length - 1 < cfg.RX_BUFFER_LOW ∧
          s.flow_ctrl = cfg.XOFF_SENT then cfg.SEND_XON else s.flow_ctrl := by
  have hlt := next_index_lt _ _ hN ht
  have hne' : s.serial_rx_buffer_head ≠ s.serial_rx_buffer_tail := hne
  have hcount : serial_get_rx_buffer_count cfg
      { s with serial_rx_buffer_tail := next_index cfg.RX_BUFFER_SIZE s.serial_rx_buffer_tail }
      = (rx_contents cfg s).length - 1 := by
    rw [rx_contents_length, ring_count_eq _ _ _ hh ht]
    simp only [serial_get_rx_buffer_count, u8, ge_iff_le]
    rw [next_index_eq _ _ hN ht] at hlt ⊢
    split_ifs at hlt ⊢ <;> omega
  unfold next_index at hcount
  simp only [serial_read, hne', if_false, hcount]
  split_ifs <;> first | rfl | (exfalso; tauto)

theorem ISR_SERIAL_UDRE_rx (cfg : Config) (s : State) :
    (ISR_SERIAL_UDRE cfg s).serial_rx_buffer = s.serial_rx_buffer ∧
      (ISR_SERIAL_UDRE cfg s).serial_rx_buffer_head = s.serial_rx_buffer_head ∧
      (ISR_SERIAL_UDRE cfg s).serial_rx_buffer_tail = s.serial_rx_buffer_tail := by
  simp only [ISR_SERIAL_UDRE]
  split_ifs <;> exact ⟨rfl, rfl, rfl⟩

theorem ISR_SERIAL_UDRE_flow (cfg : Config) (s : State) :
    (ISR_SERIAL_UDRE cfg s).flow_ctrl
      = if cfg.ENABLE_XONXOFF = true ∧ s.flow_ctrl = cfg.SEND_XOFF then cfg.XOFF_SENT
        else if cfg.ENABLE_XONXOFF = true ∧ s.flow_ctrl = cfg.SEND_XON then cfg.XON_SENT
        else s.flow_ctrl := by
  simp only [ISR_SERIAL_UDRE]
  split_ifs <;> rfl

theorem flow_run_append (cfg : Config) (xs ys : List FlowOp) :
    ∀ s : State, flow_run cfg s (xs ++ ys) = flow_run cfg (flow_run cfg s xs) ys := by
  induction xs with
  | nil => intro s; rfl
  | cons x xs ih => intro s; simp only [List.cons_append, flow_run]; exact ih _

theorem flow_requests_append (cfg : Config) (v : Nat) (xs ys : List FlowOp) :
    ∀ s : State, flow_requests cfg v s (xs ++ ys)
      = flow_requests cfg v s xs + flow_requests cfg v (flow_run cfg s xs) ys := by
  induction xs with
  | nil => intro s; simp [flow_requests, flow_run]
  | cons x xs ih =>
    intro s
    simp only [List.cons_append, flow_requests, flow_run, List.append_eq]
    rw [ih]
    omega

theorem flow_push_quiet (cfg : Config) (bs : List Nat) (hN : cfg.RX_BUFFER_SIZE ≤ 256) :
    ∀ s : State, s.serial_rx_buffer_head < cfg.RX_BUFFER_SIZE →
      s.serial_rx_buffer_tail < cfg.RX_BUFFER_SIZE →
      (∀ x ∈ bs, is_data cfg x) →
      (rx_contents cfg s).length + bs.length ≤ cfg.RX_BUFFER_SIZE - 1 →
      (s.flow_ctrl ≠ cfg.XON_SENT ∨
        (rx_contents cfg s).length + bs.length < cfg.RX_BUFFER_FULL) →
      (flow_run cfg s (bs.map FlowOp.rx)).flow_ctrl = s.flow_ctrl ∧
        (rx_contents cfg (flow_run cfg s (bs.map FlowOp.rx))).length
          = (rx_contents cfg s).length + bs.length ∧
        (flow_run cfg s (bs.map FlowOp.rx)).serial_rx_buffer_head < cfg.RX_BUFFER_SIZE ∧
        (flow_run cfg s (bs.map FlowOp.rx)).serial_rx_buffer_tail < cfg.RX_BUFFER_SIZE ∧
        ∀ v, flow_requests cfg v s (bs.map FlowOp.rx) = 0 := by
  induction bs with
  | nil => intro s hh ht _ _ _; simp [flow_run, flow_requests, hh, ht]
  | cons b bs ih =>
    intro s hh ht hd hlen hq
    have hb : is_data cfg b := hd b (List.mem_cons_self _ _)
    have hd' : ∀ x ∈ bs, is_data cfg x := fun x hx => hd x (List.mem_cons_of_mem _ hx)
    simp only [List.length_cons] at hlen hq
    have hnf : ¬ rx_full cfg s := by
      rw [rx_full_iff_length cfg s hh ht]
      omega
    have hc := rx_contents_stored cfg s b hN hh ht hb hnf
    obtain ⟨hh', ht'⟩ := rx_step_bounds cfg s (RxOp.rx b) hN hh ht
      (fun x hx => by cases hx; exact hb)
    simp only [rx_step] at hh' ht'
    have hfl : (ISR_SERIAL_RX cfg s b).flow_ctrl = s.flow_ctrl := by
      rw [ISR_SERIAL_RX_data cfg s b hb, rx_push_flow cfg s b hN hh ht hnf]
      split_ifs with h
      · exfalso
        rcases hq with hq | hq
        · exact hq h.2.2
        · omega
      · rfl
    have hl : (rx_contents cfg (ISR_SERIAL_RX cfg s b)).length
        = (rx_contents cfg s).length + 1 := by
      rw [hc]
      simp
    obtain ⟨i1, i2, i3, i4, i5⟩ := ih (ISR_SERIAL_RX cfg s b) hh' ht' hd'
      (by rw [hl]; omega) (by rw [hl, hfl]; rcases hq with hq | hq; exact Or.inl hq; right; omega)
    simp only [List.map_cons, flow_run, flow_step, flow_requests]
    refine ⟨by rw [i1, hfl], by rw [i2, hl]; simp only [List.length_cons]; omega, i3, i4, ?_⟩
    intro v
    rw [i5 v]
    simp [hfl]

theorem flow_read_quiet (cfg : Config) (k : Nat) (hN : cfg.RX_BUFFER_SIZE ≤ 256) :
    ∀ s : State, s.serial_rx_buffer_head < cfg.RX_BUFFER_SIZE →
      s.serial_rx_buffer_tail < cfg.RX_BUFFER_SIZE →
      k ≤ (rx_contents cfg s).length →
      (s.flow_ctrl ≠ cfg.XOFF_SENT ∨ cfg.RX_BUFFER_LOW + k ≤ (rx_contents cfg s).length) →
      (flow_run cfg s (List.replicate k FlowOp.read)).flow_ctrl = s.flow_ctrl ∧
        (rx_contents cfg (flow_run cfg s (List.replicate k FlowOp.read))).length
          = (rx_contents cfg s).length - k ∧
        (flow_run cfg s (List.replicate k FlowOp.read)).serial_rx_buffer_head
          < cfg.RX_BUFFER_SIZE ∧
        (flow_run cfg s (List.replicate k FlowOp.read)).serial_rx_buffer_tail
          < cfg.RX_BUFFER_SIZE ∧
        ∀ v, flow_requests cfg v s (List.replicate k FlowOp.read) = 0 := by
  induction k with
  | zero => intro s hh ht _ _; simp [flow_run, flow_requests, hh, ht]
  | succ k ih =>
    intro s hh ht hk hq
    have hne : ¬ rx_empty s := by
      intro he
      rw [rx_contents_of_empty cfg s hh he] at hk
      simp at hk
    have hc := rx_contents_popped cfg s hN hh ht hne
    obtain ⟨hh', ht'⟩ := rx_step_bounds cfg s RxOp.read hN hh ht (fun x hx => by cases hx)
    simp only [rx_step] at hh' ht'
    have hl : (rx_contents cfg (serial_read cfg s).2).length
        = (rx_contents cfg s).length - 1 := by
      rw [hc]
      simp
    have hfl : (serial_read cfg s).2.flow_ctrl = s.flow_ctrl := by
      rw [serial_read_flow cfg s hN hh ht hne]
      split_ifs with h
      · exfalso
        rcases hq with hq | hq
        · exact hq h.2.2
        · omega
      · rfl
    obtain ⟨i1, i2, i3, i4, i5⟩ := ih (serial_read cfg s).2 hh' ht'
      (by rw [hl]; omega) (by rw [hl, hfl]; rcases hq with hq | hq; exact Or.inl hq; right; omega)
    simp only [List.replicate_succ, flow_run, flow_step, flow_requests]
    refine ⟨by rw [i1, hfl], by rw [i2, hl]; omega, i3, i4, ?_⟩
    intro v
    rw [i5 v]
    simp [hfl]

theorem flow_requests_single (cfg : Config) (v : Nat) (s : State) (op : FlowOp) :
    flow_requests cfg v s [op]
      = if s.flow_ctrl ≠ v ∧ (flow_step cfg s op).flow_ctrl = v then 1 else 0 := by
  simp [flow_requests]

theorem flow_run_single (cfg : Config) (s : State) (op : FlowOp) :
    flow_run cfg s [op] = flow_step cfg s op := by
  rfl

theorem hysteresis_body_facts (cfg : Config) (s : State) (pre bs2 bs3 : List Nat) (x : Nat)
    (hX : cfg.ENABLE_XONXOFF = true)
    (hN : cfg.RX_BUFFER_SIZE = 128) (hF : cfg.RX_BUFFER_FULL = 100)
    (hL : cfg.RX_BUFFER_LOW = 20) (hdist : flow_distinct cfg)
    (hh : s.serial_rx_buffer_head < cfg.RX_BUFFER_SIZE) (he : rx_empty s)
    (hf : s.flow_ctrl = cfg.XON_SENT)
    (hpre : pre.length = 99) (hdpre : ∀ b ∈ pre, is_data cfg b) (hx : is_data cfg x)
    (hd2 : ∀ b ∈ bs2, is_data cfg b) (hd3 : ∀ b ∈ bs3, is_data cfg b)
    (hlen : bs2.length + bs3.length ≤ 27) :
    (flow_requests cfg cfg.SEND_XOFF s (pre.map FlowOp.rx) = 0 ∧
      (flow_run cfg s (hysteresis_fill pre x)).flow_ctrl = cfg.SEND_XOFF ∧
      (rx_contents cfg (flow_run cfg s (hysteresis_fill pre x))).length = 100 ∧
      (flow_run cfg s (hysteresis_fill pre x)).serial_rx_buffer_head < cfg.RX_BUFFER_SIZE ∧
      (flow_run cfg s (hysteresis_fill pre x)).serial_rx_buffer_tail < cfg.RX_BUFFER_SIZE) ∧
    (flow_run cfg s (hysteresis_body pre x bs2 bs3)).flow_ctrl = cfg.XOFF_SENT ∧
      (rx_contents cfg (flow_run cfg s (hysteresis_body pre x bs2 bs3))).length = 20 ∧
      (flow_run cfg s (hysteresis_body pre x bs2 bs3)).serial_rx_buffer_head
        < cfg.RX_BUFFER_SIZE ∧
      (flow_run cfg s (hysteresis_body pre x bs2 bs3)).serial_rx_buffer_tail
        < cfg.RX_BUFFER_SIZE ∧
      flow_requests cfg cfg.SEND_XOFF s (hysteresis_body pre x bs2 bs3) = 1 ∧
      flow_requests cfg cfg.SEND_XON s (hysteresis_body pre x bs2 bs3) = 0 := by
  obtain ⟨d1, d2, d3, d4, d5, d6⟩ := hdist
  have hN' : cfg.RX_BUFFER_SIZE ≤ 256 := by omega
  have ht : s.serial_rx_buffer_tail < cfg.RX_BUFFER_SIZE := by
    unfold rx_empty at he
    omega
  have hc0 : (rx_contents cfg s).length = 0 := by
    rw [rx_contents_of_empty cfg s hh he]
    rfl
  -- the first 99 bytes
  obtain ⟨a1, a2, a3, a4, a5⟩ := flow_push_quiet cfg pre hN' s hh ht hdpre
    (by rw [hc0, hpre, hN]; decide) (Or.inr (by rw [hc0, hpre, hF]; decide))
  rw [hc0, hpre] at a2
  rw [hf] at a1
  -- the 100th byte
  have hnf1 : ¬ rx_full cfg (flow_run cfg s (pre.map FlowOp.rx)) := by
    rw [rx_full_iff_length cfg _ a3 a4, a2, hN]
    decide
  have b1 : (ISR_SERIAL_RX cfg (flow_run cfg s (pre.map FlowOp.rx)) x).flow_ctrl
      = cfg.SEND_XOFF := by
    rw [ISR_SERIAL_RX_data cfg _ x hx, rx_push_flow cfg _ x hN' a3 a4 hnf1, a2, hF, a1]
    simp [hX]
  have b2 : (rx_contents cfg (ISR_SERIAL_RX cfg (flow_run cfg s (pre.map FlowOp.rx)) x)).length
      = 100 := by
    rw [rx_contents_stored cfg _ x hN' a3 a4 hx hnf1]
    simp [a2]
  obtain ⟨b3, b4⟩ := rx_step_bounds cfg _ (RxOp.rx x) hN' a3 a4
    (fun y hy => by cases hy; exact hx)
  simp only [rx_step] at b3 b4
  have hfill : flow_run cfg s (hysteresis_fill pre x)
      = ISR_SERIAL_RX cfg (flow_run cfg s (pre.map FlowOp.rx)) x := by
    unfold hysteresis_fill
    rw [flow_run_append]
    rfl
  have rq1 : flow_requests cfg cfg.SEND_XOFF s (hysteresis_fill pre x) = 1 := by
    unfold hysteresis_fill
    rw [flow_requests_append, a5, flow_requests_single]
    simp only [flow_step, b1, a1]
    simp [Ne.symm d3]
  have rn1 : flow_requests cfg cfg.SEND_XON s (hysteresis_fill pre x) = 0 := by
    unfold hysteresis_fill
    rw [flow_requests_append, a5, flow_requests_single]
    simp only [flow_step, b1, a1]
    simp [d1]
  rw [← hfill] at b1 b2 b3 b4
  refine ⟨⟨a5 _, b1, b2, b3, b4⟩, ?_⟩
  -- further bytes before the pause byte is sent
  obtain ⟨c1, c2, c3, c4, c5⟩ := flow_push_quiet cfg bs2 hN' _ b3 b4 hd2
    (by rw [b2, hN]; omega) (Or.inl (by rw [b1]; exact d3))
  rw [b1] at c1
  rw [b2] at c2
  -- the transmit interrupt
  obtain ⟨t1, t2, t3⟩ := ISR_SERIAL_UDRE_rx cfg
    (flow_run cfg (flow_run cfg s (hysteresis_fill pre x)) (bs2.map FlowOp.rx))
  have t4 := rx_contents_congr cfg _ _ t1 t2 t3
  have t5 := ISR_SERIAL_UDRE_flow cfg
    (flow_run cfg (flow_run cfg s (hysteresis_fill pre x)) (bs2.map FlowOp.rx))
  rw [c1] at t5
  simp only [hX, true_and, if_true] at t5
  have t6 : (rx_contents cfg (ISR_SERIAL_UDRE cfg
      (flow_run cfg (flow_run cfg s (hysteresis_fill pre x)) (bs2.map FlowOp.rx)))).length
      = 100 + bs2.length := by rw [t4, c2]
  have t7 : (ISR_SERIAL_UDRE cfg
      (flow_run cfg (flow_run cfg s (hysteresis_fill pre x)) (bs2.map FlowOp.rx))
      ).serial_rx_buffer_head < cfg.RX_BUFFER_SIZE := by rw [t2]; exact c3
  have t8 : (ISR_SERIAL_UDRE cfg
      (flow_run cfg (flow_run cfg s (hysteresis_fill pre x)) (bs2.map FlowOp.rx))
      ).serial_rx_buffer_tail < cfg.RX_BUFFER_SIZE := by rw [t3]; exact c4
  -- further bytes after the pause byte was sent
  obtain ⟨e1, e2, e3, e4, e5⟩ := flow_push_quiet cfg bs3 hN' _ t7 t8 hd3
    (by rw [t6, hN]; omega) (Or.inl (by rw [t5]; exact d6))
  rw [t5] at e1
  rw [t6] at e2
  -- the reads down to occupancy 20
  obtain ⟨r1, r2, r3, r4, r5⟩ := flow_read_quiet cfg (80 + bs2.length + bs3.length) hN' _ e3 e4
    (by rw [e2]; omega) (Or.inr (by rw [e2, hL]; omega))
  rw [e1] at r1
  rw [e2] at r2
  have hbody : flow_run cfg s (hysteresis_body pre x bs2 bs3)
      = flow_run cfg (flow_run cfg (ISR_SERIAL_UDRE cfg
          (flow_run cfg (flow_run cfg s (hysteresis_fill pre x)) (bs2.map FlowOp.rx)))
          (bs3.map FlowOp.rx)) (List.replicate (80 + bs2.length + bs3.length) FlowOp.read) := by
    unfold hysteresis_body
    simp only [flow_run_append, flow_run_single, flow_step]
  have rq : ∀ v, (v = cfg.SEND_XOFF ∨ v = cfg.SEND_XON) →
      flow_requests cfg v s (hysteresis_body pre x bs2 bs3)
        = flow_requests cfg v s (hysteresis_fill pre x) := by
    intro v hv
    unfold hysteresis_body
    simp only [flow_requests_append, flow_run_append, flow_run_single, flow_requests_single,
      flow_step]
    rw [r5 v, e5 v, c5 v]
    simp only [t5, c1]
    rcases hv with hv | hv
    · subst hv
      simp [Ne.symm d2]
    · subst hv
      simp [Ne.symm d4]
  rw [hbody]
  refine ⟨r1, by rw [r2]; omega, r3, r4, ?_, ?_⟩
  · rw [rq _ (Or.inl rfl), rq1]
  · rw [rq _ (Or.inr rfl), rn1]

/-- C4 (flow-control hysteresis, amended). With XON/XOFF compiled in, `RX_BUFFER_SIZE = 128`,
`RX_BUFFER_FULL = 100` and `RX_BUFFER_LOW = 20`, from an empty RX buffer in flow state
`XON_SENT`: the first 99 data bytes raise no pause request and the 100th, which brings the
occupancy to 100, sets `flow_ctrl` to `SEND_XOFF`; over the whole scenario (up to 27 further
data bytes, with the transmit interrupt sending the pause byte somewhere among them, then
reads down to occupancy 19) `flow_ctrl` changes to `SEND_XOFF` exactly once and to `SEND_XON`
exactly once, the latter at the read that brings the occupancy from 20 to 19. -/
theorem flow_hysteresis (cfg : Config) (s : State) (pre bs2 bs3 : List Nat) (x : Nat)
    (hX : cfg.ENABLE_XONXOFF = true)
    (hN : cfg.RX_BUFFER_SIZE = 128) (hF : cfg.RX_BUFFER_FULL = 100)
    (hL : cfg.RX_BUFFER_LOW = 20) (hdist : flow_distinct cfg)
    (hh : s.serial_rx_buffer_head < cfg.RX_BUFFER_SIZE) (he : rx_empty s)
    (hf : s.flow_ctrl = cfg.XON_SENT)
    (hpre : pre.length = 99) (hdpre : ∀ b ∈ pre, is_data cfg b) (hx : is_data cfg x)
    (hd2 : ∀ b ∈ bs2, is_data cfg b) (hd3 : ∀ b ∈ bs3, is_data cfg b)
    (hlen : bs2.length + bs3.length ≤ 27) :
    flow_requests cfg cfg.SEND_XOFF s (pre.map FlowOp.rx) = 0 ∧
      (flow_run cfg s (hysteresis_fill pre x)).flow_ctrl = cfg.SEND_XOFF ∧
      serial_get_rx_buffer_count cfg (flow_run cfg s (hysteresis_fill pre x)) = 100 ∧
      flow_requests cfg cfg.SEND_XOFF s (hysteresis_scenario pre x bs2 bs3) = 1 ∧
      flow_requests cfg cfg.SEND_XON s (hysteresis_body pre x bs2 bs3) = 0 ∧
      serial_get_rx_buffer_count cfg (flow_run cfg s (hysteresis_body pre x bs2 bs3)) = 20 ∧
      flow_requests cfg cfg.SEND_XON s (hysteresis_scenario pre x bs2 bs3) = 1 ∧
      serial_get_rx_buffer_count cfg (flow_run cfg s (hysteresis_scenario pre x bs2 bs3))
        = 19 ∧
      (flow_run cfg s (hysteresis_scenario pre x bs2 bs3)).flow_ctrl = cfg.SEND_XON := by
  obtain ⟨⟨a0, a1, a2, a3, a4⟩, b1, b2, b3, b4, b5, b6⟩ :=
    hysteresis_body_facts cfg s pre bs2 bs3 x hX hN hF hL hdist hh he hf hpre hdpre hx hd2 hd3
      hlen
  obtain ⟨d1, d2, d3, d4, d5, d6⟩ := hdist
  have hN' : cfg.RX_BUFFER_SIZE ≤ 256 := by omega
  have hne : ¬ rx_empty (flow_run cfg s (hysteresis_body pre x bs2 bs3)) := by
    intro h
    rw [rx_contents_of_empty cfg _ b3 h] at b2
    simp at b2
  have hfl : (serial_read cfg (flow_run cfg s (hysteresis_body pre x bs2 bs3))).2.flow_ctrl
      = cfg.SEND_XON := by
    rw [serial_read_flow cfg _ hN' b3 b4 hne, b2, hL, b1]
    simp [hX]
  have hl : (rx_contents cfg
      (serial_read cfg (flow_run cfg s (hysteresis_body pre x bs2 bs3))).2).length = 19 := by
    have h := rx_contents_popped cfg _ hN' b3 b4 hne
    rw [h] at b2
    simpa using b2
  obtain ⟨hh', ht'⟩ := rx_step_bounds cfg _ RxOp.read hN' b3 b4 (fun y hy => by cases hy)
  simp only [rx_step] at hh' ht'
  have hrun : flow_run cfg s (hysteresis_scenario pre x bs2 bs3)
      = (serial_read cfg (flow_run cfg s (hysteresis_body pre x bs2 bs3))).2 := by
    unfold hysteresis_scenario
    simp only [flow_run_append, flow_run_single, flow_step]
  refine ⟨a0, a1, ?_, ?_, b6, ?_, ?_, ?_, ?_⟩
  · rw [rx_count_eq_length cfg _ hN' a3 a4, a2]
  · unfold hysteresis_scenario
    rw [flow_requests_append, b5, flow_requests_single]
    simp only [flow_step, hfl, b1]
    simp [Ne.symm d1]
  · rw [rx_count_eq_length cfg _ hN' b3 b4, b2]
  · unfold hysteresis_scenario
    rw [flow_requests_append, b6, flow_requests_single]
    simp only [flow_step, hfl, b1]
    simp [Ne.symm d4]
  · rw [hrun, rx_count_eq_length cfg _ hN' hh' ht', hl]
  · rw [hrun, hfl]

/-- C4 (amended) at the sample configuration: 100 bytes, the transmit interrupt, one more
byte, then 82 reads. -/
theorem flow_hysteresis_witness :
    flow_requests sample_config sample_config.SEND_XOFF (init_state sample_config)
        (hysteresis_scenario (List.replicate 99 65) 65 [] [66]) = 1 ∧
      flow_requests sample_config sample_config.SEND_XON (init_state sample_config)
        (hysteresis_scenario (List.replicate 99 65) 65 [] [66]) = 1 :=
  have h := flow_hysteresis sample_config (init_state sample_config) (List.replicate 99 65)
    [] [66] 65 (by decide) (by decide) (by decide) (by decide) (by decide) (by decide)
    (by decide) (by decide) (by simp)
    (by
      intro b hb
      rw [List.eq_of_mem_replicate hb]
      decide)
    (by decide) (by simp)
    (by
      intro b hb
      rw [List.mem_singleton.mp hb]
      decide)
    (by decide)
  ⟨h.2.2.2.1, h.2.2.2.2.2.2.1⟩

set_option maxRecDepth 100000 in
/-- C4 as stated fails: from the initial state, 100 data bytes followed by 81 reads (and no
transmit interrupt in between) bring the occupancy to 19, yet `flow_ctrl` never changes to
`SEND_XON`: the pause request was raised once and is still pending. -/
theorem flow_hysteresis_counterexample :
    serial_get_rx_buffer_count sample_config
        (flow_run sample_config (init_state sample_config)
          (List.replicate 100 (FlowOp.rx 65) ++ List.replicate 81 FlowOp.read)) = 19 ∧
      flow_requests sample_config sample_config.SEND_XOFF (init_state sample_config)
        (List.replicate 100 (FlowOp.rx 65) ++ List.replicate 81 FlowOp.read) = 1 ∧
      flow_requests sample_config sample_config.SEND_XON (init_state sample_config)
        (List.replicate 100 (FlowOp.rx 65) ++ List.replicate 81 FlowOp.read) = 0 ∧
      (flow_run sample_config (init_state sample_config)
          (List.replicate 100 (FlowOp.rx 65) ++ List.replicate 81 FlowOp.read)).flow_ctrl
        = sample_config.SEND_XOFF := by
  decide

theorem ISR_SERIAL_UDRE_data (cfg : Config) (s : State) (hq : ¬ flow_pending cfg s) :
    ISR_SERIAL_UDRE cfg s
      = if next_index cfg.TX_BUFFER_SIZE s.serial_tx_buffer_tail = s.serial_tx_buffer_head then
          { s with
            UDR0 := s.UDR0 ++ [s.serial_tx_buffer s.serial_tx_buffer_tail]
            serial_tx_buffer_tail := next_index cfg.TX_BUFFER_SIZE s.serial_tx_buffer_tail
            UDRIE0 := false }
        else
          { s with
            UDR0 := s.UDR0 ++ [s.serial_tx_buffer s.serial_tx_buffer_tail]
            serial_tx_buffer_tail := next_index cfg.TX_BUFFER_SIZE s.serial_tx_buffer_tail } := by
  have h1 : ¬ (cfg.ENABLE_XONXOFF = true ∧ s.flow_ctrl = cfg.SEND_XOFF) :=
    fun h => hq ⟨h.1, Or.inl h.2⟩
  have h2 : ¬ (cfg.ENABLE_XONXOFF = true ∧ s.flow_ctrl = cfg.SEND_XON) :=
    fun h => hq ⟨h.1, Or.inr h.2⟩
  simp only [ISR_SERIAL_UDRE, h1, h2, if_false, next_index]

theorem USART1_IRQHandler_tx_data (cfg : Config) (s : State) (hq : ¬ flow_pending cfg s) :
    USART1_IRQHandler cfg s none true
      = if next_index cfg.TX_BUFFER_SIZE s.serial_tx_buffer_tail = s.serial_tx_buffer_head then
          { s with
            USART1_DR := s.USART1_DR ++ [s.serial_tx_buffer s.serial_tx_buffer_tail]
            serial_tx_buffer_tail := next_index cfg.TX_BUFFER_SIZE s.serial_tx_buffer_tail
            USART_IT_TXE := false }
        else
          { s with
            USART1_DR := s.USART1_DR ++ [s.serial_tx_buffer s.serial_tx_buffer_tail]
            serial_tx_buffer_tail := next_index cfg.TX_BUFFER_SIZE s.serial_tx_buffer_tail } := by
  have h1 : ¬ (cfg.ENABLE_XONXOFF = true ∧ s.flow_ctrl = cfg.SEND_XOFF) :=
    fun h => hq ⟨h.1, Or.inl h.2⟩
  have h2 : ¬ (cfg.ENABLE_XONXOFF = true ∧ s.flow_ctrl = cfg.SEND_XON) :=
    fun h => hq ⟨h.1, Or.inr h.2⟩
  simp only [USART1_IRQHandler, USART1_IRQHandler_tx, h1, h2, if_false, next_index, if_true]

theorem tx_contents_length (cfg : Config) (s : State) :
    (tx_contents cfg s).length
      = (s.serial_tx_buffer_head + cfg.TX_BUFFER_SIZE - s.serial_tx_buffer_tail)
          % cfg.TX_BUFFER_SIZE := by
  simp [tx_contents, ring_contents]

theorem tx_empty_iff_length (cfg : Config) (s : State)
    (hh : s.serial_tx_buffer_head < cfg.TX_BUFFER_SIZE)
    (ht : s.serial_tx_buffer_tail < cfg.TX_BUFFER_SIZE) :
    tx_empty s ↔ (tx_contents cfg s).length = 0 := by
  rw [tx_contents_length, ring_count_eq _ _ _ hh ht]
  unfold tx_empty
  split_ifs <;> omega

theorem ISR_SERIAL_UDRE_data_fields (cfg : Config) (s : State) (hq : ¬ flow_pending cfg s) :
    (ISR_SERIAL_UDRE cfg s).UDR0 = s.UDR0 ++ [s.serial_tx_buffer s.serial_tx_buffer_tail] ∧
      (ISR_SERIAL_UDRE cfg s).serial_tx_buffer_tail
        = next_index cfg.TX_BUFFER_SIZE s.serial_tx_buffer_tail ∧
      (ISR_SERIAL_UDRE cfg s).serial_tx_buffer_head = s.serial_tx_buffer_head ∧
      (ISR_SERIAL_UDRE cfg s).serial_tx_buffer = s.serial_tx_buffer ∧
      (ISR_SERIAL_UDRE cfg s).flow_ctrl = s.flow_ctrl ∧
      (next_index cfg.TX_BUFFER_SIZE s.serial_tx_buffer_tail = s.serial_tx_buffer_head →
        (ISR_SERIAL_UDRE cfg s).UDRIE0 = false) := by
  rw [ISR_SERIAL_UDRE_data cfg s hq]
  split_ifs with h
  · exact ⟨rfl, rfl, rfl, rfl, rfl, fun _ => rfl⟩
  · exact ⟨rfl, rfl, rfl, rfl, rfl, fun h' => absurd h' h⟩

theorem USART1_IRQHandler_tx_data_fields (cfg : Config) (s : State)
    (hq : ¬ flow_pending cfg s) :
    (USART1_IRQHandler cfg s none true).USART1_DR
        = s.USART1_DR ++ [s.serial_tx_buffer s.serial_tx_buffer_tail] ∧
      (USART1_IRQHandler cfg s none true).serial_tx_buffer_tail
        = next_index cfg.TX_BUFFER_SIZE s.serial_tx_buffer_tail ∧
      (USART1_IRQHandler cfg s none true).serial_tx_buffer_head = s.serial_tx_buffer_head ∧
      (USART1_IRQHandler cfg s none true).serial_tx_buffer = s.serial_tx_buffer ∧
      (USART1_IRQHandler cfg s none true).flow_ctrl = s.flow_ctrl ∧
      (next_index cfg.TX_BUFFER_SIZE s.serial_tx_buffer_tail = s.serial_tx_buffer_head →
        (USART1_IRQHandler cfg s none true).USART_IT_TXE = false) := by
  rw [USART1_IRQHandler_tx_data cfg s hq]
  split_ifs with h
  · exact ⟨rfl, rfl, rfl, rfl, rfl, fun _ => rfl⟩
  · exact ⟨rfl, rfl, rfl, rfl, rfl, fun h' => absurd h' h⟩

theorem tx_contents_congr (cfg : Config) (s t : State)
    (h1 : s.serial_tx_buffer = t.serial_tx_buffer)
    (h2 : s.serial_tx_buffer_head = t.serial_tx_buffer_head)
    (h3 : s.serial_tx_buffer_tail = t.serial_tx_buffer_tail) :
    tx_contents cfg s = tx_contents cfg t := by
  unfold tx_contents
  rw [h1, h2, h3]

theorem flow_pending_congr (cfg : Config) (s t : State) (h : s.flow_ctrl = t.flow_ctrl) :
    flow_pending cfg s ↔ flow_pending cfg t := by
  unfold flow_pending
  rw [h]

theorem udre_run_drain (cfg : Config) (hN : cfg.TX_BUFFER_SIZE ≤ 256) :
    ∀ (k : Nat) (s : State), s.serial_tx_buffer_head < cfg.TX_BUFFER_SIZE →
      s.serial_tx_buffer_tail < cfg.TX_BUFFER_SIZE → ¬ flow_pending cfg s →
      (tx_contents cfg s).length = k →
      (udre_run cfg k s).UDR0 = s.UDR0 ++ tx_contents cfg s ∧
        (udre_run cfg k s).serial_tx_buffer_tail = s.serial_tx_buffer_head ∧
        (udre_run cfg k s).serial_tx_buffer_head = s.serial_tx_buffer_head ∧
        (udre_run cfg k s).serial_tx_buffer = s.serial_tx_buffer ∧
        (udre_run cfg k s).flow_ctrl = s.flow_ctrl ∧
        (1 ≤ k → (udre_run cfg k s).UDRIE0 = false) := by
  intro k
  induction k with
  | zero =>
    intro s hh ht _ hk
    have he : tx_empty s := (tx_empty_iff_length cfg s hh ht).mpr hk
    have hc : tx_contents cfg s = [] := List.length_eq_zero.mp hk
    refine ⟨?_, he.symm, rfl, rfl, rfl, fun h => absurd h (by decide)⟩
    rw [hc, List.append_nil]
    rfl
  | succ k ih =>
    intro s hh ht hq hk
    have hne : s.serial_tx_buffer_head ≠ s.serial_tx_buffer_tail := by
      intro he
      have := (tx_empty_iff_length cfg s hh ht).mp he
      omega
    obtain ⟨f1, f2, f3, f4, f5, f6⟩ := ISR_SERIAL_UDRE_data_fields cfg s hq
    have hpop : tx_contents cfg s
        = s.serial_tx_buffer s.serial_tx_buffer_tail
          :: tx_contents cfg (ISR_SERIAL_UDRE cfg s) := by
      unfold tx_contents
      rw [f2, f3, f4]
      exact ring_contents_pop _ _ _ _ hN hh ht hne
    have hh' : (ISR_SERIAL_UDRE cfg s).serial_tx_buffer_head < cfg.TX_BUFFER_SIZE := by
      rw [f3]
      exact hh
    have ht' : (ISR_SERIAL_UDRE cfg s).serial_tx_buffer_tail < cfg.TX_BUFFER_SIZE := by
      rw [f2]
      exact next_index_lt _ _ hN ht
    have hq' : ¬ flow_pending cfg (ISR_SERIAL_UDRE cfg s) := by
      rw [flow_pending_congr cfg _ s f5]
      exact hq
    have hk' : (tx_contents cfg (ISR_SERIAL_UDRE cfg s)).length = k := by
      rw [hpop] at hk
      simpa using hk
    obtain ⟨i1, i2, i3, i4, i5, i6⟩ := ih (ISR_SERIAL_UDRE cfg s) hh' ht' hq' hk'
    simp only [udre_run]
    refine ⟨?_, by rw [i2, f3], by rw [i3, f3], by rw [i4, f4], by rw [i5, f5], fun _ => ?_⟩
    · rw [i1, f1, hpop]
      simp
    · by_cases hk0 : 1 ≤ k
      · exact i6 hk0
      · have hk00 : k = 0 := by omega
        subst hk00
        have he : tx_empty (ISR_SERIAL_UDRE cfg s) :=
          (tx_empty_iff_length cfg _ hh' ht').mpr hk'
        unfold tx_empty at he
        rw [f2, f3] at he
        simp only [udre_run]
        exact f6 he.symm

theorem usart1_tx_run_drain (cfg : Config) (hN : cfg.TX_BUFFER_SIZE ≤ 256) :
    ∀ (k : Nat) (s : State), s.serial_tx_buffer_head < cfg.TX_BUFFER_SIZE →
      s.serial_tx_buffer_tail < cfg.TX_BUFFER_SIZE → ¬ flow_pending cfg s →
      (tx_contents cfg s).length = k →
      (usart1_tx_run cfg k s).USART1_DR = s.USART1_DR ++ tx_contents cfg s ∧
        (usart1_tx_run cfg k s).serial_tx_buffer_tail = s.serial_tx_buffer_head ∧
        (usart1_tx_run cfg k s).serial_tx_buffer_head = s.serial_tx_buffer_head ∧
        (usart1_tx_run cfg k s).serial_tx_buffer = s.serial_tx_buffer ∧
        (usart1_tx_run cfg k s).flow_ctrl = s.flow_ctrl ∧
        (1 ≤ k → (usart1_tx_run cfg k s).USART_IT_TXE = false) := by
  intro k
  induction k with
  | zero =>
    intro s hh ht _ hk
    have he : tx_empty s := (tx_empty_iff_length cfg s hh ht).mpr hk
    have hc : tx_contents cfg s = [] := List.length_eq_zero.mp hk
    refine ⟨?_, he.symm, rfl, rfl, rfl, fun h => absurd h (by decide)⟩
    rw [hc, List.append_nil]
    rfl
  | succ k ih =>
    intro s hh ht hq hk
    have hne : s.serial_tx_buffer_head ≠ s.serial_tx_buffer_tail := by
      intro he
      have := (tx_empty_iff_length cfg s hh ht).mp he
      omega
    obtain ⟨f1, f2, f3, f4, f5, f6⟩ := USART1_IRQHandler_tx_data_fields cfg s hq
    have hpop : tx_contents cfg s
        = s.serial_tx_buffer s.serial_tx_buffer_tail
          :: tx_contents cfg (USART1_IRQHandler cfg s none true) := by
      unfold tx_contents
      rw [f2, f3, f4]
      exact ring_contents_pop _ _ _ _ hN hh ht hne
    have hh' : (USART1_IRQHandler cfg s none true).serial_tx_buffer_head
        < cfg.TX_BUFFER_SIZE := by
      rw [f3]
      exact hh
    have ht' : (USART1_IRQHandler cfg s none true).serial_tx_buffer_tail
        < cfg.TX_BUFFER_SIZE := by
      rw [f2]
      exact next_index_lt _ _ hN ht
    have hq' : ¬ flow_pending cfg (USART1_IRQHandler cfg s none true) := by
      rw [flow_pending_congr cfg _ s f5]
      exact hq
    have hk' : (tx_contents cfg (USART1_IRQHandler cfg s none true)).length = k := by
      rw [hpop] at hk
      simpa using hk
    obtain ⟨i1, i2, i3, i4, i5, i6⟩ := ih (USART1_IRQHandler cfg s none true) hh' ht' hq' hk'
    simp only [usart1_tx_run]
    refine ⟨?_, by rw [i2, f3], by rw [i3, f3], by rw [i4, f4], by rw [i5, f5], fun _ => ?_⟩
    · rw [i1, f1, hpop]
      simp
    · by_cases hk0 : 1 ≤ k
      · exact i6 hk0
      · have hk00 : k = 0 := by omega
        subst hk00
        have he : tx_empty (USART1_IRQHandler cfg s none true) :=
          (tx_empty_iff_length cfg _ hh' ht').mpr hk'
        unfold tx_empty at he
        rw [f2, f3] at he
        simp only [usart1_tx_run]
        exact f6 he.symm

theorem ISR_SERIAL_UDRE_ctrl (cfg : Config) (s : State) (hp : flow_pending cfg s) :
    (ISR_SERIAL_UDRE cfg s).UDR0 = s.UDR0 ++ [pending_char cfg s] ∧
      (ISR_SERIAL_UDRE cfg s).flow_ctrl = pending_sent cfg s ∧
      (ISR_SERIAL_UDRE cfg s).serial_tx_buffer = s.serial_tx_buffer ∧
      (ISR_SERIAL_UDRE cfg s).serial_tx_buffer_head = s.serial_tx_buffer_head ∧
      (ISR_SERIAL_UDRE cfg s).serial_tx_buffer_tail = s.serial_tx_buffer_tail ∧
      (ISR_SERIAL_UDRE cfg s).USART1_DR = s.USART1_DR := by
  obtain ⟨hX, hf⟩ := hp
  by_cases h1 : s.flow_ctrl = cfg.SEND_XOFF
  · have e1 := eq_true h1
    simp only [ISR_SERIAL_UDRE, hX, e1, and_self, if_true, pending_char, pending_sent]
    split_ifs <;> exact ⟨rfl, rfl, rfl, rfl, rfl, rfl⟩
  · have h2 : s.flow_ctrl = cfg.SEND_XON := by tauto
    have e1 := eq_false h1
    have e2 := eq_true h2
    simp only [ISR_SERIAL_UDRE, hX, e1, e2, and_false, and_self, if_false, if_true,
      pending_char, pending_sent]
    split_ifs <;> exact ⟨rfl, rfl, rfl, rfl, rfl, rfl⟩

theorem USART1_IRQHandler_tx_ctrl (cfg : Config) (s : State) (hp : flow_pending cfg s) :
    (USART1_IRQHandler cfg s none true).UDR0 = s.UDR0 ++ [pending_char cfg s] ∧
      (USART1_IRQHandler cfg s none true).flow_ctrl = pending_sent cfg s ∧
      (USART1_IRQHandler cfg s none true).serial_tx_buffer = s.serial_tx_buffer ∧
      (USART1_IRQHandler cfg s none true).serial_tx_buffer_head = s.serial_tx_buffer_head ∧
      (USART1_IRQHandler cfg s none true).serial_tx_buffer_tail = s.serial_tx_buffer_tail ∧
      (USART1_IRQHandler cfg s none true).USART1_DR = s.USART1_DR := by
  obtain ⟨hX, hf⟩ := hp
  by_cases h1 : s.flow_ctrl = cfg.SEND_XOFF
  · have e1 := eq_true h1
    simp only [USART1_IRQHandler, USART1_IRQHandler_tx, hX, e1, and_self, if_true, pending_char, pending_sent]
    split_ifs <;> exact ⟨rfl, rfl, rfl, rfl, rfl, rfl⟩
  · have h2 : s.flow_ctrl = cfg.SEND_XON := by tauto
    have e1 := eq_false h1
    have e2 := eq_true h2
    simp only [USART1_IRQHandler, USART1_IRQHandler_tx, hX, e1, e2, and_false, and_self, if_false, if_true,
      pending_char, pending_sent]
    split_ifs <;> exact ⟨rfl, rfl, rfl, rfl, rfl, rfl⟩

theorem pending_sent_not_pending (cfg : Config) (s t : State) (hd : flow_distinct cfg)
    (h : t.flow_ctrl = pending_sent cfg s) : ¬ flow_pending cfg t := by
  obtain ⟨d1, d2, d3, d4, d5, d6⟩ := hd
  unfold flow_pending
  rw [h]
  unfold pending_sent
  split_ifs
  · intro hp
    rcases hp.2 with hp | hp
    · exact d2 hp.symm
    · exact d4 hp.symm
  · intro hp
    rcases hp.2 with hp | hp
    · exact d3 hp.symm
    · exact d5 hp.symm

/-- C5 (control-byte priority). In every state with a pending flow-control request, one call
of the transmit handler writes the corresponding control byte, and nothing else, to `UDR0`,
sets `flow_ctrl` to the matching Sent value and leaves the TX storage, head and tail
unchanged; this holds for `ISR(SERIAL_UDRE)` and for the transmit branch of
`USART1_IRQHandler`, which in addition passes nothing to `USART_SendData`.  When the TX
indices are valid and the TX buffer holds `k` bytes, the next `k` calls transmit exactly these
bytes, oldest first, and leave the TX buffer empty (the four codes of `flow_ctrl` being
pairwise distinct). -/
theorem control_byte_priority (cfg : Config) (s : State) (hp : flow_pending cfg s) :
    ((ISR_SERIAL_UDRE cfg s).UDR0 = s.UDR0 ++ [pending_char cfg s] ∧
      (ISR_SERIAL_UDRE cfg s).flow_ctrl = pending_sent cfg s ∧
      (ISR_SERIAL_UDRE cfg s).serial_tx_buffer = s.serial_tx_buffer ∧
      (ISR_SERIAL_UDRE cfg s).serial_tx_buffer_head = s.serial_tx_buffer_head ∧
      (ISR_SERIAL_UDRE cfg s).serial_tx_buffer_tail = s.serial_tx_buffer_tail) ∧
    ((USART1_IRQHandler cfg s none true).UDR0 = s.UDR0 ++ [pending_char cfg s] ∧
      (USART1_IRQHandler cfg s none true).USART1_DR = s.USART1_DR ∧
      (USART1_IRQHandler cfg s none true).flow_ctrl = pending_sent cfg s ∧
      (USART1_IRQHandler cfg s none true).serial_tx_buffer = s.serial_tx_buffer ∧
      (USART1_IRQHandler cfg s none true).serial_tx_buffer_head = s.serial_tx_buffer_head ∧
      (USART1_IRQHandler cfg s none true).serial_tx_buffer_tail = s.serial_tx_buffer_tail) ∧
    (flow_distinct cfg → cfg.TX_BUFFER_SIZE ≤ 256 →
      s.serial_tx_buffer_head < cfg.TX_BUFFER_SIZE →
      s.serial_tx_buffer_tail < cfg.TX_BUFFER_SIZE →
      ((udre_run cfg ((tx_contents cfg s).length + 1) s).UDR0
          = s.UDR0 ++ [pending_char cfg s] ++ tx_contents cfg s ∧
        tx_empty (udre_run cfg ((tx_contents cfg s).length + 1) s)) ∧
      ((usart1_tx_run cfg ((tx_contents cfg s).length + 1) s).USART1_DR
          = s.USART1_DR ++ tx_contents cfg s ∧
        tx_empty (usart1_tx_run cfg ((tx_contents cfg s).length + 1) s))) := by
  obtain ⟨a1, a2, a3, a4, a5, a6⟩ := ISR_SERIAL_UDRE_ctrl cfg s hp
  obtain ⟨b1, b2, b3, b4, b5, b6⟩ := USART1_IRQHandler_tx_ctrl cfg s hp
  refine ⟨⟨a1, a2, a3, a4, a5⟩, ⟨b1, b6, b2, b3, b4, b5⟩, ?_⟩
  intro hd hN hh ht
  constructor
  · have hc := tx_contents_congr cfg _ _ a3 a4 a5
    obtain ⟨i1, i2, i3, _, _, _⟩ := udre_run_drain cfg hN (tx_contents cfg s).length
      (ISR_SERIAL_UDRE cfg s) (by rw [a4]; exact hh) (by rw [a5]; exact ht)
      (pending_sent_not_pending cfg s _ hd a2) (by rw [hc])
    simp only [udre_run]
    refine ⟨by rw [i1, a1, hc], ?_⟩
    unfold tx_empty
    rw [i2, i3]
  · have hc := tx_contents_congr cfg _ _ b3 b4 b5
    obtain ⟨i1, i2, i3, _, _, _⟩ := usart1_tx_run_drain cfg hN (tx_contents cfg s).length
      (USART1_IRQHandler cfg s none true) (by rw [b4]; exact hh) (by rw [b5]; exact ht)
      (pending_sent_not_pending cfg s _ hd b2) (by rw [hc])
    simp only [usart1_tx_run]
    refine ⟨by rw [i1, b6, hc], ?_⟩
    unfold tx_empty
    rw [i2, i3]

/-- C5 at the sample configuration: a pending pause request and the queued bytes 10, 11,
12. -/
theorem control_byte_priority_witness :
    (ISR_SERIAL_UDRE sample_config pause_pending_state).UDR0 = [19] ∧
      (ISR_SERIAL_UDRE sample_config pause_pending_state).flow_ctrl
        = sample_config.XOFF_SENT ∧
      (udre_run sample_config 4 pause_pending_state).UDR0 = [19, 10, 11, 12] ∧
      (usart1_tx_run sample_config 4 pause_pending_state).USART1_DR = [10, 11, 12] :=
  have h := control_byte_priority sample_config pause_pending_state (by decide)
  have h3 := h.2.2 (by decide) (by decide) (by decide) (by decide)
  ⟨h.1.1, h.1.2.1, h3.1.1, h3.2.1⟩

theorem serial_write_stored (cfg : Config) (s : State) (b fuel : Nat)
    (hnf : next_index cfg.TX_BUFFER_SIZE s.serial_tx_buffer_head ≠ s.serial_tx_buffer_tail) :
    ∃ s1, serial_write cfg s b (fuel + 1) = some s1 ∧
      s1.serial_tx_buffer = store s.serial_tx_buffer s.serial_tx_buffer_head b ∧
      s1.serial_tx_buffer_head = next_index cfg.TX_BUFFER_SIZE s.serial_tx_buffer_head ∧
      s1.serial_tx_buffer_tail = s.serial_tx_buffer_tail ∧
      s1.UDR0 = s.UDR0 ∧ s1.USART1_DR = s.USART1_DR ∧ s1.flow_ctrl = s.flow_ctrl ∧
      (cfg.cpu = CpuMap.ATMEGA → s1.UDRIE0 = true) ∧
      (cfg.cpu = CpuMap.STM32F10X → s1.USART_IT_TXE = true) := by
  unfold next_index at hnf
  simp only at hnf
  cases hc : cfg.cpu
  · simp only [serial_write, serial_write_wait, hnf, if_false, hc]
    refine ⟨_, rfl, rfl, rfl, rfl, rfl, rfl, rfl, ?_, ?_⟩ <;> simp
  · simp only [serial_write, serial_write_wait, hnf, if_false, hc]
    refine ⟨_, rfl, rfl, rfl, rfl, rfl, rfl, rfl, ?_, ?_⟩ <;> simp

theorem tx_full_iff_length (cfg : Config) (s : State)
    (hh : s.serial_tx_buffer_head < cfg.TX_BUFFER_SIZE)
    (ht : s.serial_tx_buffer_tail < cfg.TX_BUFFER_SIZE) :
    tx_full cfg s ↔ (tx_contents cfg s).length = cfg.TX_BUFFER_SIZE - 1 := by
  rw [tx_contents_length, ring_count_eq _ _ _ hh ht]
  unfold tx_full
  rw [mod_lt_two _ _ (by omega)]
  split_ifs <;> omega

theorem write_all_fill (cfg : Config) (fuel : Nat) (hN : cfg.TX_BUFFER_SIZE ≤ 256)
    (bs : List Nat) :
    ∀ s : State, s.serial_tx_buffer_head < cfg.TX_BUFFER_SIZE →
      s.serial_tx_buffer_tail < cfg.TX_BUFFER_SIZE →
      (tx_contents cfg s).length + bs.length ≤ cfg.TX_BUFFER_SIZE - 1 →
      ∃ s1, write_all cfg (fuel + 1) s bs = some s1 ∧
        tx_contents cfg s1 = tx_contents cfg s ++ bs ∧
        s1.serial_tx_buffer_head < cfg.TX_BUFFER_SIZE ∧
        s1.serial_tx_buffer_tail = s.serial_tx_buffer_tail ∧
        s1.UDR0 = s.UDR0 ∧ s1.USART1_DR = s.USART1_DR ∧ s1.flow_ctrl = s.flow_ctrl ∧
        (bs ≠ [] → cfg.cpu = CpuMap.ATMEGA → s1.UDRIE0 = true) ∧
        (bs ≠ [] → cfg.cpu = CpuMap.STM32F10X → s1.USART_IT_TXE = true) := by
  induction bs with
  | nil =>
    intro s hh _ _
    exact ⟨s, rfl, by simp, hh, rfl, rfl, rfl, rfl, fun h => absurd rfl h,
      fun h => absurd rfl h⟩
  | cons b bs ih =>
    intro s hh ht hlen
    simp only [List.length_cons] at hlen
    have hnf : ¬ tx_full cfg s := by
      rw [tx_full_iff_length cfg s hh ht]
      omega
    have hnf' : next_index cfg.TX_BUFFER_SIZE s.serial_tx_buffer_head
        ≠ s.serial_tx_buffer_tail := by
      rw [next_index_mod _ _ hN hh]
      exact hnf
    obtain ⟨s1, w, f1, f2, f3, f4, f5, f6, f7, f8⟩ := serial_write_stored cfg s b fuel hnf'
    have hc : tx_contents cfg s1 = tx_contents cfg s ++ [b] := by
      unfold tx_contents
      rw [f1, f2, f3]
      exact ring_contents_push _ _ _ _ _ hN hh ht hnf'
    have hh1 : s1.serial_tx_buffer_head < cfg.TX_BUFFER_SIZE := by
      rw [f2]
      exact next_index_lt _ _ hN hh
    have ht1 : s1.serial_tx_buffer_tail < cfg.TX_BUFFER_SIZE := by
      rw [f3]
      exact ht
    obtain ⟨s2, w2, g1, g2, g3, g4, g5, g6, g7, g8⟩ := ih s1 hh1 ht1
      (by rw [hc]; simp only [List.length_append, List.length_singleton]; omega)
    refine ⟨s2, ?_, ?_, g2, by rw [g3, f3], by rw [g4, f4], by rw [g5, f5], by rw [g6, f6],
      fun _ hcpu => ?_, fun _ hcpu => ?_⟩
    · simp only [write_all, w]
      exact w2
    · rw [g1, hc]
      simp
    · cases bs with
      | nil =>
        simp only [write_all] at w2
        injection w2 with w2
        rw [← w2]
        exact f7 hcpu
      | cons c cs => exact g7 (by simp) hcpu
    · cases bs with
      | nil =>
        simp only [write_all] at w2
        injection w2 with w2
        rw [← w2]
        exact f8 hcpu
      | cons c cs => exact g8 (by simp) hcpu

theorem tx_contents_of_empty (cfg : Config) (s : State)
    (hh : s.serial_tx_buffer_head < cfg.TX_BUFFER_SIZE) (he : tx_empty s) :
    tx_contents cfg s = [] := by
  unfold tx_contents
  rw [← he]
  exact ring_contents_empty _ _ _ hh

/-- C6 (TX path end to end). From an empty TX buffer with valid indices and no flow-control
request pending, for every list of at most `TX_BUFFER_SIZE - 1` bytes: each `serial_write`
returns (with any positive amount of fuel), stores its byte at `head`, advances `head` by one
modulo `TX_BUFFER_SIZE` and leaves the transmit interrupt of the selected processor enabled;
after all writes, as many calls of the transmit handler as there are bytes transmit exactly
these bytes in the order written, leave the TX buffer empty and, when at least one byte was
written, leave the transmit interrupt disabled. -/
theorem tx_end_to_end (cfg : Config) (s : State) (bs : List Nat) (fuel : Nat)
    (hN : cfg.TX_BUFFER_SIZE ≤ 256)
    (hh : s.serial_tx_buffer_head < cfg.TX_BUFFER_SIZE)
    (he : tx_empty s) (hq : ¬ flow_pending cfg s)
    (hk : bs.length ≤ cfg.TX_BUFFER_SIZE - 1) :
    (∀ pre b post, bs = pre ++ b :: post →
      ∃ t t', write_all cfg (fuel + 1) s pre = some t ∧
        serial_write cfg t b (fuel + 1) = some t' ∧
        t'.serial_tx_buffer = store t.serial_tx_buffer t.serial_tx_buffer_head b ∧
        t'.serial_tx_buffer_head = (t.serial_tx_buffer_head + 1) % cfg.TX_BUFFER_SIZE ∧
        (cfg.cpu = CpuMap.ATMEGA → t'.UDRIE0 = true) ∧
        (cfg.cpu = CpuMap.STM32F10X → t'.USART_IT_TXE = true)) ∧
    ∃ s1, write_all cfg (fuel + 1) s bs = some s1 ∧
      ((udre_run cfg bs.length s1).UDR0 = s.UDR0 ++ bs ∧
        tx_empty (udre_run cfg bs.length s1) ∧
        (1 ≤ bs.length → (udre_run cfg bs.length s1).UDRIE0 = false)) ∧
      ((usart1_tx_run cfg bs.length s1).USART1_DR = s.USART1_DR ++ bs ∧
        tx_empty (usart1_tx_run cfg bs.length s1) ∧
        (1 ≤ bs.length → (usart1_tx_run cfg bs.length s1).USART_IT_TXE = false)) := by
  have ht : s.serial_tx_buffer_tail < cfg.TX_BUFFER_SIZE := by
    unfold tx_empty at he
    omega
  have hc0 := tx_contents_of_empty cfg s hh he
  constructor
  · intro pre b post hsplit
    have hlen : pre.length + 1 ≤ cfg.TX_BUFFER_SIZE - 1 := by
      rw [hsplit] at hk
      simp only [List.length_append, List.length_cons] at hk
      omega
    obtain ⟨t, w, g1, g2, g3, _, _, _, _, _⟩ := write_all_fill cfg fuel hN pre s hh ht
      (by rw [hc0]; simp only [List.length_nil]; omega)
    have ht' : t.serial_tx_buffer_tail < cfg.TX_BUFFER_SIZE := by
      rw [g3]
      exact ht
    have hnf : ¬ tx_full cfg t := by
      rw [tx_full_iff_length cfg t g2 ht', g1, hc0]
      simp only [List.nil_append]
      omega
    have hnf' : next_index cfg.TX_BUFFER_SIZE t.serial_tx_buffer_head
        ≠ t.serial_tx_buffer_tail := by
      rw [next_index_mod _ _ hN g2]
      exact hnf
    obtain ⟨t', w', f1, f2, _, _, _, _, f7, f8⟩ := serial_write_stored cfg t b fuel hnf'
    exact ⟨t, t', w, w', f1, by rw [f2, next_index_mod _ _ hN g2], f7, f8⟩
  · obtain ⟨s1, w, g1, g2, g3, g4, g5, g6, _, _⟩ := write_all_fill cfg fuel hN bs s hh ht
      (by rw [hc0]; simp only [List.length_nil]; omega)
    rw [hc0, List.nil_append] at g1
    have ht1 : s1.serial_tx_buffer_tail < cfg.TX_BUFFER_SIZE := by
      rw [g3]
      exact ht
    have hq1 : ¬ flow_pending cfg s1 := by
      rw [flow_pending_congr cfg s1 s g6]
      exact hq
    obtain ⟨i1, i2, i3, _, _, i6⟩ := udre_run_drain cfg hN bs.length s1 g2 ht1 hq1
      (by rw [g1])
    obtain ⟨j1, j2, j3, _, _, j6⟩ := usart1_tx_run_drain cfg hN bs.length s1 g2 ht1 hq1
      (by rw [g1])
    refine ⟨s1, w, ⟨by rw [i1, g4, g1], ?_, i6⟩, ⟨by rw [j1, g5, g1], ?_, j6⟩⟩
    · unfold tx_empty
      rw [i2, i3]
    · unfold tx_empty
      rw [j2, j3]

/-- C6 at the sample configuration: the bytes 72, 105, 10 written from the start-up state. -/
theorem tx_end_to_end_witness :
    (∃ t t', write_all sample_config 1 (init_state sample_config) [72] = some t ∧
      serial_write sample_config t 105 1 = some t' ∧
      t'.serial_tx_buffer = store t.serial_tx_buffer t.serial_tx_buffer_head 105 ∧
      t'.serial_tx_buffer_head = (t.serial_tx_buffer_head + 1) % 64 ∧
      t'.UDRIE0 = true) ∧
    ∃ s1, write_all sample_config 1 (init_state sample_config) [72, 105, 10] = some s1 ∧
      (udre_run sample_config 3 s1).UDR0 = [72, 105, 10] ∧
      tx_empty (udre_run sample_config 3 s1) ∧
      (udre_run sample_config 3 s1).UDRIE0 = false :=
  have h := tx_end_to_end sample_config (init_state sample_config) [72, 105, 10] 0
    (by decide) (by decide) (by decide) (by decide) (by decide)
  ⟨(h.1 [72] 105 [10] rfl).elim fun t ht => ht.elim fun t' h1 =>
      ⟨t, t', h1.1, h1.2.1, h1.2.2.1, h1.2.2.2.1, h1.2.2.2.2.1 rfl⟩,
    h.2.elim fun s1 h1 => ⟨s1, h1.1, h1.2.1.1, h1.2.1.2.1, h1.2.1.2.2 (by decide)⟩⟩

/-- C7 (idempotent reset). For every state, resetting the read buffer twice gives the same
state as resetting it once; after a reset `serial_get_rx_buffer_count` reports 0, the flow
state (when XON/XOFF is compiled in) is `XON_SENT`, and the next `serial_read` returns
`SERIAL_NO_DATA` and changes nothing. -/
theorem reset_read_buffer_idempotent (cfg : Config) (s : State) :
    serial_reset_read_buffer cfg (serial_reset_read_buffer cfg s)
        = serial_reset_read_buffer cfg s ∧
      serial_get_rx_buffer_count cfg (serial_reset_read_buffer cfg s) = 0 ∧
      (cfg.ENABLE_XONXOFF = true →
        (serial_reset_read_buffer cfg s).flow_ctrl = cfg.XON_SENT) ∧
      serial_read cfg (serial_reset_read_buffer cfg s)
        = (cfg.SERIAL_NO_DATA, serial_reset_read_buffer cfg s) := by
  have hempty : (serial_reset_read_buffer cfg s).serial_rx_buffer_head
      = (serial_reset_read_buffer cfg s).serial_rx_buffer_tail := by
    unfold serial_reset_read_buffer
    split_ifs <;> rfl
  refine ⟨?_, ?_, ?_, serial_read_empty cfg _ hempty⟩
  · unfold serial_reset_read_buffer
    split_ifs <;> rfl
  · simp only [serial_get_rx_buffer_count, hempty, ge_iff_le, le_refl, if_true, u8]
    omega
  · intro hX
    simp [serial_reset_read_buffer, hX]

/-- C7 at the sample configuration, from a state with five bytes buffered and the sender
paused. -/
theorem reset_read_buffer_idempotent_witness :
    (serial_reset_read_buffer sample_config
        { init_state sample_config with
          serial_rx_buffer_head := 5
          flow_ctrl := sample_config.XOFF_SENT }).flow_ctrl = sample_config.XON_SENT :=
  (reset_read_buffer_idempotent sample_config
    { init_state sample_config with
      serial_rx_buffer_head := 5
      flow_ctrl := sample_config.XOFF_SENT }).2.2.1 (by decide)

/-- C8 (abort of a blocked write). In every state in which the `EXEC_RESET` bit of
`sys_rt_exec_state` is set and the TX buffer is full, `serial_write` returns as soon as it
evaluates its wait condition and the state it leaves is the state it found: nothing is stored,
no index moves, no interrupt enable changes, nothing is transmitted.  Full is
`(head + 1) mod TX_BUFFER_SIZE = tail` for a valid index `head`, and for an arbitrary state
the test `next_head == tail` that the function itself makes. -/
theorem write_abort (cfg : Config) (s : State) (b fuel : Nat)
    (hr : s.sys_rt_exec_state &&& cfg.EXEC_RESET ≠ 0) :
    (cfg.TX_BUFFER_SIZE ≤ 256 → s.serial_tx_buffer_head < cfg.TX_BUFFER_SIZE →
        tx_full cfg s → serial_write cfg s b (fuel + 1) = some s) ∧
      (next_index cfg.TX_BUFFER_SIZE s.serial_tx_buffer_head = s.serial_tx_buffer_tail →
        serial_write cfg s b (fuel + 1) = some s) := by
  have key : next_index cfg.TX_BUFFER_SIZE s.serial_tx_buffer_head = s.serial_tx_buffer_tail →
      serial_write cfg s b (fuel + 1) = some s := by
    intro hf
    unfold next_index at hf
    simp only at hf
    simp only [serial_write, serial_write_wait, hf, if_true, hr, ne_eq, not_false_eq_true]
  refine ⟨fun hN hh hf => key ?_, key⟩
  rw [next_index_mod _ _ hN hh]
  exact hf

/-- C8 at the sample configuration, with `EXEC_RESET` (16) set: TX head 63 and tail 0, and
TX head 10 and tail 11. -/
theorem write_abort_witness :
    serial_write sample_config
        { init_state sample_config with
          serial_tx_buffer_head := 63
          sys_rt_exec_state := 16 } 65 1
      = some { init_state sample_config with
          serial_tx_buffer_head := 63
          sys_rt_exec_state := 16 } ∧
    serial_write sample_config
        { init_state sample_config with
          serial_tx_buffer_head := 10
          serial_tx_buffer_tail := 11
          sys_rt_exec_state := 16 } 65 1
      = some { init_state sample_config with
          serial_tx_buffer_head := 10
          serial_tx_buffer_tail := 11
          sys_rt_exec_state := 16 } :=
  ⟨(write_abort sample_config
      { init_state sample_config with
        serial_tx_buffer_head := 63
        sys_rt_exec_state := 16 } 65 0 (by decide)).1 (by decide) (by decide) (by decide),
    (write_abort sample_config
      { init_state sample_config with
        serial_tx_buffer_head := 10
        serial_tx_buffer_tail := 11
        sys_rt_exec_state := 16 } 65 0 (by decide)).2 (by decide)⟩

/-- C9 (empty read). In every state with `head = tail` in the RX buffer, `serial_read`
returns `SERIAL_NO_DATA` and the state it leaves is the state it found. -/
theorem read_empty (cfg : Config) (s : State) (he : rx_empty s) :
    serial_read cfg s = (cfg.SERIAL_NO_DATA, s) :=
  serial_read_empty cfg s he

/-- C9 at the sample configuration, in the start-up state. -/
theorem read_empty_witness :
    serial_read sample_config (init_state sample_config)
      = (sample_config.SERIAL_NO_DATA, init_state sample_config) :=
  read_empty sample_config (init_state sample_config) (by decide)

theorem count_arith (N head tail : Nat) (hN : N ≤ 256) (hh : head < N) (ht : tail < N) :
    ((if head ≥ tail then u8 ((head : Int) - tail)
        else u8 ((N : Int) - ((tail : Int) - head)) : Nat) : Int)
        = ((head : Int) - tail) % N ∧
      ((if head ≥ tail then u8 ((head : Int) - tail)
        else u8 ((N : Int) - ((tail : Int) - head))) = 0 ↔ head = tail) ∧
      (if head ≥ tail then u8 ((head : Int) - tail)
        else u8 ((N : Int) - ((tail : Int) - head))) ≤ N - 1 := by
  by_cases h : head ≥ tail
  · have e : ((head : Int) - tail) % N = head - tail :=
      Int.emod_eq_of_lt (by omega) (by omega)
    simp only [h, if_true, u8, e]
    refine ⟨by omega, by omega, by omega⟩
  · have e : ((head : Int) - tail) % N = head - tail + N := by
      have h1 := @Int.add_emod_self ((head : Int) - tail) (N : Int)
      rw [← h1]
      exact Int.emod_eq_of_lt (by omega) (by omega)
    simp only [h, if_false, u8, e]
    refine ⟨by omega, by omega, by omega⟩

/-- C10 (occupancy arithmetic). For RX indices below `RX_BUFFER_SIZE` (at most 256, so that
the indices fit `uint8_t`), `serial_get_rx_buffer_count` returns `(head - tail) mod
RX_BUFFER_SIZE`, which is 0 exactly when `head = tail` and never exceeds
`RX_BUFFER_SIZE - 1`; likewise for `serial_get_tx_buffer_count` and `TX_BUFFER_SIZE`. -/
theorem buffer_count_arith (cfg : Config) (s : State) :
    (cfg.RX_BUFFER_SIZE ≤ 256 → s.serial_rx_buffer_head < cfg.RX_BUFFER_SIZE →
      s.serial_rx_buffer_tail < cfg.RX_BUFFER_SIZE →
      (serial_get_rx_buffer_count cfg s : Int)
          = ((s.serial_rx_buffer_head : Int) - s.serial_rx_buffer_tail)
              % cfg.RX_BUFFER_SIZE ∧
        (serial_get_rx_buffer_count cfg s = 0
          ↔ s.serial_rx_buffer_head = s.serial_rx_buffer_tail) ∧
        serial_get_rx_buffer_count cfg s ≤ cfg.RX_BUFFER_SIZE - 1) ∧
    (cfg.TX_BUFFER_SIZE ≤ 256 → s.serial_tx_buffer_head < cfg.TX_BUFFER_SIZE →
      s.serial_tx_buffer_tail < cfg.TX_BUFFER_SIZE →
      (serial_get_tx_buffer_count cfg s : Int)
          = ((s.serial_tx_buffer_head : Int) - s.serial_tx_buffer_tail)
              % cfg.TX_BUFFER_SIZE ∧
        (serial_get_tx_buffer_count cfg s = 0
          ↔ s.serial_tx_buffer_head = s.serial_tx_buffer_tail) ∧
        serial_get_tx_buffer_count cfg s ≤ cfg.TX_BUFFER_SIZE - 1) :=
  ⟨fun hN hh ht => count_arith _ _ _ hN hh ht, fun hN hh ht => count_arith _ _ _ hN hh ht⟩

/-- C10 at the sample configuration, with wrapped-around indices in both buffers. -/
theorem buffer_count_arith_witness :
    (serial_get_rx_buffer_count sample_config
        { init_state sample_config with
          serial_rx_buffer_head := 3
          serial_rx_buffer_tail := 120 } : Int) = ((3 : Int) - 120) % 128 ∧
      serial_get_tx_buffer_count sample_config
        { init_state sample_config with
          serial_tx_buffer_head := 3
          serial_tx_buffer_tail := 60 } ≤ 64 - 1 :=
  have h := buffer_count_arith sample_config
    { init_state sample_config with
      serial_rx_buffer_head := 3
      serial_rx_buffer_tail := 120 }
  have h' := buffer_count_arith sample_config
    { init_state sample_config with
      serial_tx_buffer_head := 3
      serial_tx_buffer_tail := 60 }
  ⟨(h.1 (by decide) (by decide) (by decide)).1,
    (h'.2 (by decide) (by decide) (by decide)).2.2⟩

theorem cmd_distinct_ne (cfg : Config) (h : cmd_distinct cfg) :
    cfg.CMD_STATUS_REPORT ≠ cfg.CMD_CYCLE_START ∧ cfg.CMD_STATUS_REPORT ≠ cfg.CMD_FEED_HOLD ∧
      cfg.CMD_STATUS_REPORT ≠ cfg.CMD_SAFETY_DOOR ∧ cfg.CMD_STATUS_REPORT ≠ cfg.CMD_RESET ∧
      cfg.CMD_CYCLE_START ≠ cfg.CMD_FEED_HOLD ∧ cfg.CMD_CYCLE_START ≠ cfg.CMD_SAFETY_DOOR ∧
      cfg.CMD_CYCLE_START ≠ cfg.CMD_RESET ∧ cfg.CMD_FEED_HOLD ≠ cfg.CMD_SAFETY_DOOR ∧
      cfg.CMD_FEED_HOLD ≠ cfg.CMD_RESET ∧ cfg.CMD_SAFETY_DOOR ≠ cfg.CMD_RESET := by
  unfold cmd_distinct at h
  simp only [List.nodup_cons, List.mem_cons, List.mem_singleton, not_or, List.not_mem_nil,
    not_false_eq_true, List.nodup_nil, and_true] at h
  tauto

theorem bit_true_atomic_twice (x m : Nat) :
    bit_true_atomic (bit_true_atomic x m) m = bit_true_atomic x m := by
  unfold bit_true_atomic
  apply Nat.eq_of_testBit_eq
  intro i
  simp only [Nat.testBit_or, Bool.or_assoc, Bool.or_self]

/-- C11 (flag-setting realtime commands). With pairwise distinct command bytes, for every
state the receive handler given `CMD_STATUS_REPORT`, `CMD_CYCLE_START`, `CMD_FEED_HOLD` or
`CMD_SAFETY_DOOR` replaces `sys_rt_exec_state` by its bitwise OR with `EXEC_STATUS_REPORT`,
`EXEC_CYCLE_START`, `EXEC_FEED_HOLD` or `EXEC_SAFETY_DOOR` respectively and changes nothing
else; bit by bit, a bit of the new value is set exactly when it was set before or is set in
the mask; and handing the same command byte to the handler twice in a row gives the same
state as handing it once. -/
theorem realtime_flag_commands (cfg : Config) (s : State) (hd : cmd_distinct cfg) :
    (ISR_SERIAL_RX cfg s cfg.CMD_STATUS_REPORT
        = { s with sys_rt_exec_state := s.sys_rt_exec_state ||| cfg.EXEC_STATUS_REPORT } ∧
      ISR_SERIAL_RX cfg s cfg.CMD_CYCLE_START
        = { s with sys_rt_exec_state := s.sys_rt_exec_state ||| cfg.EXEC_CYCLE_START } ∧
      ISR_SERIAL_RX cfg s cfg.CMD_FEED_HOLD
        = { s with sys_rt_exec_state := s.sys_rt_exec_state ||| cfg.EXEC_FEED_HOLD } ∧
      ISR_SERIAL_RX cfg s cfg.CMD_SAFETY_DOOR
        = { s with sys_rt_exec_state := s.sys_rt_exec_state ||| cfg.EXEC_SAFETY_DOOR }) ∧
    (∀ m i : Nat, (s.sys_rt_exec_state ||| m).testBit i
        = (s.sys_rt_exec_state.testBit i || m.testBit i)) ∧
    (∀ b : Nat, b = cfg.CMD_STATUS_REPORT ∨ b = cfg.CMD_CYCLE_START ∨ b = cfg.CMD_FEED_HOLD ∨
        b = cfg.CMD_SAFETY_DOOR →
      ISR_SERIAL_RX cfg (ISR_SERIAL_RX cfg s b) b = ISR_SERIAL_RX cfg s b ∧
        USART1_IRQHandler cfg s (some b) false = ISR_SERIAL_RX cfg s b) := by
  obtain ⟨n1, n2, n3, n4, n5, n6, n7, n8, n9, n10⟩ := cmd_distinct_ne cfg hd
  have e1 : ∀ t : State, ISR_SERIAL_RX cfg t cfg.CMD_STATUS_REPORT
      = { t with sys_rt_exec_state :=
            (bit_true_atomic t.sys_rt_exec_state cfg.EXEC_STATUS_REPORT) } := by
    intro t
    simp only [ISR_SERIAL_RX, if_true]
  have e2 : ∀ t : State, ISR_SERIAL_RX cfg t cfg.CMD_CYCLE_START
      = { t with sys_rt_exec_state :=
            (bit_true_atomic t.sys_rt_exec_state cfg.EXEC_CYCLE_START) } := by
    intro t
    simp only [ISR_SERIAL_RX, Ne.symm n1, if_false, if_true]
  have e3 : ∀ t : State, ISR_SERIAL_RX cfg t cfg.CMD_FEED_HOLD
      = { t with sys_rt_exec_state :=
            (bit_true_atomic t.sys_rt_exec_state cfg.EXEC_FEED_HOLD) } := by
    intro t
    simp only [ISR_SERIAL_RX, Ne.symm n2, Ne.symm n5, if_false, if_true]
  have e4 : ∀ t : State, ISR_SERIAL_RX cfg t cfg.CMD_SAFETY_DOOR
      = { t with sys_rt_exec_state :=
            (bit_true_atomic t.sys_rt_exec_state cfg.EXEC_SAFETY_DOOR) } := by
    intro t
    simp only [ISR_SERIAL_RX, Ne.symm n3, Ne.symm n6, Ne.symm n8, if_false, if_true]
  refine ⟨⟨e1 s, e2 s, e3 s, e4 s⟩, fun m i => Nat.testBit_or _ _ _, ?_⟩
  intro b hb
  refine ⟨?_, USART1_IRQHandler_rx_eq cfg s b⟩
  rcases hb with rfl | rfl | rfl | rfl
  · rw [e1 s, e1]
    simp only [bit_true_atomic_twice]
  · rw [e2 s, e2]
    simp only [bit_true_atomic_twice]
  · rw [e3 s, e3]
    simp only [bit_true_atomic_twice]
  · rw [e4 s, e4]
    simp only [bit_true_atomic_twice]

/-- C11 at the sample configuration: the feed-hold byte 33 sets bit 3 (mask 8) of the flags
2, giving 10, once or twice. -/
theorem realtime_flag_commands_witness :
    (ISR_SERIAL_RX sample_config
        { init_state sample_config with sys_rt_exec_state := 2 } 33).sys_rt_exec_state = 10 ∧
      ISR_SERIAL_RX sample_config
          (ISR_SERIAL_RX sample_config
            { init_state sample_config with sys_rt_exec_state := 2 } 33) 33
        = ISR_SERIAL_RX sample_config
            { init_state sample_config with sys_rt_exec_state := 2 } 33 :=
  have h := realtime_flag_commands sample_config
    { init_state sample_config with sys_rt_exec_state := 2 } (by decide)
  ⟨congrArg State.sys_rt_exec_state h.1.2.2.1,
    (h.2.2 33 (Or.inr (Or.inr (Or.inl rfl)))).1⟩

theorem rx_push_fields (cfg : Config) (s : State) (b : Nat)
    (hnf : next_index cfg.RX_BUFFER_SIZE s.serial_rx_buffer_head ≠ s.serial_rx_buffer_tail) :
    serial_get_rx_buffer_count cfg (rx_push cfg s b)
        = serial_get_rx_buffer_count cfg
            { s with serial_rx_buffer_head :=
                next_index cfg.RX_BUFFER_SIZE s.serial_rx_buffer_head } ∧
      (cfg.ENABLE_XONXOFF = true ∧
          serial_get_rx_buffer_count cfg
            { s with serial_rx_buffer_head :=
                next_index cfg.RX_BUFFER_SIZE s.serial_rx_buffer_head } ≥ cfg.RX_BUFFER_FULL ∧
          s.flow_ctrl = cfg.XON_SENT →
        (rx_push cfg s b).flow_ctrl = cfg.SEND_XOFF ∧ (rx_push cfg s b).UDRIE0 = true) ∧
      (¬ (cfg.ENABLE_XONXOFF = true ∧
          serial_get_rx_buffer_count cfg
            { s with serial_rx_buffer_head :=
                next_index cfg.RX_BUFFER_SIZE s.serial_rx_buffer_head } ≥ cfg.RX_BUFFER_FULL ∧
          s.flow_ctrl = cfg.XON_SENT) →
        (rx_push cfg s b).flow_ctrl = s.flow_ctrl ∧ (rx_push cfg s b).UDRIE0 = s.UDRIE0) := by
  simp only [rx_push, hnf, ne_eq, not_false_eq_true, if_true]
  split_ifs with h
  · exact ⟨rfl, fun _ => ⟨rfl, rfl⟩, fun h' => absurd h h'⟩
  · exact ⟨rfl, fun h' => absurd h' h, fun _ => ⟨rfl, rfl⟩⟩

theorem serial_read_pop_eq (cfg : Config) (s : State)
    (hne : s.serial_rx_buffer_head ≠ s.serial_rx_buffer_tail) :
    (serial_read cfg s).2
      = if cfg.ENABLE_XONXOFF = true ∧
            serial_get_rx_buffer_count cfg
              { s with serial_rx_buffer_tail :=
                  next_index cfg.RX_BUFFER_SIZE s.serial_rx_buffer_tail } < cfg.RX_BUFFER_LOW ∧
            s.flow_ctrl = cfg.XOFF_SENT then
          { s with
            serial_rx_buffer_tail := next_index cfg.RX_BUFFER_SIZE s.serial_rx_buffer_tail
            flow_ctrl := cfg.SEND_XON
            UDRIE0 := true }
        else
          { s with
            serial_rx_buffer_tail :=
              next_index cfg.RX_BUFFER_SIZE s.serial_rx_buffer_tail } := by
  simp only [serial_read, hne, if_false, next_index, serial_get_rx_buffer_count]
  split_ifs <;> first | rfl | (exfalso; tauto)

theorem serial_read_fields (cfg : Config) (s : State)
    (hne : s.serial_rx_buffer_head ≠ s.serial_rx_buffer_tail) :
    serial_get_rx_buffer_count cfg (serial_read cfg s).2
        = serial_get_rx_buffer_count cfg
            { s with serial_rx_buffer_tail :=
                next_index cfg.RX_BUFFER_SIZE s.serial_rx_buffer_tail } ∧
      (cfg.ENABLE_XONXOFF = true ∧
          serial_get_rx_buffer_count cfg
            { s with serial_rx_buffer_tail :=
                next_index cfg.RX_BUFFER_SIZE s.serial_rx_buffer_tail } < cfg.RX_BUFFER_LOW ∧
          s.flow_ctrl = cfg.XOFF_SENT →
        (serial_read cfg s).2.flow_ctrl = cfg.SEND_XON ∧ (serial_read cfg s).2.UDRIE0 = true) ∧
      (¬ (cfg.ENABLE_XONXOFF = true ∧
          serial_get_rx_buffer_count cfg
            { s with serial_rx_buffer_tail :=
                next_index cfg.RX_BUFFER_SIZE s.serial_rx_buffer_tail } < cfg.RX_BUFFER_LOW ∧
          s.flow_ctrl = cfg.XOFF_SENT) →
        (serial_read cfg s).2.flow_ctrl = s.flow_ctrl ∧
          (serial_read cfg s).2.UDRIE0 = s.UDRIE0) := by
  rw [serial_read_pop_eq cfg s hne]
  split_ifs with h
  · exact ⟨rfl, fun _ => ⟨rfl, rfl⟩, fun h' => absurd h h'⟩
  · exact ⟨rfl, fun h' => absurd h' h, fun _ => ⟨rfl, rfl⟩⟩

/-- C12 (flow-control transition rules). With XON/XOFF compiled in, for every state: when the
receive handler stores a data byte, `flow_ctrl` becomes `SEND_XOFF` and `UDRIE0` is set if the
occupancy of the resulting state is at least `RX_BUFFER_FULL` and `flow_ctrl` was `XON_SENT`,
and otherwise `flow_ctrl` and `UDRIE0` keep their values, so that (the two codes being
different) `flow_ctrl` changes exactly in that case; when `serial_read` pops a byte,
`flow_ctrl` becomes `SEND_XON` and `UDRIE0` is set if the occupancy of the resulting state is
below `RX_BUFFER_LOW` and `flow_ctrl` was `XOFF_SENT`, and otherwise both keep their values;
a realtime byte, a byte dropped by a full buffer and a read of an empty buffer leave
`flow_ctrl` unchanged. -/
theorem flow_transition_rules (cfg : Config) (s : State) (hX : cfg.ENABLE_XONXOFF = true) :
    (∀ b : Nat, is_data cfg b →
      next_index cfg.RX_BUFFER_SIZE s.serial_rx_buffer_head ≠ s.serial_rx_buffer_tail →
      (cfg.RX_BUFFER_FULL ≤ serial_get_rx_buffer_count cfg (ISR_SERIAL_RX cfg s b) ∧
          s.flow_ctrl = cfg.XON_SENT →
        (ISR_SERIAL_RX cfg s b).flow_ctrl = cfg.SEND_XOFF ∧
          (ISR_SERIAL_RX cfg s b).UDRIE0 = true) ∧
      (¬ (cfg.RX_BUFFER_FULL ≤ serial_get_rx_buffer_count cfg (ISR_SERIAL_RX cfg s b) ∧
          s.flow_ctrl = cfg.XON_SENT) →
        (ISR_SERIAL_RX cfg s b).flow_ctrl = s.flow_ctrl ∧
          (ISR_SERIAL_RX cfg s b).UDRIE0 = s.UDRIE0) ∧
      (cfg.SEND_XOFF ≠ cfg.XON_SENT →
        ((ISR_SERIAL_RX cfg s b).flow_ctrl ≠ s.flow_ctrl ↔
          cfg.RX_BUFFER_FULL ≤ serial_get_rx_buffer_count cfg (ISR_SERIAL_RX cfg s b) ∧
            s.flow_ctrl = cfg.XON_SENT))) ∧
    (s.serial_rx_buffer_head ≠ s.serial_rx_buffer_tail →
      (serial_get_rx_buffer_count cfg (serial_read cfg s).2 < cfg.RX_BUFFER_LOW ∧
          s.flow_ctrl = cfg.XOFF_SENT →
        (serial_read cfg s).2.flow_ctrl = cfg.SEND_XON ∧
          (serial_read cfg s).2.UDRIE0 = true) ∧
      (¬ (serial_get_rx_buffer_count cfg (serial_read cfg s).2 < cfg.RX_BUFFER_LOW ∧
          s.flow_ctrl = cfg.XOFF_SENT) →
        (serial_read cfg s).2.flow_ctrl = s.flow_ctrl ∧
          (serial_read cfg s).2.UDRIE0 = s.UDRIE0) ∧
      (cfg.SEND_XON ≠ cfg.XOFF_SENT →
        ((serial_read cfg s).2.flow_ctrl ≠ s.flow_ctrl ↔
          serial_get_rx_buffer_count cfg (serial_read cfg s).2 < cfg.RX_BUFFER_LOW ∧
            s.flow_ctrl = cfg.XOFF_SENT))) ∧
    (∀ b : Nat, is_realtime cfg b → (ISR_SERIAL_RX cfg s b).flow_ctrl = s.flow_ctrl) ∧
    (∀ b : Nat, is_data cfg b →
      next_index cfg.RX_BUFFER_SIZE s.serial_rx_buffer_head = s.serial_rx_buffer_tail →
      ISR_SERIAL_RX cfg s b = s) ∧
    (s.serial_rx_buffer_head = s.serial_rx_buffer_tail → (serial_read cfg s).2 = s) := by
  refine ⟨?_, ?_, fun b hb => (ISR_SERIAL_RX_realtime cfg s b hb).2.2.2,
    fun b hb hf => ISR_SERIAL_RX_dropped cfg s b hb hf,
    fun he => by rw [serial_read_empty cfg s he]⟩
  · intro b hb hnf
    rw [ISR_SERIAL_RX_data cfg s b hb]
    obtain ⟨c, p, q⟩ := rx_push_fields cfg s b hnf
    rw [c]
    have p' := fun h => p ⟨hX, h⟩
    have q' : ¬ (cfg.RX_BUFFER_FULL ≤ serial_get_rx_buffer_count cfg
          { s with serial_rx_buffer_head :=
              next_index cfg.RX_BUFFER_SIZE s.serial_rx_buffer_head } ∧
          s.flow_ctrl = cfg.XON_SENT) →
        (rx_push cfg s b).flow_ctrl = s.flow_ctrl ∧ (rx_push cfg s b).UDRIE0 = s.UDRIE0 :=
      fun h => q (fun h' => h h'.2)
    refine ⟨p', q', fun hne => ?_⟩
    constructor
    · intro hch
      by_contra hcond
      exact hch (q' hcond).1
    · intro hcond hsame
      rw [(p' hcond).1, hcond.2] at hsame
      exact hne hsame
  · intro hne
    obtain ⟨c, p, q⟩ := serial_read_fields cfg s hne
    rw [c]
    have p' := fun h => p ⟨hX, h⟩
    have q' : ¬ (serial_get_rx_buffer_count cfg
          { s with serial_rx_buffer_tail :=
              next_index cfg.RX_BUFFER_SIZE s.serial_rx_buffer_tail } < cfg.RX_BUFFER_LOW ∧
          s.flow_ctrl = cfg.XOFF_SENT) →
        (serial_read cfg s).2.flow_ctrl = s.flow_ctrl ∧
          (serial_read cfg s).2.UDRIE0 = s.UDRIE0 :=
      fun h => q (fun h' => h h'.2)
    refine ⟨p', q', fun hne' => ?_⟩
    constructor
    · intro hch
      by_contra hcond
      exact hch (q' hcond).1
    · intro hcond hsame
      rw [(p' hcond).1, hcond.2] at hsame
      exact hne' hsame

/-- C12 at the sample configuration: the 100th byte raises the pause request, and the read
that leaves 19 bytes after the pause byte was sent raises the resume request. -/
theorem flow_transition_rules_witness :
    ((ISR_SERIAL_RX sample_config
          { init_state sample_config with serial_rx_buffer_head := 99 } 65).flow_ctrl
        = sample_config.SEND_XOFF ∧
      (ISR_SERIAL_RX sample_config
          { init_state sample_config with serial_rx_buffer_head := 99 } 65).UDRIE0 = true) ∧
    ((serial_read sample_config
          { init_state sample_config with
            serial_rx_buffer_head := 20
            flow_ctrl := sample_config.XOFF_SENT }).2.flow_ctrl = sample_config.SEND_XON ∧
      (serial_read sample_config
          { init_state sample_config with
            serial_rx_buffer_head := 20
            flow_ctrl := sample_config.XOFF_SENT }).2.UDRIE0 = true) ∧
    (ISR_SERIAL_RX sample_config (init_state sample_config) 65).flow_ctrl
      = (init_state sample_config).flow_ctrl :=
  have h1 := (flow_transition_rules sample_config
    { init_state sample_config with serial_rx_buffer_head := 99 } (by decide)).1
    65 (by decide) (by decide)
  have h2 := (flow_transition_rules sample_config
    { init_state sample_config with
      serial_rx_buffer_head := 20
      flow_ctrl := sample_config.XOFF_SENT } (by decide)).2.1 (by decide)
  have h3 := (flow_transition_rules sample_config (init_state sample_config) (by decide)).1
    65 (by decide) (by decide)
  ⟨h1.1 (by decide), h2.1 (by decide), (h3.2.1 (by decide)).1⟩

theorem serial_write_wait_fuel (cfg : Config) (s : State) (nh : Nat) :
    ∀ fuel : Nat, serial_write_wait cfg s nh (fuel + 1) = serial_write_wait cfg s nh 1 := by
  intro fuel
  induction fuel with
  | zero => rfl
  | succ n ih =>
    rw [serial_write_wait, ih]
    simp only [serial_write_wait]
    split_ifs <;> rfl

theorem serial_write_fuel (cfg : Config) (s : State) (b fuel : Nat) :
    serial_write cfg s b (fuel + 1) = serial_write cfg s b 1 := by
  simp only [serial_write, serial_write_wait_fuel cfg s _ fuel]

theorem serial_write_cases (cfg : Config) (s s1 : State) (b fuel : Nat)
    (h : serial_write cfg s b fuel = some s1) :
    s1 = s ∨
      (next_index cfg.TX_BUFFER_SIZE s.serial_tx_buffer_head ≠ s.serial_tx_buffer_tail ∧
        ∃ e1 e2, s1 = { s with
          serial_tx_buffer := store s.serial_tx_buffer s.serial_tx_buffer_head b
          serial_tx_buffer_head := next_index cfg.TX_BUFFER_SIZE s.serial_tx_buffer_head
          UDRIE0 := e1
          USART_IT_TXE := e2 }) := by
  cases fuel with
  | zero => simp [serial_write, serial_write_wait] at h
  | succ n =>
    rw [serial_write_fuel] at h
    simp only [serial_write, serial_write_wait] at h
    by_cases hf : next_index cfg.TX_BUFFER_SIZE s.serial_tx_buffer_head
        = s.serial_tx_buffer_tail
    · left
      have hf' := hf
      unfold next_index at hf'
      simp only at hf'
      simp only [hf', if_true] at h
      split_ifs at h
      · injection h with h
        exact h.symm
    · right
      refine ⟨hf, ?_⟩
      have hf' := hf
      unfold next_index at hf'
      simp only at hf'
      simp only [hf', if_false] at h
      cases hc : cfg.cpu
      · simp only [hc] at h
        injection h with h
        exact ⟨true, s.USART_IT_TXE, h.symm⟩
      · simp only [hc] at h
        injection h with h
        exact ⟨s.UDRIE0, true, h.symm⟩

theorem ISR_SERIAL_RX_realtime_frame (cfg : Config) (s : State) (b : Nat)
    (hb : is_realtime cfg b) :
    (ISR_SERIAL_RX cfg s b).serial_tx_buffer = s.serial_tx_buffer ∧
      (ISR_SERIAL_RX cfg s b).serial_tx_buffer_head = s.serial_tx_buffer_head ∧
      (ISR_SERIAL_RX cfg s b).serial_tx_buffer_tail = s.serial_tx_buffer_tail ∧
      (ISR_SERIAL_RX cfg s b).UDR0 = s.UDR0 ∧
      (ISR_SERIAL_RX cfg s b).USART1_DR = s.USART1_DR ∧
      (ISR_SERIAL_RX cfg s b).UDRIE0 = s.UDRIE0 ∧
      (ISR_SERIAL_RX cfg s b).USART_IT_TXE = s.USART_IT_TXE := by
  unfold is_realtime at hb
  unfold ISR_SERIAL_RX
  split_ifs
  all_goals first
    | exact ⟨rfl, rfl, rfl, rfl, rfl, rfl, rfl⟩
    | (exfalso; tauto)

theorem rx_push_frame (cfg : Config) (s : State) (b : Nat) :
    (rx_push cfg s b).serial_rx_buffer_tail = s.serial_rx_buffer_tail ∧
      (rx_push cfg s b).serial_tx_buffer = s.serial_tx_buffer ∧
      (rx_push cfg s b).serial_tx_buffer_head = s.serial_tx_buffer_head ∧
      (rx_push cfg s b).serial_tx_buffer_tail = s.serial_tx_buffer_tail ∧
      (rx_push cfg s b).UDR0 = s.UDR0 ∧
      (rx_push cfg s b).USART1_DR = s.USART1_DR ∧
      (rx_push cfg s b).USART_IT_TXE = s.USART_IT_TXE ∧
      ((rx_push cfg s b).flow_ctrl = s.flow_ctrl ∨
        (cfg.ENABLE_XONXOFF = true ∧ s.flow_ctrl = cfg.XON_SENT ∧
          (rx_push cfg s b).flow_ctrl = cfg.SEND_XOFF ∧ (rx_push cfg s b).UDRIE0 = true)) := by
  unfold rx_push
  split_ifs with h1 h2
  · exact ⟨rfl, rfl, rfl, rfl, rfl, rfl, rfl, Or.inr ⟨h2.1, h2.2.2, rfl, rfl⟩⟩
  · exact ⟨rfl, rfl, rfl, rfl, rfl, rfl, rfl, Or.inl rfl⟩
  · exact ⟨rfl, rfl, rfl, rfl, rfl, rfl, rfl, Or.inl rfl⟩

theorem ISR_SERIAL_RX_frame (cfg : Config) (s : State) (b : Nat) :
    (ISR_SERIAL_RX cfg s b).serial_rx_buffer_tail = s.serial_rx_buffer_tail ∧
      (ISR_SERIAL_RX cfg s b).serial_tx_buffer = s.serial_tx_buffer ∧
      (ISR_SERIAL_RX cfg s b).serial_tx_buffer_head = s.serial_tx_buffer_head ∧
      (ISR_SERIAL_RX cfg s b).serial_tx_buffer_tail = s.serial_tx_buffer_tail ∧
      (ISR_SERIAL_RX cfg s b).UDR0 = s.UDR0 ∧
      (ISR_SERIAL_RX cfg s b).USART1_DR = s.USART1_DR ∧
      (ISR_SERIAL_RX cfg s b).USART_IT_TXE = s.USART_IT_TXE ∧
      ((ISR_SERIAL_RX cfg s b).flow_ctrl = s.flow_ctrl ∨
        (cfg.ENABLE_XONXOFF = true ∧ s.flow_ctrl = cfg.XON_SENT ∧
          (ISR_SERIAL_RX cfg s b).flow_ctrl = cfg.SEND_XOFF ∧
          (ISR_SERIAL_RX cfg s b).UDRIE0 = true)) := by
  by_cases hb : is_realtime cfg b
  · obtain ⟨_, _, a3, a4⟩ := ISR_SERIAL_RX_realtime cfg s b hb
    obtain ⟨f1, f2, f3, f4, f5, _, f7⟩ := ISR_SERIAL_RX_realtime_frame cfg s b hb
    exact ⟨a3, f1, f2, f3, f4, f5, f7, Or.inl a4⟩
  · rw [ISR_SERIAL_RX_data cfg s b hb]
    exact rx_push_frame cfg s b

theorem serial_read_frame (cfg : Config) (s : State) :
    (serial_read cfg s).2.serial_rx_buffer = s.serial_rx_buffer ∧
      (serial_read cfg s).2.serial_rx_buffer_head = s.serial_rx_buffer_head ∧
      (serial_read cfg s).2.serial_tx_buffer = s.serial_tx_buffer ∧
      (serial_read cfg s).2.serial_tx_buffer_head = s.serial_tx_buffer_head ∧
      (serial_read cfg s).2.serial_tx_buffer_tail = s.serial_tx_buffer_tail ∧
      (serial_read cfg s).2.UDR0 = s.UDR0 ∧
      (serial_read cfg s).2.USART1_DR = s.USART1_DR ∧
      (serial_read cfg s).2.USART_IT_TXE = s.USART_IT_TXE ∧
      ((serial_read cfg s).2.flow_ctrl = s.flow_ctrl ∨
        (cfg.ENABLE_XONXOFF = true ∧ s.flow_ctrl = cfg.XOFF_SENT ∧
          (serial_read cfg s).2.flow_ctrl = cfg.SEND_XON ∧
          (serial_read cfg s).2.UDRIE0 = true)) := by
  by_cases he : s.serial_rx_buffer_head = s.serial_rx_buffer_tail
  · rw [serial_read_empty cfg s he]
    exact ⟨rfl, rfl, rfl, rfl, rfl, rfl, rfl, rfl, Or.inl rfl⟩
  · rw [serial_read_pop_eq cfg s he]
    split_ifs with h
    · exact ⟨rfl, rfl, rfl, rfl, rfl, rfl, rfl, rfl, Or.inr ⟨h.1, h.2.2, rfl, rfl⟩⟩
    · exact ⟨rfl, rfl, rfl, rfl, rfl, rfl, rfl, rfl, Or.inl rfl⟩

theorem serial_reset_read_buffer_frame (cfg : Config) (s : State) :
    (serial_reset_read_buffer cfg s).serial_rx_buffer = s.serial_rx_buffer ∧
      (serial_reset_read_buffer cfg s).serial_rx_buffer_head = s.serial_rx_buffer_head ∧
      (serial_reset_read_buffer cfg s).serial_rx_buffer_tail = s.serial_rx_buffer_head ∧
      (serial_reset_read_buffer cfg s).serial_tx_buffer = s.serial_tx_buffer ∧
      (serial_reset_read_buffer cfg s).serial_tx_buffer_head = s.serial_tx_buffer_head ∧
      (serial_reset_read_buffer cfg s).serial_tx_buffer_tail = s.serial_tx_buffer_tail ∧
      (serial_reset_read_buffer cfg s).UDR0 = s.UDR0 ∧
      (serial_reset_read_buffer cfg s).USART1_DR = s.USART1_DR ∧
      (serial_reset_read_buffer cfg s).UDRIE0 = s.UDRIE0 ∧
      (serial_reset_read_buffer cfg s).USART_IT_TXE = s.USART_IT_TXE ∧
      (serial_reset_read_buffer cfg s).flow_ctrl
        = if cfg.ENABLE_XONXOFF = true then cfg.XON_SENT else s.flow_ctrl := by
  unfold serial_reset_read_buffer
  split_ifs <;> exact ⟨rfl, rfl, rfl, rfl, rfl, rfl, rfl, rfl, rfl, rfl, rfl⟩

theorem ISR_SERIAL_UDRE_frame (cfg : Config) (s : State) :
    (ISR_SERIAL_UDRE cfg s).serial_tx_buffer = s.serial_tx_buffer ∧
      (ISR_SERIAL_UDRE cfg s).serial_tx_buffer_head = s.serial_tx_buffer_head ∧
      ((ISR_SERIAL_UDRE cfg s).serial_tx_buffer_tail = s.serial_tx_buffer_tail ∨
        (ISR_SERIAL_UDRE cfg s).serial_tx_buffer_tail
          = next_index cfg.TX_BUFFER_SIZE s.serial_tx_buffer_tail) ∧
      ((ISR_SERIAL_UDRE cfg s).flow_ctrl = s.flow_ctrl ∨
        (flow_pending cfg s ∧ (ISR_SERIAL_UDRE cfg s).flow_ctrl = pending_sent cfg s ∧
          (ISR_SERIAL_UDRE cfg s).UDR0 = s.UDR0 ++ [pending_char cfg s])) := by
  by_cases hp : flow_pending cfg s
  · obtain ⟨a1, a2, a3, a4, a5, _⟩ := ISR_SERIAL_UDRE_ctrl cfg s hp
    exact ⟨a3, a4, Or.inl a5, Or.inr ⟨hp, a2, a1⟩⟩
  · obtain ⟨_, f2, f3, f4, f5, _⟩ := ISR_SERIAL_UDRE_data_fields cfg s hp
    exact ⟨f4, f3, Or.inr f2, Or.inl f5⟩

theorem USART1_IRQHandler_tx_frame (cfg : Config) (s : State) :
    (USART1_IRQHandler cfg s none true).serial_rx_buffer = s.serial_rx_buffer ∧
      (USART1_IRQHandler cfg s none true).serial_rx_buffer_head = s.serial_rx_buffer_head ∧
      (USART1_IRQHandler cfg s none true).serial_rx_buffer_tail = s.serial_rx_buffer_tail ∧
      (USART1_IRQHandler cfg s none true).serial_tx_buffer = s.serial_tx_buffer ∧
      (USART1_IRQHandler cfg s none true).serial_tx_buffer_head = s.serial_tx_buffer_head ∧
      ((USART1_IRQHandler cfg s none true).serial_tx_buffer_tail = s.serial_tx_buffer_tail ∨
        (USART1_IRQHandler cfg s none true).serial_tx_buffer_tail
          = next_index cfg.TX_BUFFER_SIZE s.serial_tx_buffer_tail) ∧
      ((USART1_IRQHandler cfg s none true).flow_ctrl = s.flow_ctrl ∨
        (flow_pending cfg s ∧
          (USART1_IRQHandler cfg s none true).flow_ctrl = pending_sent cfg s ∧
          (USART1_IRQHandler cfg s none true).UDR0 = s.UDR0 ++ [pending_char cfg s])) := by
  have hrx : (USART1_IRQHandler cfg s none true).serial_rx_buffer = s.serial_rx_buffer ∧
      (USART1_IRQHandler cfg s none true).serial_rx_buffer_head = s.serial_rx_buffer_head ∧
      (USART1_IRQHandler cfg s none true).serial_rx_buffer_tail
        = s.serial_rx_buffer_tail := by
    simp only [USART1_IRQHandler, USART1_IRQHandler_tx, if_true]
    split_ifs <;> exact ⟨rfl, rfl, rfl⟩
  by_cases hp : flow_pending cfg s
  · obtain ⟨a1, a2, a3, a4, a5, _⟩ := USART1_IRQHandler_tx_ctrl cfg s hp
    exact ⟨hrx.1, hrx.2.1, hrx.2.2, a3, a4, Or.inl a5, Or.inr ⟨hp, a2, a1⟩⟩
  · obtain ⟨_, f2, f3, f4, f5, _⟩ := USART1_IRQHandler_tx_data_fields cfg s hp
    exact ⟨hrx.1, hrx.2.1, hrx.2.2, f4, f3, Or.inr f2, Or.inl f5⟩

theorem USART1_IRQHandler_split (cfg : Config) (s : State) (rxne : Option Nat) (txe : Bool) :
    USART1_IRQHandler cfg s rxne txe
      = (if txe = true then fun t => USART1_IRQHandler cfg t none true else fun t => t)
          (match rxne with
            | some b => ISR_SERIAL_RX cfg s b
            | none => s) := by
  cases rxne <;> cases txe <;> rfl

theorem USART1_IRQHandler_owner (cfg : Config) (s : State) (rxne : Option Nat) (txe : Bool) :
    (USART1_IRQHandler cfg s rxne txe).serial_rx_buffer_tail = s.serial_rx_buffer_tail ∧
      (USART1_IRQHandler cfg s rxne txe).serial_tx_buffer_head = s.serial_tx_buffer_head := by
  rw [USART1_IRQHandler_split]
  cases rxne with
  | none =>
    cases txe with
    | false => exact ⟨rfl, rfl⟩
    | true =>
      obtain ⟨_, _, t3, _, t5, _, _⟩ := USART1_IRQHandler_tx_frame cfg s
      exact ⟨t3, t5⟩
  | some b =>
    obtain ⟨r1, _, r3, _, _, _, _, _⟩ := ISR_SERIAL_RX_frame cfg s b
    cases txe with
    | false => exact ⟨r1, r3⟩
    | true =>
      obtain ⟨_, _, t3, _, t5, _, _⟩ := USART1_IRQHandler_tx_frame cfg (ISR_SERIAL_RX cfg s b)
      simp only [if_true]
      exact ⟨by rw [t3, r1], by rw [t5, r3]⟩

/-- C15 (single-writer index ownership). For every state: `serial_write` (whenever it
returns), `serial_read` and `serial_reset_read_buffer` leave the RX head and the TX tail
unchanged; `ISR(SERIAL_RX)`, `ISR(SERIAL_UDRE)` and `USART1_IRQHandler` leave the RX tail and
the TX head unchanged. -/
theorem index_ownership (cfg : Config) (s : State) :
    (∀ (b fuel : Nat) (s1 : State), serial_write cfg s b fuel = some s1 →
      s1.serial_rx_buffer_head = s.serial_rx_buffer_head ∧
        s1.serial_tx_buffer_tail = s.serial_tx_buffer_tail) ∧
    ((serial_read cfg s).2.serial_rx_buffer_head = s.serial_rx_buffer_head ∧
      (serial_read cfg s).2.serial_tx_buffer_tail = s.serial_tx_buffer_tail) ∧
    ((serial_reset_read_buffer cfg s).serial_rx_buffer_head = s.serial_rx_buffer_head ∧
      (serial_reset_read_buffer cfg s).serial_tx_buffer_tail = s.serial_tx_buffer_tail) ∧
    (∀ b : Nat,
      (ISR_SERIAL_RX cfg s b).serial_rx_buffer_tail = s.serial_rx_buffer_tail ∧
        (ISR_SERIAL_RX cfg s b).serial_tx_buffer_head = s.serial_tx_buffer_head) ∧
    ((ISR_SERIAL_UDRE cfg s).serial_rx_buffer_tail = s.serial_rx_buffer_tail ∧
      (ISR_SERIAL_UDRE cfg s).serial_tx_buffer_head = s.serial_tx_buffer_head) ∧
    (∀ (rxne : Option Nat) (txe : Bool),
      (USART1_IRQHandler cfg s rxne txe).serial_rx_buffer_tail = s.serial_rx_buffer_tail ∧
        (USART1_IRQHandler cfg s rxne txe).serial_tx_buffer_head
          = s.serial_tx_buffer_head) := by
  refine ⟨?_, ?_, ?_, ?_, ?_, USART1_IRQHandler_owner cfg s⟩
  · intro b fuel s1 h
    rcases serial_write_cases cfg s s1 b fuel h with h | ⟨_, e1, e2, h⟩
    · rw [h]
      exact ⟨rfl, rfl⟩
    · rw [h]
      exact ⟨rfl, rfl⟩
  · obtain ⟨_, r2, _, _, r5, _⟩ := serial_read_frame cfg s
    exact ⟨r2, r5⟩
  · obtain ⟨_, r2, _, _, _, r6, _⟩ := serial_reset_read_buffer_frame cfg s
    exact ⟨r2, r6⟩
  · intro b
    obtain ⟨r1, _, r3, _⟩ := ISR_SERIAL_RX_frame cfg s b
    exact ⟨r1, r3⟩
  · exact ⟨(ISR_SERIAL_UDRE_rx cfg s).2.2, (ISR_SERIAL_UDRE_frame cfg s).2.1⟩

/-- C15 at the sample configuration: a write from the start-up state returns and moves
neither the RX head nor the TX tail. -/
theorem index_ownership_witness :
    ∃ s1 : State, serial_write sample_config (init_state sample_config) 65 1 = some s1 ∧
      s1.serial_rx_buffer_head = (init_state sample_config).serial_rx_buffer_head ∧
      s1.serial_tx_buffer_tail = (init_state sample_config).serial_tx_buffer_tail :=
  ⟨{ init_state sample_config with
      serial_tx_buffer := store (init_state sample_config).serial_tx_buffer 0 65
      serial_tx_buffer_head := 1
      UDRIE0 := true },
    rfl,
    (index_ownership sample_config (init_state sample_config)).1 65 1 _ rfl⟩

theorem pending_sent_cases (cfg : Config) (s : State) (hp : flow_pending cfg s) :
    (s.flow_ctrl = cfg.SEND_XOFF ∧ pending_sent cfg s = cfg.XOFF_SENT) ∨
      (s.flow_ctrl = cfg.SEND_XON ∧ pending_sent cfg s = cfg.XON_SENT) := by
  unfold pending_sent
  by_cases h : s.flow_ctrl = cfg.SEND_XOFF
  · left
    exact ⟨h, by simp [h]⟩
  · right
    rcases hp.2 with h' | h'
    · exact absurd h' h
    · exact ⟨h', by simp [h]⟩

/-- C14 (writers of the flow-control variable, amended). For every state, each operation
either leaves `flow_ctrl` unchanged or changes it as follows: `serial_read` (main loop) from
`XOFF_SENT` to `SEND_XON`; `serial_reset_read_buffer` (main loop) to `XON_SENT`; the receive
handler (interrupt) from `XON_SENT` to `SEND_XOFF`; the transmit handler (interrupt) from
`SEND_XOFF` to `XOFF_SENT` or from `SEND_XON` to `XON_SENT`; `serial_write` never changes
it. -/
theorem flow_writers (cfg : Config) (s : State) :
    (∀ (b fuel : Nat) (s1 : State), serial_write cfg s b fuel = some s1 →
      s1.flow_ctrl = s.flow_ctrl) ∧
    ((serial_read cfg s).2.flow_ctrl = s.flow_ctrl ∨
      (s.flow_ctrl = cfg.XOFF_SENT ∧ (serial_read cfg s).2.flow_ctrl = cfg.SEND_XON)) ∧
    ((serial_reset_read_buffer cfg s).flow_ctrl = s.flow_ctrl ∨
      (serial_reset_read_buffer cfg s).flow_ctrl = cfg.XON_SENT) ∧
    (∀ b : Nat, (ISR_SERIAL_RX cfg s b).flow_ctrl = s.flow_ctrl ∨
      (s.flow_ctrl = cfg.XON_SENT ∧ (ISR_SERIAL_RX cfg s b).flow_ctrl = cfg.SEND_XOFF)) ∧
    ((ISR_SERIAL_UDRE cfg s).flow_ctrl = s.flow_ctrl ∨
      (s.flow_ctrl = cfg.SEND_XOFF ∧ (ISR_SERIAL_UDRE cfg s).flow_ctrl = cfg.XOFF_SENT) ∨
      (s.flow_ctrl = cfg.SEND_XON ∧ (ISR_SERIAL_UDRE cfg s).flow_ctrl = cfg.XON_SENT)) ∧
    (∀ b : Nat, (USART1_IRQHandler cfg s (some b) false).flow_ctrl = s.flow_ctrl ∨
      (s.flow_ctrl = cfg.XON_SENT ∧
        (USART1_IRQHandler cfg s (some b) false).flow_ctrl = cfg.SEND_XOFF)) ∧
    ((USART1_IRQHandler cfg s none true).flow_ctrl = s.flow_ctrl ∨
      (s.flow_ctrl = cfg.SEND_XOFF ∧
        (USART1_IRQHandler cfg s none true).flow_ctrl = cfg.XOFF_SENT) ∨
      (s.flow_ctrl = cfg.SEND_XON ∧
        (USART1_IRQHandler cfg s none true).flow_ctrl = cfg.XON_SENT)) := by
  have hrx : ∀ b : Nat, (ISR_SERIAL_RX cfg s b).flow_ctrl = s.flow_ctrl ∨
      (s.flow_ctrl = cfg.XON_SENT ∧ (ISR_SERIAL_RX cfg s b).flow_ctrl = cfg.SEND_XOFF) := by
    intro b
    rcases (ISR_SERIAL_RX_frame cfg s b).2.2.2.2.2.2.2 with h | h
    · exact Or.inl h
    · exact Or.inr ⟨h.2.1, h.2.2.1⟩
  refine ⟨?_, ?_, ?_, hrx, ?_, fun b => hrx b, ?_⟩
  · intro b fuel s1 h
    rcases serial_write_cases cfg s s1 b fuel h with h | ⟨_, e1, e2, h⟩
    · rw [h]
    · rw [h]
  · rcases (serial_read_frame cfg s).2.2.2.2.2.2.2.2 with h | h
    · exact Or.inl h
    · exact Or.inr ⟨h.2.1, h.2.2.1⟩
  · have h := (serial_reset_read_buffer_frame cfg s).2.2.2.2.2.2.2.2.2.2
    rw [h]
    split_ifs
    · exact Or.inr rfl
    · exact Or.inl rfl
  · rcases (ISR_SERIAL_UDRE_frame cfg s).2.2.2 with h | ⟨hp, h, _⟩
    · exact Or.inl h
    · right
      rw [h]
      rcases pending_sent_cases cfg s hp with ⟨a, b⟩ | ⟨a, b⟩
      · exact Or.inl ⟨a, b⟩
      · exact Or.inr ⟨a, b⟩
  · rcases (USART1_IRQHandler_tx_frame cfg s).2.2.2.2.2.2 with h | ⟨hp, h, _⟩
    · exact Or.inl h
    · right
      rw [h]
      rcases pending_sent_cases cfg s hp with ⟨a, b⟩ | ⟨a, b⟩
      · exact Or.inl ⟨a, b⟩
      · exact Or.inr ⟨a, b⟩

/-- C14 (amended) at the sample configuration: a write from the start-up state returns and
leaves `flow_ctrl` as it was. -/
theorem flow_writers_witness :
    ∃ s1 : State, serial_write sample_config (init_state sample_config) 65 1 = some s1 ∧
      s1.flow_ctrl = (init_state sample_config).flow_ctrl :=
  ⟨{ init_state sample_config with
      serial_tx_buffer := store (init_state sample_config).serial_tx_buffer 0 65
      serial_tx_buffer_head := 1
      UDRIE0 := true },
    rfl,
    (flow_writers sample_config (init_state sample_config)).1 65 1 _ rfl⟩

/-- C14 as stated fails: the interrupt handler `ISR(SERIAL_RX)`, storing the 100th byte,
changes `flow_ctrl` from `XON_SENT` to the request value `SEND_XOFF`; and the main-loop
function `serial_reset_read_buffer` changes `flow_ctrl` from `XOFF_SENT` to the Sent value
`XON_SENT`. -/
theorem flow_writers_counterexample :
    ({ init_state sample_config with serial_rx_buffer_head := 99 } : State).flow_ctrl
        = sample_config.XON_SENT ∧
      (ISR_SERIAL_RX sample_config
          { init_state sample_config with serial_rx_buffer_head := 99 } 65).flow_ctrl
        = sample_config.SEND_XOFF ∧
      ({ init_state sample_config with flow_ctrl := sample_config.XOFF_SENT } : State).flow_ctrl
        = sample_config.XOFF_SENT ∧
      (serial_reset_read_buffer sample_config
          { init_state sample_config with flow_ctrl := sample_config.XOFF_SENT }).flow_ctrl
        = sample_config.XON_SENT := by
  decide

theorem pending_char_congr (cfg : Config) (s t : State) (h : s.flow_ctrl = t.flow_ctrl) :
    pending_char cfg s = pending_char cfg t := by
  unfold pending_char
  rw [h]

theorem request_not_sent (cfg : Config) (s : State) (hd : flow_distinct cfg)
    (hr : s.flow_ctrl = cfg.SEND_XOFF ∨ s.flow_ctrl = cfg.SEND_XON) :
    s.flow_ctrl ≠ cfg.XON_SENT ∧ s.flow_ctrl ≠ cfg.XOFF_SENT := by
  obtain ⟨d1, d2, d3, d4, d5, d6⟩ := hd
  rcases hr with h | h <;> rw [h]
  · exact ⟨d3, d2⟩
  · exact ⟨d5, d4⟩

/-- C13 (leaving a request state, amended). With pairwise distinct flow codes, for every state
whose `flow_ctrl` is `SEND_XOFF` or `SEND_XON`: `serial_write`, `serial_read` and the receive
handler leave `flow_ctrl` unchanged; when a transmit handler (`ISR(SERIAL_UDRE)`, or
`USART1_IRQHandler` with any flags) changes it, that call has written the corresponding
control byte to `UDR0`; and `serial_reset_read_buffer`, with XON/XOFF compiled in, sets it to
`XON_SENT` and transmits nothing. -/
theorem request_left_by_transmit (cfg : Config) (s : State) (hd : flow_distinct cfg)
    (hr : s.flow_ctrl = cfg.SEND_XOFF ∨ s.flow_ctrl = cfg.SEND_XON) :
    (∀ (b fuel : Nat) (s1 : State), serial_write cfg s b fuel = some s1 →
      s1.flow_ctrl = s.flow_ctrl) ∧
    (serial_read cfg s).2.flow_ctrl = s.flow_ctrl ∧
    (∀ b : Nat, (ISR_SERIAL_RX cfg s b).flow_ctrl = s.flow_ctrl) ∧
    ((ISR_SERIAL_UDRE cfg s).flow_ctrl ≠ s.flow_ctrl →
      (ISR_SERIAL_UDRE cfg s).UDR0 = s.UDR0 ++ [pending_char cfg s]) ∧
    (∀ (rxne : Option Nat) (txe : Bool),
      (USART1_IRQHandler cfg s rxne txe).flow_ctrl ≠ s.flow_ctrl →
      (USART1_IRQHandler cfg s rxne txe).UDR0 = s.UDR0 ++ [pending_char cfg s]) ∧
    (cfg.ENABLE_XONXOFF = true →
      (serial_reset_read_buffer cfg s).flow_ctrl = cfg.XON_SENT ∧
        (serial_reset_read_buffer cfg s).flow_ctrl ≠ s.flow_ctrl ∧
        (serial_reset_read_buffer cfg s).UDR0 = s.UDR0 ∧
        (serial_reset_read_buffer cfg s).USART1_DR = s.USART1_DR) := by
  obtain ⟨n1, n2⟩ := request_not_sent cfg s hd hr
  have hrx : ∀ b : Nat, (ISR_SERIAL_RX cfg s b).flow_ctrl = s.flow_ctrl := by
    intro b
    rcases (ISR_SERIAL_RX_frame cfg s b).2.2.2.2.2.2.2 with h | h
    · exact h
    · exact absurd h.2.1 n1
  have htx : ∀ t : State, (USART1_IRQHandler cfg t none true).flow_ctrl ≠ t.flow_ctrl →
      (USART1_IRQHandler cfg t none true).UDR0 = t.UDR0 ++ [pending_char cfg t] := by
    intro t hne
    rcases (USART1_IRQHandler_tx_frame cfg t).2.2.2.2.2.2 with h | ⟨_, _, h⟩
    · exact absurd h hne
    · exact h
  refine ⟨?_, ?_, hrx, ?_, ?_, ?_⟩
  · intro b fuel s1 h
    rcases serial_write_cases cfg s s1 b fuel h with h | ⟨_, e1, e2, h⟩
    · rw [h]
    · rw [h]
  · rcases (serial_read_frame cfg s).2.2.2.2.2.2.2.2 with h | h
    · exact h
    · exact absurd h.2.1 n2
  · intro hne
    rcases (ISR_SERIAL_UDRE_frame cfg s).2.2.2 with h | ⟨_, _, h⟩
    · exact absurd h hne
    · exact h
  · intro rxne txe hne
    rw [USART1_IRQHandler_split] at hne ⊢
    cases rxne with
    | none =>
      cases txe with
      | false => exact absurd rfl hne
      | true => exact htx s hne
    | some b =>
      have hu : (ISR_SERIAL_RX cfg s b).UDR0 = s.UDR0 := (ISR_SERIAL_RX_frame cfg s b).2.2.2.2.1
      cases txe with
      | false => exact absurd (hrx b) hne
      | true =>
        simp only [if_true] at hne ⊢
        rw [← hrx b] at hne
        rw [htx _ hne, hu, pending_char_congr cfg _ s (hrx b)]
  · intro hX
    obtain ⟨_, _, _, _, _, _, r7, r8, _, _, r11⟩ := serial_reset_read_buffer_frame cfg s
    have r12 : (serial_reset_read_buffer cfg s).flow_ctrl = cfg.XON_SENT := by
      rw [r11]
      simp only [hX, if_true]
    exact ⟨r12, by rw [r12]; exact Ne.symm n1, r7, r8⟩

/-- C13 (amended) at the sample configuration, in the state with a pending pause request and
three queued bytes. -/
theorem request_left_by_transmit_witness :
    (ISR_SERIAL_UDRE sample_config pause_pending_state).UDR0
        = pause_pending_state.UDR0 ++ [pending_char sample_config pause_pending_state] ∧
      (serial_reset_read_buffer sample_config pause_pending_state).flow_ctrl
        = sample_config.XON_SENT ∧
      (∃ s1 : State, serial_write sample_config pause_pending_state 65 1 = some s1 ∧
        s1.flow_ctrl = pause_pending_state.flow_ctrl) :=
  have h := request_left_by_transmit sample_config pause_pending_state (by decide)
    (Or.inl rfl)
  ⟨h.2.2.2.1 (by decide), (h.2.2.2.2.2 (by decide)).1,
    ⟨{ pause_pending_state with
        serial_tx_buffer := store pause_pending_state.serial_tx_buffer 3 65
        serial_tx_buffer_head := 4
        UDRIE0 := true },
      rfl, h.1 65 1 _ rfl⟩⟩

/-- C13 as stated fails for `serial_reset_read_buffer`: in the state with a pending pause
request it changes `flow_ctrl` from `SEND_XOFF` to `XON_SENT`, and neither data register has
received a byte. -/
theorem request_left_by_transmit_counterexample :
    pause_pending_state.flow_ctrl = sample_config.SEND_XOFF ∧
      (serial_reset_read_buffer sample_config pause_pending_state).flow_ctrl
        = sample_config.XON_SENT ∧
      (serial_reset_read_buffer sample_config pause_pending_state).flow_ctrl
        ≠ pause_pending_state.flow_ctrl ∧
      (serial_reset_read_buffer sample_config pause_pending_state).UDR0
        = pause_pending_state.UDR0 ∧
      pause_pending_state.UDR0 = [] ∧
      (serial_reset_read_buffer sample_config pause_pending_state).USART1_DR = [] := by
  decide

theorem ISR_SERIAL_RX_idx (cfg : Config) (s : State) (b : Nat)
    (hN : cfg.RX_BUFFER_SIZE ≤ 256) (h : idx_ok cfg s) : idx_ok cfg (ISR_SERIAL_RX cfg s b) := by
  obtain ⟨h1, h2, h3, h4⟩ := h
  obtain ⟨_, _, f3, f4, _⟩ := ISR_SERIAL_RX_frame cfg s b
  unfold idx_ok
  rw [f3, f4]
  by_cases hb : is_realtime cfg b
  · obtain ⟨_, a2, a3, _⟩ := ISR_SERIAL_RX_realtime cfg s b hb
    rw [a2, a3]
    exact ⟨h1, h2, h3, h4⟩
  · obtain ⟨b1, b2⟩ := rx_step_bounds cfg s (RxOp.rx b) hN h1 h2
      (fun x hx => by cases hx; exact hb)
    exact ⟨b1, b2, h3, h4⟩

theorem serial_read_idx (cfg : Config) (s : State)
    (hN : cfg.RX_BUFFER_SIZE ≤ 256) (h : idx_ok cfg s) : idx_ok cfg (serial_read cfg s).2 := by
  obtain ⟨h1, h2, h3, h4⟩ := h
  obtain ⟨_, _, _, f4, f5, _⟩ := serial_read_frame cfg s
  obtain ⟨b1, b2⟩ := rx_step_bounds cfg s RxOp.read hN h1 h2 (fun x hx => by cases hx)
  unfold idx_ok
  rw [f4, f5]
  exact ⟨b1, b2, h3, h4⟩

theorem ISR_SERIAL_UDRE_idx (cfg : Config) (s : State)
    (hN : cfg.TX_BUFFER_SIZE ≤ 256) (h : idx_ok cfg s) : idx_ok cfg (ISR_SERIAL_UDRE cfg s) := by
  obtain ⟨h1, h2, h3, h4⟩ := h
  obtain ⟨_, r2, r3⟩ := ISR_SERIAL_UDRE_rx cfg s
  obtain ⟨_, f2, f3, _⟩ := ISR_SERIAL_UDRE_frame cfg s
  unfold idx_ok
  rw [r2, r3, f2]
  refine ⟨h1, h2, h3, ?_⟩
  rcases f3 with f3 | f3 <;> rw [f3]
  · exact h4
  · exact next_index_lt _ _ hN h4

theorem USART1_IRQHandler_tx_idx (cfg : Config) (s : State)
    (hN : cfg.TX_BUFFER_SIZE ≤ 256) (h : idx_ok cfg s) :
    idx_ok cfg (USART1_IRQHandler cfg s none true) := by
  obtain ⟨h1, h2, h3, h4⟩ := h
  obtain ⟨_, r2, r3, _, f2, f3, _⟩ := USART1_IRQHandler_tx_frame cfg s
  unfold idx_ok
  rw [r2, r3, f2]
  refine ⟨h1, h2, h3, ?_⟩
  rcases f3 with f3 | f3 <;> rw [f3]
  · exact h4
  · exact next_index_lt _ _ hN h4

theorem USART1_IRQHandler_idx (cfg : Config) (s : State) (rxne : Option Nat) (txe : Bool)
    (hR : cfg.RX_BUFFER_SIZE ≤ 256) (hT : cfg.TX_BUFFER_SIZE ≤ 256) (h : idx_ok cfg s) :
    idx_ok cfg (USART1_IRQHandler cfg s rxne txe) := by
  rw [USART1_IRQHandler_split]
  cases rxne with
  | none =>
    cases txe with
    | false => exact h
    | true => exact USART1_IRQHandler_tx_idx cfg s hT h
  | some b =>
    cases txe with
    | false => exact ISR_SERIAL_RX_idx cfg s b hR h
    | true => exact USART1_IRQHandler_tx_idx cfg _ hT (ISR_SERIAL_RX_idx cfg s b hR h)

theorem step_idx (cfg : Config) (s s1 : State) (op : Op)
    (hR : cfg.RX_BUFFER_SIZE ≤ 256) (hT : cfg.TX_BUFFER_SIZE ≤ 256)
    (h : idx_ok cfg s) (hs : step cfg s op = some s1) : idx_ok cfg s1 := by
  cases op with
  | write b =>
    rcases serial_write_cases cfg s s1 b 1 hs with e | ⟨_, e1, e2, e⟩
    · rw [e]
      exact h
    · rw [e]
      exact ⟨h.1, h.2.1, next_index_lt _ _ hT h.2.2.1, h.2.2.2⟩
  | read =>
    simp only [step, Option.some.injEq] at hs
    rw [← hs]
    exact serial_read_idx cfg s hR h
  | reset_read =>
    simp only [step, Option.some.injEq] at hs
    rw [← hs]
    obtain ⟨_, r2, r3, _, r5, r6, _⟩ := serial_reset_read_buffer_frame cfg s
    unfold idx_ok
    rw [r2, r3, r5, r6]
    exact ⟨h.1, h.1, h.2.2.1, h.2.2.2⟩
  | rx b =>
    simp only [step, Option.some.injEq] at hs
    rw [← hs]
    exact ISR_SERIAL_RX_idx cfg s b hR h
  | tx =>
    simp only [step, Option.some.injEq] at hs
    rw [← hs]
    exact ISR_SERIAL_UDRE_idx cfg s hT h
  | usart1 rxne txe =>
    simp only [step, Option.some.injEq] at hs
    rw [← hs]
    exact USART1_IRQHandler_idx cfg s rxne txe hR hT h

theorem run_if_idx (cfg : Config) (ok : State → Op → Bool)
    (hR : cfg.RX_BUFFER_SIZE ≤ 256) (hT : cfg.TX_BUFFER_SIZE ≤ 256) (ops : List Op) :
    ∀ s s1 : State, idx_ok cfg s → run_if cfg ok s ops = some s1 → idx_ok cfg s1 := by
  induction ops with
  | nil =>
    intro s s1 h hr
    simp only [run_if, Option.some.injEq] at hr
    rw [← hr]
    exact h
  | cons op ops ih =>
    intro s s1 h hr
    simp only [run_if] at hr
    split_ifs at hr
    cases hst : step cfg s op with
    | none => simp [hst] at hr
    | some s2 =>
      simp only [hst] at hr
      exact ih s2 s1 (step_idx cfg s s2 op hR hT h hst) hr

/-- C19 (index bounds invariant). With buffer sizes between 1 and 256, in every state reached
from the start-up state by any sequence of `serial_write`, `serial_read`,
`serial_reset_read_buffer`, `ISR(SERIAL_RX)`, `ISR(SERIAL_UDRE)` and `USART1_IRQHandler`
calls, under any schedule, the RX head and tail are below `RX_BUFFER_SIZE` and the TX head and
tail are below `TX_BUFFER_SIZE`; these are the only indices at which the operations access
the two arrays. -/
theorem index_bounds (cfg : Config) (ok : State → Op → Bool) (ops : List Op) (s : State)
    (hR1 : 1 ≤ cfg.RX_BUFFER_SIZE) (hR : cfg.RX_BUFFER_SIZE ≤ 256)
    (hT1 : 1 ≤ cfg.TX_BUFFER_SIZE) (hT : cfg.TX_BUFFER_SIZE ≤ 256)
    (hrun : run_if cfg ok (init_state cfg) ops = some s) :
    s.serial_rx_buffer_head < cfg.RX_BUFFER_SIZE ∧
      s.serial_rx_buffer_tail < cfg.RX_BUFFER_SIZE ∧
      s.serial_tx_buffer_head < cfg.TX_BUFFER_SIZE ∧
      s.serial_tx_buffer_tail < cfg.TX_BUFFER_SIZE :=
  run_if_idx cfg ok hR hT ops (init_state cfg) s ⟨hR1, hR1, hT1, hT1⟩ hrun

/-- C19 at the sample configuration: a run through all six operations from the start-up
state. -/
theorem index_bounds_witness :
    ∃ s : State,
      run_if sample_config any_time (init_state sample_config)
          [Op.rx 65, Op.write 72, Op.tx, Op.tx, Op.read, Op.reset_read,
            Op.usart1 (some 66) true] = some s ∧
        s.serial_rx_buffer_head < 128 ∧ s.serial_rx_buffer_tail < 128 ∧
        s.serial_tx_buffer_head < 64 ∧ s.serial_tx_buffer_tail < 64 :=
  ⟨(run_if sample_config any_time (init_state sample_config)
      [Op.rx 65, Op.write 72, Op.tx, Op.tx, Op.read, Op.reset_read,
        Op.usart1 (some 66) true]).getD (init_state sample_config),
    rfl,
    index_bounds sample_config any_time
      [Op.rx 65, Op.write 72, Op.tx, Op.tx, Op.read, Op.reset_read,
        Op.usart1 (some 66) true] _ (by decide) (by decide) (by decide) (by decide) rfl⟩

theorem rx_step_no_sentinel (cfg : Config) (s : State) (op : RxOp)
    (hN : cfg.RX_BUFFER_SIZE ≤ 256)
    (hh : s.serial_rx_buffer_head < cfg.RX_BUFFER_SIZE)
    (ht : s.serial_rx_buffer_tail < cfg.RX_BUFFER_SIZE)
    (hc : ∀ x ∈ rx_contents cfg s, x ≠ cfg.SERIAL_NO_DATA)
    (hop : ∀ b, op = RxOp.rx b → b ≠ cfg.SERIAL_NO_DATA) :
    (rx_step cfg s op).serial_rx_buffer_head < cfg.RX_BUFFER_SIZE ∧
      (rx_step cfg s op).serial_rx_buffer_tail < cfg.RX_BUFFER_SIZE ∧
      ∀ x ∈ rx_contents cfg (rx_step cfg s op), x ≠ cfg.SERIAL_NO_DATA := by
  cases op with
  | rx b =>
    simp only [rx_step]
    by_cases hb : is_realtime cfg b
    · obtain ⟨a1, a2, a3, _⟩ := ISR_SERIAL_RX_realtime cfg s b hb
      rw [rx_contents_congr cfg _ s a1 a2 a3, a2, a3]
      exact ⟨hh, ht, hc⟩
    · obtain ⟨b1, b2⟩ := rx_step_bounds cfg s (RxOp.rx b) hN hh ht
        (fun x hx => by cases hx; exact hb)
      simp only [rx_step] at b1 b2
      refine ⟨b1, b2, ?_⟩
      by_cases hf : rx_full cfg s
      · have hf' : next_index cfg.RX_BUFFER_SIZE s.serial_rx_buffer_head
            = s.serial_rx_buffer_tail := by
          rw [next_index_mod _ _ hN hh]
          exact hf
        rw [ISR_SERIAL_RX_dropped cfg s b hb hf']
        exact hc
      · rw [rx_contents_stored cfg s b hN hh ht hb hf]
        intro x hx
        rcases List.mem_append.mp hx with hx | hx
        · exact hc x hx
        · rw [List.mem_singleton.mp hx]
          exact hop b rfl
  | read =>
    obtain ⟨b1, b2⟩ := rx_step_bounds cfg s RxOp.read hN hh ht (fun x hx => by cases hx)
    refine ⟨b1, b2, ?_⟩
    simp only [rx_step]
    by_cases he : rx_empty s
    · rw [serial_read_empty cfg s he]
      exact hc
    · have hp := rx_contents_popped cfg s hN hh ht he
      intro x hx
      apply hc x
      rw [hp]
      exact List.mem_cons_of_mem _ hx

theorem rx_run_no_sentinel (cfg : Config) (hN : cfg.RX_BUFFER_SIZE ≤ 256) (ops : List RxOp) :
    ∀ s : State, s.serial_rx_buffer_head < cfg.RX_BUFFER_SIZE →
      s.serial_rx_buffer_tail < cfg.RX_BUFFER_SIZE →
      (∀ x ∈ rx_contents cfg s, x ≠ cfg.SERIAL_NO_DATA) →
      (∀ b, RxOp.rx b ∈ ops → b ≠ cfg.SERIAL_NO_DATA) →
      (rx_run cfg s ops).serial_rx_buffer_head < cfg.RX_BUFFER_SIZE ∧
        (rx_run cfg s ops).serial_rx_buffer_tail < cfg.RX_BUFFER_SIZE ∧
        ∀ x ∈ rx_contents cfg (rx_run cfg s ops), x ≠ cfg.SERIAL_NO_DATA := by
  induction ops with
  | nil => intro s hh ht hc _; exact ⟨hh, ht, hc⟩
  | cons op ops ih =>
    intro s hh ht hc hd
    obtain ⟨a, b, c⟩ := rx_step_no_sentinel cfg s op hN hh ht hc
      (fun x hx => hd x (by rw [hx]; exact List.mem_cons_self _ _))
    exact ih (rx_step cfg s op) a b c (fun x hx => hd x (List.mem_cons_of_mem _ hx))

/-- C18 (the no-data sentinel, amended). With `RX_BUFFER_SIZE` between 1 and 256, in every
state reached from the start-up state by receive interrupts whose bytes all differ from
`SERIAL_NO_DATA` and by reads: if `serial_read` returns `SERIAL_NO_DATA`, the RX buffer was
empty before the call and the call left the RX tail (indeed the whole state) unchanged. -/
theorem sentinel_unambiguous (cfg : Config) (ops : List RxOp)
    (hN1 : 1 ≤ cfg.RX_BUFFER_SIZE) (hN : cfg.RX_BUFFER_SIZE ≤ 256)
    (hd : ∀ b, RxOp.rx b ∈ ops → b ≠ cfg.SERIAL_NO_DATA)
    (hret : (serial_read cfg (rx_run cfg (init_state cfg) ops)).1 = cfg.SERIAL_NO_DATA) :
    rx_empty (rx_run cfg (init_state cfg) ops) ∧
      (serial_read cfg (rx_run cfg (init_state cfg) ops)).2.serial_rx_buffer_tail
        = (rx_run cfg (init_state cfg) ops).serial_rx_buffer_tail ∧
      (serial_read cfg (rx_run cfg (init_state cfg) ops)).2
        = rx_run cfg (init_state cfg) ops := by
  have h0 : ∀ x ∈ rx_contents cfg (init_state cfg), x ≠ cfg.SERIAL_NO_DATA := by
    intro x hx
    rw [rx_contents_of_empty cfg (init_state cfg) hN1 rfl] at hx
    cases hx
  obtain ⟨hh, ht, hc⟩ := rx_run_no_sentinel cfg hN ops (init_state cfg) hN1 hN1 h0 hd
  have he : rx_empty (rx_run cfg (init_state cfg) ops) := by
    by_contra hne
    have hp := rx_contents_popped cfg _ hN hh ht hne
    apply hc (serial_read cfg (rx_run cfg (init_state cfg) ops)).1
    · rw [hp]
      exact List.mem_cons_self _ _
    · exact hret
  rw [serial_read_empty cfg _ he]
  exact ⟨he, rfl, rfl⟩

/-- C18 (amended) at the sample configuration: after the bytes 65 and 24 (the reset command)
and one read, a second read returns the sentinel from an empty buffer. -/
theorem sentinel_unambiguous_witness :
    rx_empty (rx_run sample_config (init_state sample_config)
      [RxOp.rx 65, RxOp.rx 24, RxOp.read]) :=
  (sentinel_unambiguous sample_config [RxOp.rx 65, RxOp.rx 24, RxOp.read]
    (by decide) (by decide)
    (by
      intro b hb
      simp only [List.mem_cons, RxOp.rx.injEq, List.mem_singleton, reduceCtorEq, or_false,
        List.mem_nil_iff] at hb
      rcases hb with rfl | rfl <;> decide)
    (by decide)).1

/-- C18 as stated fails: from the start-up state the received byte 255, which is not a
realtime command, is stored; the next `serial_read` returns 255, the value of
`SERIAL_NO_DATA`, although the buffer was not empty, and advances the RX tail from 0 to 1. -/
theorem sentinel_unambiguous_counterexample :
    (serial_read sample_config
        (rx_run sample_config (init_state sample_config) [RxOp.rx 255])).1
        = sample_config.SERIAL_NO_DATA ∧
      ¬ rx_empty (rx_run sample_config (init_state sample_config) [RxOp.rx 255]) ∧
      (rx_run sample_config (init_state sample_config) [RxOp.rx 255]).serial_rx_buffer_tail
        = 0 ∧
      (serial_read sample_config
        (rx_run sample_config (init_state sample_config)
          [RxOp.rx 255])).2.serial_rx_buffer_tail = 1 := by
  decide

theorem pause_inv_congr (cfg : Config) (s t : State) (h : rx_same s t)
    (hs : pause_inv cfg s) : pause_inv cfg t := by
  obtain ⟨a1, a2, a3, a4⟩ := h
  unfold pause_inv at hs ⊢
  rw [← rx_contents_congr cfg s t a1 a2 a3, ← a2, ← a3, ← a4]
  exact hs

theorem ISR_SERIAL_RX_pause_inv (cfg : Config) (s : State) (b : Nat)
    (hd : flow_distinct cfg) (hLF : cfg.RX_BUFFER_LOW ≤ cfg.RX_BUFFER_FULL)
    (hN : cfg.RX_BUFFER_SIZE ≤ 256) (h : pause_inv cfg s) :
    pause_inv cfg (ISR_SERIAL_RX cfg s b) := by
  obtain ⟨d1, d2, d3, d4, d5, d6⟩ := hd
  obtain ⟨hh, ht, hi⟩ := h
  by_cases hb : is_realtime cfg b
  · exact pause_inv_congr cfg s _
      (by
        obtain ⟨a1, a2, a3, a4⟩ := ISR_SERIAL_RX_realtime cfg s b hb
        exact ⟨a1.symm, a2.symm, a3.symm, a4.symm⟩) ⟨hh, ht, hi⟩
  · by_cases hf : rx_full cfg s
    · have hf' : next_index cfg.RX_BUFFER_SIZE s.serial_rx_buffer_head
          = s.serial_rx_buffer_tail := by
        rw [next_index_mod _ _ hN hh]
        exact hf
      rw [ISR_SERIAL_RX_dropped cfg s b hb hf']
      exact ⟨hh, ht, hi⟩
    · obtain ⟨b1, b2⟩ := rx_step_bounds cfg s (RxOp.rx b) hN hh ht
        (fun x hx => by cases hx; exact hb)
      simp only [rx_step] at b1 b2
      have hc := rx_contents_stored cfg s b hN hh ht hb hf
      have hfl : (ISR_SERIAL_RX cfg s b).flow_ctrl
          = if cfg.ENABLE_XONXOFF = true ∧
              (rx_contents cfg s).length + 1 ≥ cfg.RX_BUFFER_FULL ∧
              s.flow_ctrl = cfg.XON_SENT then cfg.SEND_XOFF else s.flow_ctrl := by
        rw [ISR_SERIAL_RX_data cfg s b hb]
        exact rx_push_flow cfg s b hN hh ht hf
      refine ⟨b1, b2, ?_⟩
      rw [hc, hfl]
      simp only [List.length_append, List.length_singleton]
      split_ifs with hcond
      · intro _
        omega
      · intro hfl'
        have := hi hfl'
        omega

theorem serial_read_pause_inv (cfg : Config) (s : State)
    (hX : cfg.ENABLE_XONXOFF = true)
    (hd : flow_distinct cfg) (hN : cfg.RX_BUFFER_SIZE ≤ 256)
    (hnp : s.flow_ctrl ≠ cfg.SEND_XOFF) (h : pause_inv cfg s) :
    pause_inv cfg (serial_read cfg s).2 := by
  obtain ⟨d1, d2, d3, d4, d5, d6⟩ := hd
  obtain ⟨hh, ht, hi⟩ := h
  by_cases he : rx_empty s
  · rw [serial_read_empty cfg s he]
    exact ⟨hh, ht, hi⟩
  · obtain ⟨b1, b2⟩ := rx_step_bounds cfg s RxOp.read hN hh ht (fun x hx => by cases hx)
    simp only [rx_step] at b1 b2
    have hc := rx_contents_popped cfg s hN hh ht he
    have hl : (rx_contents cfg (serial_read cfg s).2).length
        = (rx_contents cfg s).length - 1 := by
      rw [hc]
      simp
    refine ⟨b1, b2, ?_⟩
    rw [hl, serial_read_flow cfg s hN hh ht he]
    split_ifs with hcond
    · intro hfl
      rcases hfl with hfl | hfl
      · exact absurd hfl d4
      · exact absurd hfl.symm d1
    · intro hfl
      rcases hfl with hfl | hfl
      · by_contra hlt
        exact hcond ⟨hX, by omega, hfl⟩
      · exact absurd hfl hnp

theorem pending_sent_pause_inv (cfg : Config) (s t : State)
    (hd : flow_distinct cfg) (h : pause_inv cfg s)
    (hb : t.serial_rx_buffer = s.serial_rx_buffer)
    (hh : t.serial_rx_buffer_head = s.serial_rx_buffer_head)
    (ht : t.serial_rx_buffer_tail = s.serial_rx_buffer_tail)
    (hf : t.flow_ctrl = s.flow_ctrl ∨
      (flow_pending cfg s ∧ t.flow_ctrl = pending_sent cfg s)) :
    pause_inv cfg t := by
  obtain ⟨d1, d2, d3, d4, d5, d6⟩ := hd
  rcases hf with hf | ⟨hp, hf⟩
  · exact pause_inv_congr cfg s t ⟨hb.symm, hh.symm, ht.symm, hf.symm⟩ h
  · obtain ⟨a, b, hi⟩ := h
    unfold pause_inv
    rw [rx_contents_congr cfg t s hb hh ht, hh, ht, hf]
    refine ⟨a, b, fun hfl => ?_⟩
    rcases pending_sent_cases cfg s hp with ⟨e1, e2⟩ | ⟨e1, e2⟩
    · exact hi (Or.inr e1)
    · rw [e2] at hfl
      rcases hfl with hfl | hfl
      · exact absurd hfl.symm d6
      · exact absurd hfl.symm d3

theorem step_pause_inv (cfg : Config) (s s1 : State) (op : Op)
    (hX : cfg.ENABLE_XONXOFF = true) (hd : flow_distinct cfg)
    (hLF : cfg.RX_BUFFER_LOW ≤ cfg.RX_BUFFER_FULL) (hN : cfg.RX_BUFFER_SIZE ≤ 256)
    (hread : op = Op.read → s.flow_ctrl ≠ cfg.SEND_XOFF)
    (h : pause_inv cfg s) (hs : step cfg s op = some s1) : pause_inv cfg s1 := by
  cases op with
  | write b =>
    rcases serial_write_cases cfg s s1 b 1 hs with e | ⟨_, e1, e2, e⟩
    · rw [e]
      exact h
    · rw [e]
      exact pause_inv_congr cfg s _ ⟨rfl, rfl, rfl, rfl⟩ h
  | read =>
    simp only [step, Option.some.injEq] at hs
    rw [← hs]
    exact serial_read_pause_inv cfg s hX hd hN (hread rfl) h
  | reset_read =>
    simp only [step, Option.some.injEq] at hs
    rw [← hs]
    obtain ⟨_, r2, r3, _, _, _, _, _, _, _, r11⟩ := serial_reset_read_buffer_frame cfg s
    simp only [hX, if_true] at r11
    unfold pause_inv
    rw [r2, r3, r11]
    refine ⟨h.1, h.1, fun hfl => ?_⟩
    rcases hfl with hfl | hfl
    · exact absurd hfl.symm hd.2.2.2.2.2
    · exact absurd hfl.symm hd.2.2.1
  | rx b =>
    simp only [step, Option.some.injEq] at hs
    rw [← hs]
    exact ISR_SERIAL_RX_pause_inv cfg s b hd hLF hN h
  | tx =>
    simp only [step, Option.some.injEq] at hs
    rw [← hs]
    obtain ⟨r1, r2, r3⟩ := ISR_SERIAL_UDRE_rx cfg s
    refine pending_sent_pause_inv cfg s _ hd h r1 r2 r3 ?_
    rcases (ISR_SERIAL_UDRE_frame cfg s).2.2.2 with f | ⟨hp, f, _⟩
    · exact Or.inl f
    · exact Or.inr ⟨hp, f⟩
  | usart1 rxne txe =>
    simp only [step, Option.some.injEq] at hs
    rw [← hs]
    have htx : ∀ t : State, pause_inv cfg t →
        pause_inv cfg (USART1_IRQHandler cfg t none true) := by
      intro t ht
      obtain ⟨r1, r2, r3, _, _, _, f⟩ := USART1_IRQHandler_tx_frame cfg t
      refine pending_sent_pause_inv cfg t _ hd ht r1 r2 r3 ?_
      rcases f with f | ⟨hp, f, _⟩
      · exact Or.inl f
      · exact Or.inr ⟨hp, f⟩
    rw [USART1_IRQHandler_split]
    cases rxne with
    | none =>
      cases txe with
      | false => exact h
      | true => exact htx s h
    | some b =>
      cases txe with
      | false => exact ISR_SERIAL_RX_pause_inv cfg s b hd hLF hN h
      | true => exact htx _ (ISR_SERIAL_RX_pause_inv cfg s b hd hLF hN h)

/-- Reads apart, the pause protocol keeps the sender from being paused over a drained buffer:
over every run whose schedule starts no `serial_read` while a pause request is pending
(`flow_ctrl = SEND_XOFF`), a requested or sent pause implies that the RX buffer holds at
least `RX_BUFFER_LOW` bytes. -/
theorem run_if_pause_inv (cfg : Config) (ok : State → Op → Bool)
    (hX : cfg.ENABLE_XONXOFF = true) (hd : flow_distinct cfg)
    (hLF : cfg.RX_BUFFER_LOW ≤ cfg.RX_BUFFER_FULL) (hN : cfg.RX_BUFFER_SIZE ≤ 256)
    (hok : ∀ t : State, ok t Op.read = true → t.flow_ctrl ≠ cfg.SEND_XOFF)
    (ops : List Op) :
    ∀ s s1 : State, pause_inv cfg s → run_if cfg ok s ops = some s1 → pause_inv cfg s1 := by
  induction ops with
  | nil =>
    intro s s1 h hr
    simp only [run_if, Option.some.injEq] at hr
    rw [← hr]
    exact h
  | cons op ops ih =>
    intro s s1 h hr
    simp only [run_if] at hr
    split_ifs at hr with hk
    cases hst : step cfg s op with
    | none => simp [hst] at hr
    | some s2 =>
      simp only [hst] at hr
      exact ih s2 s1
        (step_pause_inv cfg s s2 op hX hd hLF hN (fun e => hok s (by rw [← e]; exact hk)) h hst)
        hr

theorem step_paused_drained (cfg : Config) (hd : flow_distinct cfg) (s s1 : State) (op : Op)
    (hok : silent_schedule cfg s op = true) (h : paused_drained cfg s)
    (hs : step cfg s op = some s1) : paused_drained cfg s1 := by
  cases op with
  | write b =>
    rcases serial_write_cases cfg s s1 b 1 hs with e | ⟨_, e1, e2, e⟩
    · rw [e]
      exact h
    · rw [e]
      exact ⟨h.1, h.2⟩
  | read =>
    simp only [step, Option.some.injEq] at hs
    rw [← hs, serial_read_empty cfg s h.2]
    exact h
  | reset_read => simp [silent_schedule] at hok
  | rx b =>
    simp only [silent_schedule, decide_eq_true_eq] at hok
    simp only [step, Option.some.injEq] at hs
    obtain ⟨_, a2, a3, a4⟩ := ISR_SERIAL_RX_realtime cfg s b hok
    unfold paused_drained
    rw [← hs, a2, a3, a4]
    exact h
  | tx =>
    simp only [step, Option.some.injEq] at hs
    obtain ⟨_, a2, a3⟩ := ISR_SERIAL_UDRE_rx cfg s
    have a4 := ISR_SERIAL_UDRE_flow cfg s
    have n1 : ¬ (cfg.ENABLE_XONXOFF = true ∧ s.flow_ctrl = cfg.SEND_XOFF) := by
      rw [h.1]
      exact fun e => hd.2.1 e.2.symm
    have n2 : ¬ (cfg.ENABLE_XONXOFF = true ∧ s.flow_ctrl = cfg.SEND_XON) := by
      rw [h.1]
      exact fun e => hd.2.2.2.1 e.2.symm
    rw [if_neg n1, if_neg n2] at a4
    unfold paused_drained
    rw [← hs, a2, a3, a4]
    exact h
  | usart1 r x => simp [silent_schedule] at hok

/-- Once the pause byte has gone out and the RX buffer is empty, nothing the firmware does
by itself changes that: every run of writes, reads, transmit interrupts and realtime command
bytes keeps `flow_ctrl = XOFF_SENT` and the RX buffer empty, so the resume request is never
raised. -/
theorem run_if_paused_drained (cfg : Config) (hd : flow_distinct cfg) (ops : List Op) :
    ∀ s s1 : State, paused_drained cfg s →
      run_if cfg (silent_schedule cfg) s ops = some s1 → paused_drained cfg s1 := by
  induction ops with
  | nil =>
    intro s s1 h hr
    simp only [run_if, Option.some.injEq] at hr
    rw [← hr]
    exact h
  | cons op ops ih =>
    intro s s1 h hr
    simp only [run_if] at hr
    split_ifs at hr with hk
    cases hst : step cfg s op with
    | none => simp [hst] at hr
    | some s2 =>
      simp only [hst] at hr
      exact ih s2 s1 (step_paused_drained cfg hd s s2 op hk h hst) hr

theorem count_of_rx_empty (cfg : Config) (s : State)
    (h : s.serial_rx_buffer_head = s.serial_rx_buffer_tail) :
    serial_get_rx_buffer_count cfg s = 0 := by
  simp [serial_get_rx_buffer_count, h, u8]

set_option maxRecDepth 100000 in
/-- C17 evaluated at its failing input (sample configuration, schedule of the claim): 100
data bytes raise the pause request, 100 reads empty the RX buffer while the request is still
pending, and the transmit interrupt, enabled since the request, then sends the pause byte.
The flow state is `XOFF_SENT` with an occupancy of 0, below `RX_BUFFER_LOW = 20`, and the
transmit interrupt is disabled.  From that state every continuation by writes, reads,
transmit interrupts and realtime command bytes leaves `flow_ctrl = XOFF_SENT` with an empty
RX buffer, every read returning `SERIAL_NO_DATA`: the resume byte is never requested. -/
theorem paused_sender_deadlock :
    (run_if sample_config (paused_schedule sample_config) (init_state sample_config)
        drained_run).map
        (fun s => (s.flow_ctrl, serial_get_rx_buffer_count sample_config s, s.UDRIE0, s.UDR0))
      = some (sample_config.XOFF_SENT, 0, false, [sample_config.XOFF_CHAR]) ∧
    0 < sample_config.RX_BUFFER_LOW ∧
    ∀ (s t : State) (ops : List Op),
      run_if sample_config (paused_schedule sample_config) (init_state sample_config)
        drained_run = some s →
      run_if sample_config (silent_schedule sample_config) s ops = some t →
      t.flow_ctrl = sample_config.XOFF_SENT ∧
        serial_get_rx_buffer_count sample_config t = 0 ∧
        (serial_read sample_config t).1 = sample_config.SERIAL_NO_DATA := by
  refine ⟨by decide, by decide, fun s t ops hs ht => ?_⟩
  have h0 : (run_if sample_config (paused_schedule sample_config) (init_state sample_config)
      drained_run).map
      (fun s => decide (paused_drained sample_config s)) = some true := by
    decide
  rw [hs] at h0
  simp only [Option.map_some', Option.some.injEq, decide_eq_true_eq] at h0
  have h1 := run_if_paused_drained sample_config (by decide) ops s t h0 ht
  refine ⟨h1.1, count_of_rx_empty sample_config t h1.2, ?_⟩
  rw [serial_read_empty sample_config t h1.2]

set_option maxRecDepth 100000 in
/-- C17 at a concrete continuation: after the failing run, a read, a write, the transmit
interrupt, a status-report command byte and another read leave the sender paused with an
empty RX buffer. -/
theorem paused_sender_deadlock_witness :
    run_if sample_config (paused_schedule sample_config) (init_state sample_config)
        drained_run = some drained_state ∧
      ∃ t : State,
        run_if sample_config (silent_schedule sample_config) drained_state
          [Op.read, Op.write 65, Op.tx, Op.rx 63, Op.read] = some t ∧
        t.flow_ctrl = sample_config.XOFF_SENT ∧
        serial_get_rx_buffer_count sample_config t = 0 ∧
        (serial_read sample_config t).1 = sample_config.SERIAL_NO_DATA :=
  ⟨rfl,
    (run_if sample_config (silent_schedule sample_config) drained_state
      [Op.read, Op.write 65, Op.tx, Op.rx 63, Op.read]).getD drained_state,
    rfl,
    paused_sender_deadlock.2.2 drained_state
      ((run_if sample_config (silent_schedule sample_config) drained_state
        [Op.read, Op.write 65, Op.tx, Op.rx 63, Op.read]).getD drained_state)
      [Op.read, Op.write 65, Op.tx, Op.rx 63, Op.read] rfl rfl⟩

set_option maxRecDepth 100000 in
/-- C16 evaluated at its failing input (sample configuration, AVR handlers): after 100 data
bytes and `serial_reset_read_buffer`, `UDRIE0` is set although the TX buffer is empty (head
and tail 0) and `flow_ctrl` is `XON_SENT`, no request pending; the transmit interrupt, which
may fire, then writes the stale byte `serial_tx_buffer[0]` to `UDR0` and advances the TX tail
to 1, past the head, leaving `UDRIE0` set. -/
theorem tx_from_empty_buffer :
    (run_if sample_config irq_schedule (init_state sample_config)
        (List.replicate 100 (Op.rx 65) ++ [Op.reset_read])).map
        (fun s => (s.UDRIE0, s.serial_tx_buffer_head, s.serial_tx_buffer_tail, s.flow_ctrl))
      = some (true, 0, 0, sample_config.XON_SENT) ∧
    (run_if sample_config irq_schedule (init_state sample_config)
        (List.replicate 100 (Op.rx 65) ++ [Op.reset_read, Op.tx])).map
        (fun s => (s.UDR0, s.serial_tx_buffer_head, s.serial_tx_buffer_tail, s.UDRIE0))
      = some ([0], 0, 1, true) := by
  decide

theorem ISR_SERIAL_UDRE_ctrl_irq (cfg : Config) (s : State) (hp : flow_pending cfg s)
    (he : (ISR_SERIAL_UDRE cfg s).UDRIE0 = true) :
    s.serial_tx_buffer_head ≠ s.serial_tx_buffer_tail := by
  obtain ⟨hX, hf⟩ := hp
  intro heq
  by_cases h1 : s.flow_ctrl = cfg.SEND_XOFF
  · have e1 := eq_true h1
    simp only [ISR_SERIAL_UDRE, hX, e1, and_self, if_true, heq] at he
    simp at he
  · have h2 : s.flow_ctrl = cfg.SEND_XON := by tauto
    have e1 := eq_false h1
    have e2 := eq_true h2
    simp only [ISR_SERIAL_UDRE, hX, e1, e2, and_false, and_self, if_false, if_true, heq] at he
    simp at he

theorem step_tx_inv (cfg : Config) (s s1 : State) (op : Op)
    (hreset : op = Op.reset_read → ¬ flow_pending cfg s)
    (husart : ∀ r x, op ≠ Op.usart1 r x)
    (h : tx_inv cfg s) (hs : step cfg s op = some s1) : tx_inv cfg s1 := by
  cases op with
  | write b =>
    rcases serial_write_cases cfg s s1 b 1 hs with e | ⟨hnf, e1, e2, e⟩
    · rw [e]
      exact h
    · rw [e]
      intro _
      exact Or.inl hnf
  | read =>
    simp only [step, Option.some.injEq] at hs
    rw [← hs]
    by_cases he : s.serial_rx_buffer_head = s.serial_rx_buffer_tail
    · rw [serial_read_empty cfg s he]
      exact h
    · rw [serial_read_pop_eq cfg s he]
      split_ifs with hc
      · intro _
        exact Or.inr ⟨hc.1, Or.inr rfl⟩
      · exact h
  | reset_read =>
    simp only [step, Option.some.injEq] at hs
    rw [← hs]
    obtain ⟨_, _, _, _, r5, r6, _, _, r9, _, _⟩ := serial_reset_read_buffer_frame cfg s
    intro he
    rw [r9] at he
    rw [r5, r6]
    rcases h he with h' | h'
    · exact Or.inl h'
    · exact absurd h' (hreset rfl)
  | rx b =>
    simp only [step, Option.some.injEq] at hs
    rw [← hs]
    by_cases hb : is_realtime cfg b
    · obtain ⟨_, _, _, a4⟩ := ISR_SERIAL_RX_realtime cfg s b hb
      obtain ⟨_, f2, f3, _, _, f6, _⟩ := ISR_SERIAL_RX_realtime_frame cfg s b hb
      unfold tx_inv
      rw [f6, f2, f3, flow_pending_congr cfg _ s a4]
      exact h
    · rw [ISR_SERIAL_RX_data cfg s b hb]
      unfold rx_push
      split_ifs with h1 h2
      · intro _
        exact Or.inr ⟨h2.1, Or.inl rfl⟩
      · exact h
      · exact h
  | tx =>
    simp only [step, Option.some.injEq] at hs
    rw [← hs]
    by_cases hp : flow_pending cfg s
    · obtain ⟨_, _, _, a4, a5, _⟩ := ISR_SERIAL_UDRE_ctrl cfg s hp
      intro he
      rw [a4, a5]
      exact Or.inl (ISR_SERIAL_UDRE_ctrl_irq cfg s hp he)
    · rw [ISR_SERIAL_UDRE_data cfg s hp]
      split_ifs with hc
      · intro he
        simp at he
      · intro _
        exact Or.inl (fun e => hc e.symm)
  | usart1 r x => exact absurd rfl (husart r x)

/-- Every operation other than a `serial_reset_read_buffer` issued while a flow-control
request is pending keeps the transmit interrupt consistent: over runs of the AVR operations
whose schedule permits the reset only when no request is pending, `UDRIE0` set implies a
non-empty TX buffer or a pending request. -/
theorem run_if_tx_inv (cfg : Config) (ok : State → Op → Bool)
    (hreset : ∀ t : State, ok t Op.reset_read = true → ¬ flow_pending cfg t)
    (husart : ∀ (t : State) (r : Option Nat) (x : Bool), ok t (Op.usart1 r x) = false)
    (ops : List Op) :
    ∀ s s1 : State, tx_inv cfg s → run_if cfg ok s ops = some s1 → tx_inv cfg s1 := by
  induction ops with
  | nil =>
    intro s s1 h hr
    simp only [run_if, Option.some.injEq] at hr
    rw [← hr]
    exact h
  | cons op ops ih =>
    intro s s1 h hr
    simp only [run_if] at hr
    split_ifs at hr with hk
    cases hst : step cfg s op with
    | none => simp [hst] at hr
    | some s2 =>
      simp only [hst] at hr
      refine ih s2 s1 (step_tx_inv cfg s s2 op (fun e => hreset s (by rw [← e]; exact hk))
        (fun r x e => ?_) h hst) hr
      rw [e, husart s r x] at hk
      cases hk

end Serial
